import Mathlib

/-!
# Surface collision queries of `surface_collision.c`

A shallow embedding of the wall, ceiling and floor queries of
`src/_misc/surface_collision.c`, followed by theorems about them.

Conventions of the embedding.

* `f32` values are rational numbers (`ℚ`): arithmetic is exact, there is no
  rounding, no infinity and no NaN.  Division by zero follows Lean's
  convention `q / 0 = 0`.  The plane-height division of the floor and ceiling
  scans is guarded by `ny == 0.0f`; `add_ceil_margin` and the wall scan divide
  unguarded, and there `q / 0 = 0` stands where IEEE arithmetic gives an
  infinity or a NaN.
* `s16`/`s32` values are `Int`.  Conversions to `s16` wrap modulo `2^16`
  (`toS16`), conversions from `f32` to an integer truncate toward zero
  (`truncToInt`); the conversion of an `f32` to `s16` is the truncation
  followed by the wrap, as the target's compiler emits it.  `s32` arithmetic
  is not wrapped: the values stay within a few multiples of
  `LEVEL_BOUNDARY_MAX`.
* A linked list of `SurfaceNode`s is the `List Surface` of the surfaces it
  references, in list order; a `struct Surface *` is an `Option Surface`.
* The constants that the file takes from headers outside `src/`
  (`LEVEL_BOUNDARY_MAX`, `CELL_SIZE`, `FLOOR_LOWER_LIMIT`, the surface types
  and flags) and libm's `sqrtf` are fields of `Config`; every theorem
  quantified over a `Config` holds for all their values.
* The debug counters `gNumCalls` and `gNumFindFloorMisses` are written but
  never read by the queries and are left out.
-/

namespace SurfaceCollision

/-! ## Data model -/

/-- The type `Vec3s`: three signed 16-bit components, `[0]`, `[1]`, `[2]` in the source. -/
structure Vec3s where
  x : Int
  y : Int
  z : Int
deriving DecidableEq

/-- The `normal` member of `struct Surface`: three `f32` components. -/
structure Vec3f where
  x : ℚ
  y : ℚ
  z : ℚ
deriving DecidableEq

/-- The members of `struct Surface` that `surface_collision.c` reads. -/
structure Surface where
  type : Int
  flags : Int
  lowerY : Int
  upperY : Int
  vertex1 : Vec3s
  vertex2 : Vec3s
  vertex3 : Vec3s
  normal : Vec3f
  originOffset : ℚ
deriving DecidableEq

/-- Constants and library functions used by `surface_collision.c` whose
definitions live outside `src/`. -/
structure Config where
  LEVEL_BOUNDARY_MAX : Int
  CELL_SIZE : Int
  NUM_CELLS_INDEX : Int
  FLOOR_LOWER_LIMIT : ℚ
  CELL_HEIGHT_LIMIT : ℚ
  SURFACE_CAMERA_BOUNDARY : Int
  SURFACE_VANISH_CAP_WALLS : Int
  SURFACE_HANGABLE : Int
  SURFACE_INTANGIBLE : Int
  SURFACE_FLAG_NO_CAM_COLLISION : Int
  sqrtf : ℚ → ℚ

/-- One cell of a surface partition: the three lists reached through
`[SPATIAL_PARTITION_FLOORS].next`, `[SPATIAL_PARTITION_CEILS].next` and
`[SPATIAL_PARTITION_WALLS].next`. -/
structure SpatialPartitionCell where
  floors : List Surface
  ceils : List Surface
  walls : List Surface

/-- A partition `g…SurfacePartition[cellZ][cellX]`, indexed by `cellZ` then `cellX`. -/
abbrev SurfacePartition := Int → Int → SpatialPartitionCell

/-- The global variables read or written by the queries.
`currentObjectMovesThroughGrate` is the value of the condition of lines 87-88
(`gCurrentObject != NULL && (gCurrentObject->activeFlags & ACTIVE_FLAG_MOVE_THROUGH_GRATE)`),
`currentObjectIsVanishMario` the value of the condition of lines 93-94
(`gCurrentObject != NULL && gCurrentObject == gMarioObject && (gMarioState->flags & MARIO_VANISH_CAP)`). -/
structure Globals where
  gCheckingSurfaceCollisionsForCamera : Bool
  gFindFloorIncludeSurfaceIntangible : Bool
  currentObjectMovesThroughGrate : Bool
  currentObjectIsVanishMario : Bool
  gStaticSurfacePartition : SurfacePartition
  gDynamicSurfacePartition : SurfacePartition

/-! ## Integer conversions and the cell index -/

/-- Conversion of an integer to `s16`: two's complement wrap-around. -/
def toS16 (i : Int) : Int :=
  (i + 32768) % 65536 - 32768

/-- Conversion of an `f32` to an integer type: truncation toward zero. -/
def truncToInt (q : ℚ) : Int :=
  if 0 ≤ q then ⌊q⌋ else ⌈q⌉

/-- The expression `((coord + LEVEL_BOUNDARY_MAX) / CELL_SIZE) & NUM_CELLS_INDEX`
on an integer coordinate (C's `/` truncates toward zero). -/
def cellIndex (c : Config) (coord : Int) : Int :=
  Int.land (Int.tdiv (coord + c.LEVEL_BOUNDARY_MAX) c.CELL_SIZE) c.NUM_CELLS_INDEX

/-- The camera/normal mode rule shared by the floor and ceiling scans
(lines 354-362 and 526-534): `true` when the surface is skipped. -/
def excludedByMode (c : Config) (cam : Bool) (surf : Surface) : Bool :=
  if cam then
    if Int.land surf.flags c.SURFACE_FLAG_NO_CAM_COLLISION ≠ 0 then true else false
  else if surf.type = c.SURFACE_CAMERA_BOUNDARY then true
  else false

/-! ## Floors -/

/-- Lines 504-551 of `find_floor_from_list`: the checks on one surface.
`none` when one of the `continue`s is taken, `some newHeight` when control
reaches the comparison of line 553. -/
def floor_newHeight (c : Config) (cam : Bool) (surf : Surface) (x y z : ℚ) : Option ℚ :=
  let x1 : ℚ := surf.vertex1.x
  let z1 : ℚ := surf.vertex1.z
  let x2 : ℚ := surf.vertex2.x
  let z2 : ℚ := surf.vertex2.z
  if (z1 - z) * (x2 - x1) - (x1 - x) * (z2 - z1) < 0 then none
  else
    let x3 : ℚ := surf.vertex3.x
    let z3 : ℚ := surf.vertex3.z
    if (z2 - z) * (x3 - x2) - (x2 - x) * (z3 - z2) < 0 then none
    else if (z3 - z) * (x1 - x3) - (x3 - x) * (z1 - z3) < 0 then none
    else if excludedByMode c cam surf = true then none
    else
      let nx := surf.normal.x
      let ny := surf.normal.y
      let nz := surf.normal.z
      let oo := surf.originOffset
      if ny = 0 then none
      else
        let newHeight := -(x * nx + nz * z + oo) / ny
        if y - (newHeight + -78) < 0 then none
        else some newHeight

/-- The `while` loop of `find_floor_from_list`.  The state is the pair
(`floor`, `height`): the local `height` is read only when `floor != NULL`
(the `||` of line 553 short-circuits), and then holds the value stored with
`floor`; `none` is `floor == NULL`. -/
def find_floor_loop (c : Config) (cam : Bool) (x y z : ℚ) :
    List Surface → Option (Surface × ℚ) → Option (Surface × ℚ)
  | [], st => st
  | surf :: rest, st =>
    match floor_newHeight c cam surf x y z with
    | none => find_floor_loop c cam x y z rest st
    | some newHeight =>
      match st with
      | none => find_floor_loop c cam x y z rest (some (surf, newHeight))
      | some (floor, height) =>
        if newHeight > height then find_floor_loop c cam x y z rest (some (surf, newHeight))
        else find_floor_loop c cam x y z rest (some (floor, height))

/-- The function `find_floor_from_list`: returns the surface and the final
value of `*pheight`, which line 555 overwrites with `height` at every update
of `floor` and which keeps its value `pheight` on entry otherwise. -/
def find_floor_from_list (c : Config) (cam : Bool) (surfaceNode : List Surface)
    (x y z : ℚ) (pheight : ℚ) : Option Surface × ℚ :=
  match find_floor_loop c cam x y z surfaceNode none with
  | none => (none, pheight)
  | some (floor, height) => (some floor, height)

/-- What `find_floor` hands back: the returned height, `*pfloor`, and the
global state after the call. -/
structure FloorResult where
  height : ℚ
  pfloor : Option Surface
  globals : Globals

/-- The function `find_floor` (lines 602-671). -/
def find_floor (c : Config) (g : Globals) (xPos yPos zPos : ℚ) : FloorResult :=
  let height := c.FLOOR_LOWER_LIMIT
  let dynamicHeight := c.FLOOR_LOWER_LIMIT
  if xPos ≤ -(c.LEVEL_BOUNDARY_MAX : ℚ) ∨ xPos ≥ (c.LEVEL_BOUNDARY_MAX : ℚ) then
    FloorResult.mk height none g
  else if zPos ≤ -(c.LEVEL_BOUNDARY_MAX : ℚ) ∨ zPos ≥ (c.LEVEL_BOUNDARY_MAX : ℚ) then
    FloorResult.mk height none g
  else
    let cellX := toS16 (cellIndex c (truncToInt xPos))
    let cellZ := toS16 (cellIndex c (truncToInt zPos))
    let dyn := find_floor_from_list c g.gCheckingSurfaceCollisionsForCamera
      (g.gDynamicSurfacePartition cellZ cellX).floors xPos yPos zPos dynamicHeight
    let surfaceList := (g.gStaticSurfacePartition cellZ cellX).floors
    let stat := find_floor_from_list c g.gCheckingSurfaceCollisionsForCamera
      surfaceList xPos yPos zPos height
    let statAndGlobals : (Option Surface × ℚ) × Globals :=
      if g.gFindFloorIncludeSurfaceIntangible = false then
        match stat.1 with
        | some floor =>
          if floor.type = c.SURFACE_INTANGIBLE then
            (find_floor_from_list c g.gCheckingSurfaceCollisionsForCamera
              surfaceList xPos (stat.2 - 200) zPos stat.2, g)
          else (stat, g)
        | none => (stat, g)
      else
        (stat, Globals.mk g.gCheckingSurfaceCollisionsForCamera false
          g.currentObjectMovesThroughGrate g.currentObjectIsVanishMario
          g.gStaticSurfacePartition g.gDynamicSurfacePartition)
    if dyn.2 > statAndGlobals.1.2 then
      FloorResult.mk dyn.2 dyn.1 statAndGlobals.2
    else
      FloorResult.mk statAndGlobals.1.2 statAndGlobals.1.1 statAndGlobals.2

/-! ## Ceilings -/

/-- The function `add_ceil_margin` (lines 301-308): returns the new `(*x, *z)`. -/
def add_ceil_margin (c : Config) (x z : ℚ) (target1 target2 : Vec3s) (margin : ℚ) : ℚ × ℚ :=
  let diff_x : ℚ := (target1.x : ℚ) - x + (target2.x : ℚ) - x
  let diff_z : ℚ := (target1.z : ℚ) - z + (target2.z : ℚ) - z
  let invDenom := margin / c.sqrtf (diff_x * diff_x + diff_z * diff_z)
  (x + diff_x * invDenom, z + diff_z * invDenom)

/-- The vertex `(x, z)` used by the ceiling containment test: margin-adjusted
unless the surface is hangable (lines 326-329, 331-334, 342-345). -/
def ceil_vertex (c : Config) (surf : Surface) (v target1 target2 : Vec3s) : ℚ × ℚ :=
  if surf.type ≠ c.SURFACE_HANGABLE then
    add_ceil_margin c (v.x : ℚ) (v.z : ℚ) target1 target2 (3 / 2)
  else ((v.x : ℚ), (v.z : ℚ))

/-- Lines 326-385 of `find_ceil_from_list`: the checks on one surface.
`none` when one of the `continue`s is taken, `some newHeight` when control
reaches the comparison of line 387. -/
def ceil_newHeight (c : Config) (cam : Bool) (surf : Surface) (x y z : ℚ) : Option ℚ :=
  let p1 := ceil_vertex c surf surf.vertex1 surf.vertex2 surf.vertex3
  let x1 := p1.1
  let z1 := p1.2
  let p2 := ceil_vertex c surf surf.vertex2 surf.vertex3 surf.vertex1
  let x2 := p2.1
  let z2 := p2.2
  if (z1 - z) * (x2 - x1) - (x1 - x) * (z2 - z1) > 0 then none
  else
    let p3 := ceil_vertex c surf surf.vertex3 surf.vertex1 surf.vertex2
    let x3 := p3.1
    let z3 := p3.2
    if (z2 - z) * (x3 - x2) - (x2 - x) * (z3 - z2) > 0 then none
    else if (z3 - z) * (x1 - x3) - (x3 - x) * (z1 - z3) > 0 then none
    else if excludedByMode c cam surf = true then none
    else
      let nx := surf.normal.x
      let ny := surf.normal.y
      let nz := surf.normal.z
      let oo := surf.originOffset
      if ny = 0 then none
      else
        let newHeight := -(x * nx + nz * z + oo) / ny
        if y - (newHeight - -78) > 0 then none
        else some newHeight

/-- The `while` loop of `find_ceil_from_list`.  The state is the pair
(`ceil`, `height`): `height` is declared inside the loop body, is read only
when `ceil != NULL`, and is taken to keep the value stored at the last update
of `ceil` from one iteration to the next. -/
def find_ceil_loop (c : Config) (cam : Bool) (x y z : ℚ) :
    List Surface → Option (Surface × ℚ) → Option (Surface × ℚ)
  | [], st => st
  | surf :: rest, st =>
    match ceil_newHeight c cam surf x y z with
    | none => find_ceil_loop c cam x y z rest st
    | some newHeight =>
      match st with
      | none => find_ceil_loop c cam x y z rest (some (surf, newHeight))
      | some (ceil, height) =>
        if newHeight < height then find_ceil_loop c cam x y z rest (some (surf, newHeight))
        else find_ceil_loop c cam x y z rest (some (ceil, height))

/-- The function `find_ceil_from_list`: returns the surface and the final
value of `*pheight`. -/
def find_ceil_from_list (c : Config) (cam : Bool) (surfaceNode : List Surface)
    (x y z : ℚ) (pheight : ℚ) : Option Surface × ℚ :=
  match find_ceil_loop c cam x y z surfaceNode none with
  | none => (none, pheight)
  | some (ceil, height) => (some ceil, height)

/-- The function `find_ceil` (lines 401-443): returns the height and `*pceil`. -/
def find_ceil (c : Config) (g : Globals) (xPos yPos zPos : ℚ) : ℚ × Option Surface :=
  let height := c.CELL_HEIGHT_LIMIT
  let dynamicHeight := c.CELL_HEIGHT_LIMIT
  if xPos ≤ -(c.LEVEL_BOUNDARY_MAX : ℚ) ∨ xPos ≥ (c.LEVEL_BOUNDARY_MAX : ℚ) then
    (height, none)
  else if zPos ≤ -(c.LEVEL_BOUNDARY_MAX : ℚ) ∨ zPos ≥ (c.LEVEL_BOUNDARY_MAX : ℚ) then
    (height, none)
  else
    let cellX := toS16 (cellIndex c (truncToInt xPos))
    let cellZ := toS16 (cellIndex c (truncToInt zPos))
    let dyn := find_ceil_from_list c g.gCheckingSurfaceCollisionsForCamera
      (g.gDynamicSurfacePartition cellZ cellX).ceils xPos yPos zPos dynamicHeight
    let stat := find_ceil_from_list c g.gCheckingSurfaceCollisionsForCamera
      (g.gStaticSurfacePartition cellZ cellX).ceils xPos yPos zPos height
    if dyn.2 < stat.2 then (dyn.2, dyn.1)
    else (stat.2, stat.1)

/-! ## Walls -/

/-- The type `struct WallCollisionData`.  The array `walls[4]` is the map from a
slot index to what has been stored there (`none`: never written). -/
structure WallCollisionData where
  x : ℚ
  y : ℚ
  z : ℚ
  offsetY : ℚ
  radius : ℚ
  numWalls : Nat
  walls : Nat → Option Surface

/-- The mode rule of the wall scan (lines 72-98): `true` when the surface is skipped. -/
def wallExcludedByMode (c : Config) (g : Globals) (surf : Surface) : Bool :=
  if g.gCheckingSurfaceCollisionsForCamera = true then
    if Int.land surf.flags c.SURFACE_FLAG_NO_CAM_COLLISION ≠ 0 then true else false
  else if surf.type = c.SURFACE_CAMERA_BOUNDARY then true
  else if surf.type = c.SURFACE_VANISH_CAP_WALLS then
    if g.currentObjectMovesThroughGrate = true then true
    else if g.currentObjectIsVanishMario = true then true
    else false
  else false

/-- How the block of one edge ends: control goes on to the next label
(`next`), the surface is left with `continue` after the push (`rejected`),
or control jumps to `hasCollision`.  The three numbers are `x`, `z` and
`margin_radius` after the block. -/
inductive EdgeResult where
  | next : EdgeResult
  | rejected : ℚ → ℚ → ℚ → EdgeResult
  | hasCollision : ℚ → ℚ → ℚ → EdgeResult

/-- The body of an edge block, entered when the edge's vertical span `ey` is
non-zero; the source repeats it verbatim at lines 136-153, 159-176 and
190-206.  `(ex, ey, ez)` is the edge vector, `(v2x, v2y, v2z)` the probe
relative to the edge's first vertex. -/
def wall_edge (c : Config) (surf : Surface) (ex ey ez v2x v2y v2z : ℚ)
    (x z margin_radius : ℚ) : EdgeResult :=
  let v := v2y / ey
  if v < 0 ∨ v > 1 then EdgeResult.next
  else
    let d00 := ex * v - v2x
    let d01 := ez * v - v2z
    let invDenom := c.sqrtf (d00 * d00 + d01 * d01)
    let offset := invDenom - margin_radius
    if offset > 0 then EdgeResult.next
    else
      let invDenom := offset / invDenom
      let d00 := d00 * invDenom
      let x := x + d00
      let d01 := d01 * invDenom
      let z := z + d01
      let margin_radius := margin_radius + 1 / 100
      if d00 * surf.normal.x + d01 * surf.normal.z < (-9 / 10) * offset then
        EdgeResult.rejected x z margin_radius
      else EdgeResult.hasCollision x z margin_radius

/-- The effect of one loop iteration of `find_wall_collisions_from_list` on
the running `x`, `z` and `margin_radius`, and whether it ended at
`hasCollision`. -/
structure WallStep where
  x : ℚ
  z : ℚ
  margin_radius : ℚ
  hasCollision : Bool

/-- The end of an iteration that ran an edge block: `next` after the last
block is the `continue` of lines 192, 198 and 209. -/
def WallStep.ofEdge (x z margin_radius : ℚ) : EdgeResult → WallStep
  | EdgeResult.next => WallStep.mk x z margin_radius false
  | EdgeResult.rejected x1 z1 m1 => WallStep.mk x1 z1 m1 false
  | EdgeResult.hasCollision x1 z1 m1 => WallStep.mk x1 z1 m1 true

/-- Lines 58-209 of `find_wall_collisions_from_list`: one surface, from the
running `x`, `z`, `margin_radius`; `radius` is the clamped radius and `y` the
probe height `data->y + data->offsetY`. -/
def wall_surface (c : Config) (g : Globals) (surf : Surface) (radius y : ℚ)
    (x z margin_radius : ℚ) : WallStep :=
  if y < (surf.lowerY : ℚ) ∨ y > (surf.upperY : ℚ) then WallStep.mk x z margin_radius false
  else
    let offset := surf.normal.x * x + surf.normal.y * y + surf.normal.z * z + surf.originOffset
    if offset < 0 ∨ offset > radius then WallStep.mk x z margin_radius false
    else if wallExcludedByMode c g surf = true then WallStep.mk x z margin_radius false
    else
      let v0x : ℚ := ((surf.vertex2.x - surf.vertex1.x : Int) : ℚ)
      let v0y : ℚ := ((surf.vertex2.y - surf.vertex1.y : Int) : ℚ)
      let v0z : ℚ := ((surf.vertex2.z - surf.vertex1.z : Int) : ℚ)
      let v1x : ℚ := ((surf.vertex3.x - surf.vertex1.x : Int) : ℚ)
      let v1y : ℚ := ((surf.vertex3.y - surf.vertex1.y : Int) : ℚ)
      let v1z : ℚ := ((surf.vertex3.z - surf.vertex1.z : Int) : ℚ)
      let v2x : ℚ := x - (surf.vertex1.x : ℚ)
      let v2y : ℚ := y - (surf.vertex1.y : ℚ)
      let v2z : ℚ := z - (surf.vertex1.z : ℚ)
      let d00 := v0x * v0x + v0y * v0y + v0z * v0z
      let d01 := v0x * v1x + v0y * v1y + v0z * v1z
      let d11 := v1x * v1x + v1y * v1y + v1z * v1z
      let d20 := v2x * v0x + v2y * v0y + v2z * v0z
      let d21 := v2x * v1x + v2y * v1y + v2z * v1z
      let invDenom := 1 / (d00 * d11 - d01 * d01)
      let v := (d11 * d20 - d01 * d21) * invDenom
      let w := (d00 * d21 - d01 * d20) * invDenom
      if ¬ (v < 0 ∨ v > 1) ∧ ¬ (w < 0 ∨ w > 1 ∨ v + w > 1) then
        WallStep.mk (x + surf.normal.x * (radius - offset))
          (z + surf.normal.z * (radius - offset)) margin_radius true
      else if offset < 0 then WallStep.mk x z margin_radius false
      else
        match (if v0y ≠ 0 then wall_edge c surf v0x v0y v0z v2x v2y v2z x z margin_radius
               else EdgeResult.next) with
        | EdgeResult.rejected x1 z1 m1 => WallStep.mk x1 z1 m1 false
        | EdgeResult.hasCollision x1 z1 m1 => WallStep.mk x1 z1 m1 true
        | EdgeResult.next =>
          match (if v1y ≠ 0 then wall_edge c surf v1x v1y v1z v2x v2y v2z x z margin_radius
                 else EdgeResult.next) with
          | EdgeResult.rejected x1 z1 m1 => WallStep.mk x1 z1 m1 false
          | EdgeResult.hasCollision x1 z1 m1 => WallStep.mk x1 z1 m1 true
          | EdgeResult.next =>
            let e1x : ℚ := ((surf.vertex3.x - surf.vertex2.x : Int) : ℚ)
            let e1y : ℚ := ((surf.vertex3.y - surf.vertex2.y : Int) : ℚ)
            let e1z : ℚ := ((surf.vertex3.z - surf.vertex2.z : Int) : ℚ)
            let e2x : ℚ := x - (surf.vertex2.x : ℚ)
            let e2y : ℚ := y - (surf.vertex2.y : ℚ)
            let e2z : ℚ := z - (surf.vertex2.z : ℚ)
            if e1y ≠ 0 then
              WallStep.ofEdge x z margin_radius
                (wall_edge c surf e1x e1y e1z e2x e2y e2z x z margin_radius)
            else WallStep.mk x z margin_radius false

/-- The variables that live across iterations of the loop of
`find_wall_collisions_from_list`. -/
structure WallLoop where
  x : ℚ
  z : ℚ
  margin_radius : ℚ
  numWalls : Nat
  walls : Nat → Option Surface
  numCols : Int

/-- The `while` loop of `find_wall_collisions_from_list` (lines 57-220). -/
def find_wall_collisions_loop (c : Config) (g : Globals) (radius y : ℚ) :
    List Surface → WallLoop → WallLoop
  | [], st => st
  | surf :: rest, st =>
    let r := wall_surface c g surf radius y st.x st.z st.margin_radius
    if r.hasCollision = true then
      if st.numWalls < 4 then
        find_wall_collisions_loop c g radius y rest
          (WallLoop.mk r.x r.z r.margin_radius (st.numWalls + 1)
            (Function.update st.walls st.numWalls (some surf)) (st.numCols + 1))
      else
        find_wall_collisions_loop c g radius y rest
          (WallLoop.mk r.x r.z r.margin_radius st.numWalls st.walls (st.numCols + 1))
    else
      find_wall_collisions_loop c g radius y rest
        (WallLoop.mk r.x r.z r.margin_radius st.numWalls st.walls st.numCols)

/-- The function `find_wall_collisions_from_list` (lines 21-232, built without
`EXT_BOUNDARIES`): returns `numCols` and the updated `*data`. -/
def find_wall_collisions_from_list (c : Config) (g : Globals) (surfaceNode : List Surface)
    (data : WallCollisionData) : Int × WallCollisionData :=
  let radius := data.radius
  let x := data.x
  let y := data.y + data.offsetY
  let z := data.z
  let margin_radius := radius - 1
  let radius := if radius > 200 then 200 else radius
  let st := find_wall_collisions_loop c g radius y surfaceNode
    (WallLoop.mk x z margin_radius data.numWalls data.walls 0)
  (st.numCols, WallCollisionData.mk st.x data.y st.z data.offsetY data.radius st.numWalls st.walls)

/-- The function `find_wall_collisions` (lines 262-295): returns `numCollisions`
and the updated `*colData`. -/
def find_wall_collisions (c : Config) (g : Globals) (colData : WallCollisionData) :
    Int × WallCollisionData :=
  let x := toS16 (truncToInt colData.x)
  let z := toS16 (truncToInt colData.z)
  let colData := WallCollisionData.mk colData.x colData.y colData.z colData.offsetY
    colData.radius 0 colData.walls
  if x ≤ -c.LEVEL_BOUNDARY_MAX ∨ x ≥ c.LEVEL_BOUNDARY_MAX then (0, colData)
  else if z ≤ -c.LEVEL_BOUNDARY_MAX ∨ z ≥ c.LEVEL_BOUNDARY_MAX then (0, colData)
  else
    let cellX := toS16 (cellIndex c x)
    let cellZ := toS16 (cellIndex c z)
    let dyn := find_wall_collisions_from_list c g
      (g.gDynamicSurfacePartition cellZ cellX).walls colData
    let stat := find_wall_collisions_from_list c g
      (g.gStaticSurfacePartition cellZ cellX).walls dyn.2
    (dyn.1 + stat.1, stat.2)

/-! ## Environmental boxes -/

/-- The loop of `find_water_level` (lines 691-706) with `remaining` iterations
left and `p` pointing at index `pos` of the array: the value of `waterLevel`
when the loop is left.  The array is the map from an index to the `s16`
stored there. -/
def find_water_level_loop (c : Config) (p : Nat → Int) (x z : ℚ) : Nat → Nat → ℚ
  | 0, _ => c.FLOOR_LOWER_LIMIT
  | remaining + 1, pos =>
    let val : Int := p pos
    let loX : ℚ := (p (pos + 1) : ℚ)
    let loZ : ℚ := (p (pos + 2) : ℚ)
    let hiX : ℚ := (p (pos + 3) : ℚ)
    let hiZ : ℚ := (p (pos + 4) : ℚ)
    if loX < x ∧ x < hiX ∧ loZ < z ∧ z < hiZ ∧ val < 50 then (p (pos + 5) : ℚ)
    else find_water_level_loop c p x z remaining (pos + 6)

/-- The function `find_water_level` (lines 680-710); `gEnvironmentRegions` is
the global pointer it reads, `none` when it is `NULL`. -/
def find_water_level (c : Config) (gEnvironmentRegions : Option (Nat → Int)) (x z : ℚ) : ℚ :=
  match gEnvironmentRegions with
  | none => c.FLOOR_LOWER_LIMIT
  | some p => find_water_level_loop c p x z (p 0).toNat 1

/-- The loop of `find_poison_gas_level` (lines 727-746) with `remaining`
iterations left and `p` pointing at index `pos` of the array: the value of
`gasLevel` when the loop is left. -/
def find_poison_gas_level_loop (c : Config) (p : Nat → Int) (x z : ℚ) : Nat → Nat → ℚ
  | 0, _ => c.FLOOR_LOWER_LIMIT
  | remaining + 1, pos =>
    let val : Int := p pos
    if val ≥ 50 then
      let loX : ℚ := (p (pos + 1) : ℚ)
      let loZ : ℚ := (p (pos + 2) : ℚ)
      let hiX : ℚ := (p (pos + 3) : ℚ)
      let hiZ : ℚ := (p (pos + 4) : ℚ)
      if loX < x ∧ x < hiX ∧ loZ < z ∧ z < hiZ ∧ Int.tmod val 10 = 0 then (p (pos + 5) : ℚ)
      else find_poison_gas_level_loop c p x z remaining (pos + 6)
    else find_poison_gas_level_loop c p x z remaining (pos + 6)

/-- The function `find_poison_gas_level` (lines 715-750). -/
def find_poison_gas_level (c : Config) (gEnvironmentRegions : Option (Nat → Int))
    (x z : ℚ) : ℚ :=
  match gEnvironmentRegions with
  | none => c.FLOOR_LOWER_LIMIT
  | some p => find_poison_gas_level_loop c p x z (p 0).toNat 1

/-! ## Specification-side definitions -/

/-- The signed-area expression of a half-plane test: the edge from `(ax, az)`
to `(bx, bz)` against the point `(x, z)`. -/
def halfPlane (ax az bx bz x z : ℚ) : ℚ :=
  (az - z) * (bx - ax) - (ax - x) * (bz - az)

/-- The height `h = -(nx*x + nz*z + oo)/ny` of the surface's plane over `(x, z)`. -/
def planeHeight (surf : Surface) (x z : ℚ) : ℚ :=
  -(surf.normal.x * x + surf.normal.z * z + surf.originOffset) / surf.normal.y

/-- The camera-mode rule in words: in camera mode the surfaces flagged
no-camera-collision are excluded, in normal mode the camera-boundary surfaces. -/
def ExcludedInMode (c : Config) (cam : Bool) (surf : Surface) : Prop :=
  (cam = true ∧ Int.land surf.flags c.SURFACE_FLAG_NO_CAM_COLLISION ≠ 0) ∨
  (cam = false ∧ surf.type = c.SURFACE_CAMERA_BOUNDARY)

instance (c : Config) (cam : Bool) (surf : Surface) : Decidable (ExcludedInMode c cam surf) := by
  unfold ExcludedInMode
  infer_instance

/-- A floor surface is accepted at the probe `(x, y, z)`: the three `>= 0`
half-plane tests on the unmodified vertices pass, the mode rule does not
exclude it, `ny != 0`, and `y >= h - 78`. -/
def FloorAccepted (c : Config) (cam : Bool) (surf : Surface) (x y z : ℚ) : Prop :=
  0 ≤ halfPlane surf.vertex1.x surf.vertex1.z surf.vertex2.x surf.vertex2.z x z ∧
  0 ≤ halfPlane surf.vertex2.x surf.vertex2.z surf.vertex3.x surf.vertex3.z x z ∧
  0 ≤ halfPlane surf.vertex3.x surf.vertex3.z surf.vertex1.x surf.vertex1.z x z ∧
  ¬ ExcludedInMode c cam surf ∧
  surf.normal.y ≠ 0 ∧
  y ≥ planeHeight surf x z - 78

instance (c : Config) (cam : Bool) (surf : Surface) (x y z : ℚ) :
    Decidable (FloorAccepted c cam surf x y z) := by
  unfold FloorAccepted
  infer_instance

/-- The surface `s` is the first one, in the order of `l`, whose plane height is
the maximum over the accepted floors of `l`: it occurs in `l`, is accepted,
every accepted surface before it is strictly lower and every accepted
surface after it is at most as high. -/
def FirstHighestFloor (c : Config) (cam : Bool) (x y z : ℚ) (l : List Surface)
    (s : Surface) : Prop :=
  ∃ pre post, l = pre ++ s :: post ∧ FloorAccepted c cam s x y z ∧
    (∀ t ∈ pre, FloorAccepted c cam t x y z → planeHeight t x z < planeHeight s x z) ∧
    (∀ t ∈ post, FloorAccepted c cam t x y z → planeHeight t x z ≤ planeHeight s x z)

/-- A ceiling surface is accepted at the probe `(x, y, z)`: the three `<= 0`
half-plane tests on the margin-adjusted vertices (the unmodified vertices for
a hangable surface) pass, the mode rule does not exclude it, `ny != 0`, and
`y <= h + 78`. -/
def CeilAccepted (c : Config) (cam : Bool) (surf : Surface) (x y z : ℚ) : Prop :=
  halfPlane (ceil_vertex c surf surf.vertex1 surf.vertex2 surf.vertex3).1
      (ceil_vertex c surf surf.vertex1 surf.vertex2 surf.vertex3).2
      (ceil_vertex c surf surf.vertex2 surf.vertex3 surf.vertex1).1
      (ceil_vertex c surf surf.vertex2 surf.vertex3 surf.vertex1).2 x z ≤ 0 ∧
  halfPlane (ceil_vertex c surf surf.vertex2 surf.vertex3 surf.vertex1).1
      (ceil_vertex c surf surf.vertex2 surf.vertex3 surf.vertex1).2
      (ceil_vertex c surf surf.vertex3 surf.vertex1 surf.vertex2).1
      (ceil_vertex c surf surf.vertex3 surf.vertex1 surf.vertex2).2 x z ≤ 0 ∧
  halfPlane (ceil_vertex c surf surf.vertex3 surf.vertex1 surf.vertex2).1
      (ceil_vertex c surf surf.vertex3 surf.vertex1 surf.vertex2).2
      (ceil_vertex c surf surf.vertex1 surf.vertex2 surf.vertex3).1
      (ceil_vertex c surf surf.vertex1 surf.vertex2 surf.vertex3).2 x z ≤ 0 ∧
  ¬ ExcludedInMode c cam surf ∧
  surf.normal.y ≠ 0 ∧
  y ≤ planeHeight surf x z + 78

instance (c : Config) (cam : Bool) (surf : Surface) (x y z : ℚ) :
    Decidable (CeilAccepted c cam surf x y z) := by
  unfold CeilAccepted
  infer_instance

/-- The surface `s` is the first one, in the order of `l`, whose plane height is
the minimum over the accepted ceilings of `l`. -/
def FirstLowestCeil (c : Config) (cam : Bool) (x y z : ℚ) (l : List Surface)
    (s : Surface) : Prop :=
  ∃ pre post, l = pre ++ s :: post ∧ CeilAccepted c cam s x y z ∧
    (∀ t ∈ pre, CeilAccepted c cam t x y z → planeHeight s x z < planeHeight t x z) ∧
    (∀ t ∈ post, CeilAccepted c cam t x y z → planeHeight s x z ≤ planeHeight t x z)

/-- The probe is in bounds for `find_floor` and `find_ceil`: neither of the
two early returns is taken. -/
def InBounds (c : Config) (xPos zPos : ℚ) : Prop :=
  (-(c.LEVEL_BOUNDARY_MAX : ℚ) < xPos ∧ xPos < (c.LEVEL_BOUNDARY_MAX : ℚ)) ∧
  (-(c.LEVEL_BOUNDARY_MAX : ℚ) < zPos ∧ zPos < (c.LEVEL_BOUNDARY_MAX : ℚ))

instance (c : Config) (xPos zPos : ℚ) : Decidable (InBounds c xPos zPos) := by
  unfold InBounds
  infer_instance

/-- The cell of the static partition that `find_floor` and `find_ceil` index
for the probe `(xPos, zPos)`. -/
def staticCell (c : Config) (g : Globals) (xPos zPos : ℚ) : SpatialPartitionCell :=
  g.gStaticSurfacePartition (toS16 (cellIndex c (truncToInt zPos)))
    (toS16 (cellIndex c (truncToInt xPos)))

/-- The cell of the dynamic partition that `find_floor` and `find_ceil` index
for the probe `(xPos, zPos)`. -/
def dynamicCell (c : Config) (g : Globals) (xPos zPos : ℚ) : SpatialPartitionCell :=
  g.gDynamicSurfacePartition (toS16 (cellIndex c (truncToInt zPos)))
    (toS16 (cellIndex c (truncToInt xPos)))

/-- The static-list winner of `find_floor`: `find_floor_from_list` on the static
floor list of the probe's cell, at the probe, with the output height
initialised to `FLOOR_LOWER_LIMIT`. -/
def staticFloorPass (c : Config) (g : Globals) (xPos yPos zPos : ℚ) : Option Surface × ℚ :=
  find_floor_from_list c g.gCheckingSurfaceCollisionsForCamera
    (staticCell c g xPos zPos).floors xPos yPos zPos c.FLOOR_LOWER_LIMIT

/-- The dynamic-list winner of `find_floor`: `find_floor_from_list` on the
dynamic floor list of the probe's cell, at the probe, with the output height
initialised to `FLOOR_LOWER_LIMIT`. -/
def dynamicFloorPass (c : Config) (g : Globals) (xPos yPos zPos : ℚ) : Option Surface × ℚ :=
  find_floor_from_list c g.gCheckingSurfaceCollisionsForCamera
    (dynamicCell c g xPos zPos).floors xPos yPos zPos c.FLOOR_LOWER_LIMIT

/-- The re-query of the intangible override (line 648): `find_floor_from_list`
on the same static list with probe height `H - 200`, the output height
holding `H` on entry. -/
def staticFloorRequery (c : Config) (g : Globals) (xPos zPos H : ℚ) : Option Surface × ℚ :=
  find_floor_from_list c g.gCheckingSurfaceCollisionsForCamera
    (staticCell c g xPos zPos).floors xPos (H - 200) zPos H

/-- The radius after the clamp of lines 52-54. -/
def clampedRadius (radius : ℚ) : ℚ :=
  if radius > 200 then 200 else radius

/-- The hit surfaces of a wall scan, in processing order and without any cap:
the surfaces of the list whose iteration ends at `hasCollision`, each one
processed from the running `x`, `z`, `margin_radius` left by the surfaces
before it. -/
def wallHits (c : Config) (g : Globals) (radius y : ℚ) :
    List Surface → ℚ → ℚ → ℚ → List Surface
  | [], _, _, _ => []
  | surf :: rest, x, z, m =>
    if (wall_surface c g surf radius y x z m).hasCollision = true then
      surf :: wallHits c g radius y rest (wall_surface c g surf radius y x z m).x
        (wall_surface c g surf radius y x z m).z
        (wall_surface c g surf radius y x z m).margin_radius
    else
      wallHits c g radius y rest (wall_surface c g surf radius y x z m).x
        (wall_surface c g surf radius y x z m).z
        (wall_surface c g surf radius y x z m).margin_radius

/-- The running `(x, z, margin_radius)` after every surface of the list has
been processed in order; the number of stored walls plays no part. -/
def wallFinal (c : Config) (g : Globals) (radius y : ℚ) :
    List Surface → ℚ → ℚ → ℚ → ℚ × ℚ × ℚ
  | [], x, z, m => (x, z, m)
  | surf :: rest, x, z, m =>
    wallFinal c g radius y rest (wall_surface c g surf radius y x z m).x
      (wall_surface c g surf radius y x z m).z
      (wall_surface c g surf radius y x z m).margin_radius

/-- The query is in bounds for `find_wall_collisions`: after the conversion of
`x` and `z` to `s16`, neither early return is taken. -/
def WallInBounds (c : Config) (colData : WallCollisionData) : Prop :=
  (-c.LEVEL_BOUNDARY_MAX < toS16 (truncToInt colData.x) ∧
    toS16 (truncToInt colData.x) < c.LEVEL_BOUNDARY_MAX) ∧
  (-c.LEVEL_BOUNDARY_MAX < toS16 (truncToInt colData.z) ∧
    toS16 (truncToInt colData.z) < c.LEVEL_BOUNDARY_MAX)

instance (c : Config) (colData : WallCollisionData) : Decidable (WallInBounds c colData) := by
  unfold WallInBounds
  infer_instance

/-- The dynamic wall list that `find_wall_collisions` scans first. -/
def dynamicWalls (c : Config) (g : Globals) (colData : WallCollisionData) : List Surface :=
  (g.gDynamicSurfacePartition (toS16 (cellIndex c (toS16 (truncToInt colData.z))))
    (toS16 (cellIndex c (toS16 (truncToInt colData.x))))).walls

/-- The static wall list that `find_wall_collisions` scans second. -/
def staticWalls (c : Config) (g : Globals) (colData : WallCollisionData) : List Surface :=
  (g.gStaticSurfacePartition (toS16 (cellIndex c (toS16 (truncToInt colData.z))))
    (toS16 (cellIndex c (toS16 (truncToInt colData.x))))).walls

/-- The position and margin radius after the dynamic list of a wall query. -/
def wallQueryMid (c : Config) (g : Globals) (colData : WallCollisionData) : ℚ × ℚ × ℚ :=
  wallFinal c g (clampedRadius colData.radius) (colData.y + colData.offsetY)
    (dynamicWalls c g colData) colData.x colData.z (colData.radius - 1)

/-- All hit surfaces of a wall query in processing order: those of the dynamic
list, then those of the static list scanned from the position the dynamic
list left, the margin radius starting again from `radius - 1`. -/
def wallQueryHits (c : Config) (g : Globals) (colData : WallCollisionData) : List Surface :=
  wallHits c g (clampedRadius colData.radius) (colData.y + colData.offsetY)
    (dynamicWalls c g colData) colData.x colData.z (colData.radius - 1) ++
  wallHits c g (clampedRadius colData.radius) (colData.y + colData.offsetY)
    (staticWalls c g colData) (wallQueryMid c g colData).1 (wallQueryMid c g colData).2.1
    (colData.radius - 1)

/-- The position `(x, z)` after both lists of a wall query. -/
def wallQueryPosition (c : Config) (g : Globals) (colData : WallCollisionData) : ℚ × ℚ :=
  ((wallFinal c g (clampedRadius colData.radius) (colData.y + colData.offsetY)
      (staticWalls c g colData) (wallQueryMid c g colData).1 (wallQueryMid c g colData).2.1
      (colData.radius - 1)).1,
    (wallFinal c g (clampedRadius colData.radius) (colData.y + colData.offsetY)
      (staticWalls c g colData) (wallQueryMid c g colData).1 (wallQueryMid c g colData).2.1
      (colData.radius - 1)).2.1)

/-- The signed plane distance `offset` of line 66. -/
def wallOffset (surf : Surface) (x y z : ℚ) : ℚ :=
  surf.normal.x * x + surf.normal.y * y + surf.normal.z * z + surf.originOffset

/-- The barycentric coordinate `v` of line 119. -/
def wallBaryV (surf : Surface) (x y z : ℚ) : ℚ :=
  let v0x : ℚ := ((surf.vertex2.x - surf.vertex1.x : Int) : ℚ)
  let v0y : ℚ := ((surf.vertex2.y - surf.vertex1.y : Int) : ℚ)
  let v0z : ℚ := ((surf.vertex2.z - surf.vertex1.z : Int) : ℚ)
  let v1x : ℚ := ((surf.vertex3.x - surf.vertex1.x : Int) : ℚ)
  let v1y : ℚ := ((surf.vertex3.y - surf.vertex1.y : Int) : ℚ)
  let v1z : ℚ := ((surf.vertex3.z - surf.vertex1.z : Int) : ℚ)
  let v2x : ℚ := x - (surf.vertex1.x : ℚ)
  let v2y : ℚ := y - (surf.vertex1.y : ℚ)
  let v2z : ℚ := z - (surf.vertex1.z : ℚ)
  let d00 := v0x * v0x + v0y * v0y + v0z * v0z
  let d01 := v0x * v1x + v0y * v1y + v0z * v1z
  let d11 := v1x * v1x + v1y * v1y + v1z * v1z
  let d20 := v2x * v0x + v2y * v0y + v2z * v0z
  let d21 := v2x * v1x + v2y * v1y + v2z * v1z
  let invDenom := 1 / (d00 * d11 - d01 * d01)
  (d11 * d20 - d01 * d21) * invDenom

/-- The barycentric coordinate `w` of line 123. -/
def wallBaryW (surf : Surface) (x y z : ℚ) : ℚ :=
  let v0x : ℚ := ((surf.vertex2.x - surf.vertex1.x : Int) : ℚ)
  let v0y : ℚ := ((surf.vertex2.y - surf.vertex1.y : Int) : ℚ)
  let v0z : ℚ := ((surf.vertex2.z - surf.vertex1.z : Int) : ℚ)
  let v1x : ℚ := ((surf.vertex3.x - surf.vertex1.x : Int) : ℚ)
  let v1y : ℚ := ((surf.vertex3.y - surf.vertex1.y : Int) : ℚ)
  let v1z : ℚ := ((surf.vertex3.z - surf.vertex1.z : Int) : ℚ)
  let v2x : ℚ := x - (surf.vertex1.x : ℚ)
  let v2y : ℚ := y - (surf.vertex1.y : ℚ)
  let v2z : ℚ := z - (surf.vertex1.z : ℚ)
  let d00 := v0x * v0x + v0y * v0y + v0z * v0z
  let d01 := v0x * v1x + v0y * v1y + v0z * v1z
  let d11 := v1x * v1x + v1y * v1y + v1z * v1z
  let d20 := v2x * v0x + v2y * v0y + v2z * v0z
  let d21 := v2x * v1x + v2y * v1y + v2z * v1z
  let invDenom := 1 / (d00 * d11 - d01 * d01)
  (d00 * d21 - d01 * d20) * invDenom

/-- An edge as an edge block of the wall scan sees it: the edge vector
`(ex, ey, ez)` and the probe relative to the edge's first vertex,
`(v2x, v2y, v2z)`. -/
structure EdgeProbe where
  ex : ℚ
  ey : ℚ
  ez : ℚ
  v2x : ℚ
  v2y : ℚ
  v2z : ℚ

/-- The edge 1-2 of a surface for the probe `(x, y, z)` (lines 100-102, 108-110). -/
def edge_1_2 (surf : Surface) (x y z : ℚ) : EdgeProbe where
  ex := ((surf.vertex2.x - surf.vertex1.x : Int) : ℚ)
  ey := ((surf.vertex2.y - surf.vertex1.y : Int) : ℚ)
  ez := ((surf.vertex2.z - surf.vertex1.z : Int) : ℚ)
  v2x := x - (surf.vertex1.x : ℚ)
  v2y := y - (surf.vertex1.y : ℚ)
  v2z := z - (surf.vertex1.z : ℚ)

/-- The edge 1-3 of a surface for the probe `(x, y, z)` (lines 104-110). -/
def edge_1_3 (surf : Surface) (x y z : ℚ) : EdgeProbe where
  ex := ((surf.vertex3.x - surf.vertex1.x : Int) : ℚ)
  ey := ((surf.vertex3.y - surf.vertex1.y : Int) : ℚ)
  ez := ((surf.vertex3.z - surf.vertex1.z : Int) : ℚ)
  v2x := x - (surf.vertex1.x : ℚ)
  v2y := y - (surf.vertex1.y : ℚ)
  v2z := z - (surf.vertex1.z : ℚ)

/-- The edge 2-3 of a surface for the probe `(x, y, z)` (lines 181-187). -/
def edge_2_3 (surf : Surface) (x y z : ℚ) : EdgeProbe where
  ex := ((surf.vertex3.x - surf.vertex2.x : Int) : ℚ)
  ey := ((surf.vertex3.y - surf.vertex2.y : Int) : ℚ)
  ez := ((surf.vertex3.z - surf.vertex2.z : Int) : ℚ)
  v2x := x - (surf.vertex2.x : ℚ)
  v2y := y - (surf.vertex2.y : ℚ)
  v2z := z - (surf.vertex2.z : ℚ)

/-- The parameter `v` of the edge point at the probe's height (lines 136, 159, 190). -/
def EdgeProbe.param (e : EdgeProbe) : ℚ :=
  e.v2y / e.ey

/-- The horizontal vector from the probe to the edge point at the probe's
height: `(d00, d01)` as lines 139-140 compute them. -/
def EdgeProbe.toEdgePoint (e : EdgeProbe) : ℚ × ℚ :=
  (e.ex * e.param - e.v2x, e.ez * e.param - e.v2z)

/-- The horizontal distance from the probe to the edge point as the scan
computes it (line 141): `sqrtf` of the squared length of `toEdgePoint`. -/
def EdgeProbe.distance (c : Config) (e : EdgeProbe) : ℚ :=
  c.sqrtf (e.toEdgePoint.1 * e.toEdgePoint.1 + e.toEdgePoint.2 * e.toEdgePoint.2)

/-- The push vector of an edge block: `(d00, d01)` after the `*= invDenom` of
lines 146-147, for the margin radius `m`. -/
def EdgeProbe.push (c : Config) (e : EdgeProbe) (m : ℚ) : ℚ × ℚ :=
  (e.toEdgePoint.1 * ((e.distance c - m) / e.distance c),
    e.toEdgePoint.2 * ((e.distance c - m) / e.distance c))

/-- An edge block of the scan applied to an edge: `next` when the edge has no
vertical span (the `if (v0y != 0.0f)` guards), `wall_edge` otherwise. -/
def edgeBlock (c : Config) (surf : Surface) (e : EdgeProbe) (x z m : ℚ) : EdgeResult :=
  if e.ey ≠ 0 then wall_edge c surf e.ex e.ey e.ez e.v2x e.v2y e.v2z x z m
  else EdgeResult.next

/-- The cascade `edge_1_2`, `edge_1_3`, `edge_2_3` of the scan: the result of
the first edge block that does not fall through, `next` when all three do. -/
def wallEdgeCascade (c : Config) (surf : Surface) (y x z m : ℚ) : EdgeResult :=
  match edgeBlock c surf (edge_1_2 surf x y z) x z m with
  | EdgeResult.rejected x1 z1 m1 => EdgeResult.rejected x1 z1 m1
  | EdgeResult.hasCollision x1 z1 m1 => EdgeResult.hasCollision x1 z1 m1
  | EdgeResult.next =>
    match edgeBlock c surf (edge_1_3 surf x y z) x z m with
    | EdgeResult.rejected x1 z1 m1 => EdgeResult.rejected x1 z1 m1
    | EdgeResult.hasCollision x1 z1 m1 => EdgeResult.hasCollision x1 z1 m1
    | EdgeResult.next => edgeBlock c surf (edge_2_3 surf x y z) x z m

/-- The probe takes the face case of a surface: it passes the height, offset
and mode checks and its barycentric coordinates lie in the triangle. -/
def InFaceCase (c : Config) (g : Globals) (surf : Surface) (radius y x z : ℚ) : Prop :=
  ((surf.lowerY : ℚ) ≤ y ∧ y ≤ (surf.upperY : ℚ)) ∧
  (0 ≤ wallOffset surf x y z ∧ wallOffset surf x y z ≤ radius) ∧
  wallExcludedByMode c g surf = false ∧
  (0 ≤ wallBaryV surf x y z ∧ wallBaryV surf x y z ≤ 1) ∧
  (0 ≤ wallBaryW surf x y z ∧ wallBaryW surf x y z ≤ 1 ∧
    wallBaryV surf x y z + wallBaryW surf x y z ≤ 1)

/-- The probe reaches the edge blocks of a surface: it passes the height,
offset and mode checks and its barycentric coordinates lie outside the
triangle. -/
def InEdgeCase (c : Config) (g : Globals) (surf : Surface) (radius y x z : ℚ) : Prop :=
  ((surf.lowerY : ℚ) ≤ y ∧ y ≤ (surf.upperY : ℚ)) ∧
  (0 ≤ wallOffset surf x y z ∧ wallOffset surf x y z ≤ radius) ∧
  wallExcludedByMode c g surf = false ∧
  ¬ ((0 ≤ wallBaryV surf x y z ∧ wallBaryV surf x y z ≤ 1) ∧
    (0 ≤ wallBaryW surf x y z ∧ wallBaryW surf x y z ≤ 1 ∧
      wallBaryV surf x y z + wallBaryW surf x y z ≤ 1))

/-- The number of records of a region table: the count stored in front of
them, none when it is negative. -/
def regionCount (p : Nat → Int) : Nat :=
  (p 0).toNat

/-- The six fields of record `i` of a region table, in storage order: kind,
minX, minZ, maxX, maxZ, level. -/
def regionKind (p : Nat → Int) (i : Nat) : Int := p (1 + 6 * i)

/-- The field `minX` of record `i`. -/
def regionMinX (p : Nat → Int) (i : Nat) : Int := p (1 + 6 * i + 1)

/-- The field `minZ` of record `i`. -/
def regionMinZ (p : Nat → Int) (i : Nat) : Int := p (1 + 6 * i + 2)

/-- The field `maxX` of record `i`. -/
def regionMaxX (p : Nat → Int) (i : Nat) : Int := p (1 + 6 * i + 3)

/-- The field `maxZ` of record `i`. -/
def regionMaxZ (p : Nat → Int) (i : Nat) : Int := p (1 + 6 * i + 4)

/-- The field `level` of record `i`. -/
def regionLevel (p : Nat → Int) (i : Nat) : Int := p (1 + 6 * i + 5)

/-- The point `(x, z)` lies strictly inside the box of record `i`. -/
def InRegionBox (p : Nat → Int) (x z : ℚ) (i : Nat) : Prop :=
  (regionMinX p i : ℚ) < x ∧ x < (regionMaxX p i : ℚ) ∧
  (regionMinZ p i : ℚ) < z ∧ z < (regionMaxZ p i : ℚ)

/-- Record `i` is a water box that covers `(x, z)`: `kind < 50` and the point is
strictly inside on all four sides. -/
def WaterMatch (p : Nat → Int) (x z : ℚ) (i : Nat) : Prop :=
  regionKind p i < 50 ∧ InRegionBox p x z i

/-- Record `i` is a gas box that covers `(x, z)`: `kind >= 50`, `kind % 10 == 0`
and the point is strictly inside on all four sides. -/
def GasMatch (p : Nat → Int) (x z : ℚ) (i : Nat) : Prop :=
  regionKind p i ≥ 50 ∧ regionKind p i % 10 = 0 ∧ InRegionBox p x z i

/-- Record `i` is the first of the first `count` records to satisfy `M`. -/
def FirstMatch (M : Nat → Prop) (count i : Nat) : Prop :=
  i < count ∧ M i ∧ ∀ j < i, ¬ M j

/-- The array that stores the given list of `s16` values, zero beyond its end. -/
def regionArray (l : List Int) : Nat → Int :=
  fun i => l.getD i 0

/-- The horizontal midpoint of the edge between two vertices. -/
def edgeMidpoint (t1 t2 : Vec3s) : ℚ × ℚ :=
  (((t1.x : ℚ) + (t2.x : ℚ)) / 2, ((t1.z : ℚ) + (t2.z : ℚ)) / 2)

/-- The squared horizontal distance between two points. -/
def sqDist (a b : ℚ × ℚ) : ℚ :=
  (a.1 - b.1) * (a.1 - b.1) + (a.2 - b.2) * (a.2 - b.2)

/-- The argument of `sqrtf` in `add_ceil_margin` for the vertex `v` and the
opposite vertices `t1`, `t2`: the squared length of `(diff_x, diff_z)`, which
is twice the vector from the vertex to the opposite edge's midpoint. -/
def marginDiffSq (v t1 t2 : Vec3s) : ℚ :=
  ((t1.x : ℚ) - (v.x : ℚ) + (t2.x : ℚ) - (v.x : ℚ)) *
      ((t1.x : ℚ) - (v.x : ℚ) + (t2.x : ℚ) - (v.x : ℚ)) +
    ((t1.z : ℚ) - (v.z : ℚ) + (t2.z : ℚ) - (v.z : ℚ)) *
      ((t1.z : ℚ) - (v.z : ℚ) + (t2.z : ℚ) - (v.z : ℚ))

/-- The list without the surfaces that the mode rule excludes, in the same
order. -/
def withoutExcluded (c : Config) (cam : Bool) (l : List Surface) : List Surface :=
  l.filter (fun s => decide (¬ ExcludedInMode c cam s))

/-- The horizontal position of the point of the edge from `a` to `b` that lies
at height `y`: `a + t (b - a)` with `t = (y - a.y) / (b.y - a.y)`. -/
def edgePoint (a b : Vec3s) (y : ℚ) : ℚ × ℚ :=
  ((a.x : ℚ) + (y - (a.y : ℚ)) / ((b.y : ℚ) - (a.y : ℚ)) * ((b.x : ℚ) - (a.x : ℚ)),
    (a.z : ℚ) + (y - (a.y : ℚ)) / ((b.y : ℚ) - (a.y : ℚ)) * ((b.z : ℚ) - (a.z : ℚ)))

/-- The edge `e`, as the scan sees it from the probe `(x, y, z)`, is one of the
three edges of `surf`, and `E` is the point of that edge at the probe's
height. -/
def EdgeOfSurface (surf : Surface) (x y z : ℚ) (e : EdgeProbe) (E : ℚ × ℚ) : Prop :=
  (e = edge_1_2 surf x y z ∧ E = edgePoint surf.vertex1 surf.vertex2 y) ∨
  (e = edge_1_3 surf x y z ∧ E = edgePoint surf.vertex1 surf.vertex3 y) ∨
  (e = edge_2_3 surf x y z ∧ E = edgePoint surf.vertex2 surf.vertex3 y)

instance (c : Config) (g : Globals) (surf : Surface) (radius y x z : ℚ) :
    Decidable (InFaceCase c g surf radius y x z) := by
  unfold InFaceCase
  infer_instance

instance (c : Config) (g : Globals) (surf : Surface) (radius y x z : ℚ) :
    Decidable (InEdgeCase c g surf radius y x z) := by
  unfold InEdgeCase
  infer_instance

/-- Whether an edge cascade fell through all three blocks. -/
def EdgeResult.isNext : EdgeResult → Bool
  | EdgeResult.next => true
  | EdgeResult.rejected _ _ _ => false
  | EdgeResult.hasCollision _ _ _ => false

/-- The surface pushes the probe at one of its edges: its edge blocks are
reached and one of them interacts, whether the interaction ends as a hit or
as a corner rejection. -/
def EdgePushed (c : Config) (g : Globals) (surf : Surface) (radius y x z m : ℚ) : Prop :=
  InEdgeCase c g surf radius y x z ∧ (wallEdgeCascade c surf y x z m).isNext = false

instance (c : Config) (g : Globals) (surf : Surface) (radius y x z m : ℚ) :
    Decidable (EdgePushed c g surf radius y x z m) := by
  unfold EdgePushed
  infer_instance

/-- The number of surfaces of the list that push the probe at an edge, each
one processed from the running `x`, `z`, `margin_radius` left by the surfaces
before it. -/
def edgePushes (c : Config) (g : Globals) (radius y : ℚ) :
    List Surface → ℚ → ℚ → ℚ → Nat
  | [], _, _, _ => 0
  | surf :: rest, x, z, m =>
    (if EdgePushed c g surf radius y x z m then 1 else 0) +
      edgePushes c g radius y rest (wall_surface c g surf radius y x z m).x
        (wall_surface c g surf radius y x z m).z
        (wall_surface c g surf radius y x z m).margin_radius

/-- The loop variables of `find_wall_collisions_from_list` after the surfaces
of `l`, started as lines 27-39 initialise them for the query `data`. -/
def wallLoopAfter (c : Config) (g : Globals) (data : WallCollisionData) (l : List Surface) :
    WallLoop :=
  find_wall_collisions_loop c g (clampedRadius data.radius) (data.y + data.offsetY) l
    (WallLoop.mk data.x data.z (data.radius - 1) data.numWalls data.walls 0)

/-- The iteration of `find_wall_collisions_from_list` on the surface `surf` when
it follows the surfaces of `pre` in the list scanned for the query `data`:
lines 58-209 run from the loop variables that `pre` left. -/
def wallStepAfter (c : Config) (g : Globals) (data : WallCollisionData) (pre : List Surface)
    (surf : Surface) : WallStep :=
  wall_surface c g surf (clampedRadius data.radius) (data.y + data.offsetY)
    (wallLoopAfter c g data pre).x (wallLoopAfter c g data pre).z
    (wallLoopAfter c g data pre).margin_radius

/-! ## Concrete data

The values below are used only to evaluate the definitions on explicit
inputs. -/

/-- Integer square root lifted to the rationals: exact on the squares of
rationals, rounded down otherwise. -/
def ratSqrt (q : ℚ) : ℚ :=
  (Nat.sqrt (q.num.toNat * q.den) : ℚ) / (q.den : ℚ)

/-- The constants as the upstream headers define them: a 16x16 grid of cells
of 1024 units covering `[-8192, 8192)`, floor sentinel -11000, ceiling
sentinel 20000. -/
def sm64 : Config where
  LEVEL_BOUNDARY_MAX := 8192
  CELL_SIZE := 1024
  NUM_CELLS_INDEX := 15
  FLOOR_LOWER_LIMIT := -11000
  CELL_HEIGHT_LIMIT := 20000
  SURFACE_CAMERA_BOUNDARY := 114
  SURFACE_VANISH_CAP_WALLS := 123
  SURFACE_HANGABLE := 5
  SURFACE_INTANGIBLE := 18
  SURFACE_FLAG_NO_CAM_COLLISION := 2
  sqrtf := ratSqrt

/-- A horizontal floor triangle of the given surface type at height `h`, with
the origin strictly inside its projection and normal `(0, 1, 0)`. -/
def flatFloor (type h : Int) : Surface where
  type := type
  flags := 0
  lowerY := h - 5
  upperY := h + 5
  vertex1 := Vec3s.mk (-300) h 0
  vertex2 := Vec3s.mk 300 h 400
  vertex3 := Vec3s.mk 0 h (-400)
  normal := Vec3f.mk 0 1 0
  originOffset := -(h : ℚ)

/-- A horizontal ceiling triangle of ordinary type at height `h`, with the
origin strictly inside its projection and normal `(0, -1, 0)`.  Each vertex
lies at distance 450, 600 or 750 from the midpoint of the opposite edge, so
the square roots of `add_ceil_margin` are exact. -/
def flatCeil (h : Int) : Surface where
  type := 0
  flags := 0
  lowerY := h - 5
  upperY := h + 5
  vertex1 := Vec3s.mk (-300) h 0
  vertex2 := Vec3s.mk 0 h (-400)
  vertex3 := Vec3s.mk 300 h 400
  normal := Vec3f.mk 0 (-1) 0
  originOffset := (h : ℚ)

/-- A partition without surfaces. -/
def emptyPartition : SurfacePartition :=
  fun _ _ => SpatialPartitionCell.mk [] [] []

/-- Globals in which every cell of the static partition is `stat` and every
cell of the dynamic partition is `dyn`. -/
def uniformGlobals (cam includeIntangible : Bool) (stat dyn : SpatialPartitionCell) :
    Globals where
  gCheckingSurfaceCollisionsForCamera := cam
  gFindFloorIncludeSurfaceIntangible := includeIntangible
  currentObjectMovesThroughGrate := false
  currentObjectIsVanishMario := false
  gStaticSurfacePartition := fun _ _ => stat
  gDynamicSurfacePartition := fun _ _ => dyn

/-- A cell whose floor list is `l` and whose other lists are empty. -/
def floorCell (l : List Surface) : SpatialPartitionCell :=
  SpatialPartitionCell.mk l [] []

/-- A cell whose ceiling list is `l` and whose other lists are empty. -/
def ceilCell (l : List Surface) : SpatialPartitionCell :=
  SpatialPartitionCell.mk [] l []

/-- A static floor at height 10 and a dynamic floor at height 50. -/
def staticLowDynamicHigh : Globals :=
  uniformGlobals false false (floorCell [flatFloor 0 10]) (floorCell [flatFloor 0 50])

/-- An intangible static floor (type 18) at height 100 over a normal static
floor at height -50; no dynamic floor. -/
def intangibleOverNormal (includeIntangible : Bool) : Globals :=
  uniformGlobals false includeIntangible
    (floorCell [flatFloor 18 100, flatFloor 0 (-50)]) (floorCell [])

/-- An intangible static floor (type 18) at height 100 with nothing beneath. -/
def intangibleOverVoid : Globals :=
  uniformGlobals false false (floorCell [flatFloor 18 100]) (floorCell [])

/-- No surfaces at all, the include-intangible flag set. -/
def emptyWorldFlagSet : Globals :=
  uniformGlobals false true (floorCell []) (floorCell [])

/-- No static ceiling and one dynamic ceiling at height 25000, above the
ceiling sentinel 20000. -/
def highDynamicCeilOnly : Globals :=
  uniformGlobals false false (ceilCell []) (ceilCell [flatCeil 25000])

/-- A static ceiling at height 200 and a dynamic ceiling at height 150. -/
def staticHighDynamicLow : Globals :=
  uniformGlobals false false (ceilCell [flatCeil 200]) (ceilCell [flatCeil 150])

/-- A wall triangle in the plane `x = k` facing `+x`, with legs of length 200
along `y` and `z`; its plane equation `x - k = 0` is consistent with its
vertices. -/
def xWall (k : Int) : Surface where
  type := 0
  flags := 0
  lowerY := -100
  upperY := 100
  vertex1 := Vec3s.mk k (-100) (-100)
  vertex2 := Vec3s.mk k 100 (-100)
  vertex3 := Vec3s.mk k (-100) 100
  normal := Vec3f.mk 1 0 0
  originOffset := -(k : ℚ)

/-- Six walls in the static list of every cell, no dynamic wall. -/
def sixWalls : Globals :=
  uniformGlobals false false
    (SpatialPartitionCell.mk [] [] [xWall 0, xWall 1, xWall 2, xWall 3, xWall 4, xWall 5])
    (SpatialPartitionCell.mk [] [] [])

/-- A wall query at `(10, -50, -50)` with radius 50, in front of the planes
`x = 0`, ..., `x = 5` and within the radius of each. -/
def sixWallsQuery : WallCollisionData where
  x := 10
  y := -50
  z := -50
  offsetY := 0
  radius := 50
  numWalls := 0
  walls := fun _ => none

/-- A wall triangle in the plane `z = -50` facing `-z`, inside the cell `[7][8]`;
its normal `(0, 0, -1)` and plane offset `-50` are those of its vertices. -/
def farEdgeWall : Surface where
  type := 0
  flags := 0
  lowerY := -105
  upperY := 105
  vertex1 := Vec3s.mk 100 (-100) (-50)
  vertex2 := Vec3s.mk 100 100 (-50)
  vertex3 := Vec3s.mk 500 (-100) (-50)
  normal := Vec3f.mk 0 0 (-1)
  originOffset := -50

/-- The static partition holds `farEdgeWall` in the cell `[7][8]`
(`cellZ = 7`, `cellX = 8`), which covers `0 ≤ x < 1024` and `-1024 ≤ z < 0`;
every other cell is empty. -/
def farWorld : Globals where
  gCheckingSurfaceCollisionsForCamera := false
  gFindFloorIncludeSurfaceIntangible := false
  currentObjectMovesThroughGrate := false
  currentObjectIsVanishMario := false
  gStaticSurfacePartition := fun cellZ cellX =>
    if cellZ = 7 ∧ cellX = 8 then SpatialPartitionCell.mk [] [] [farEdgeWall]
    else SpatialPartitionCell.mk [] [] []
  gDynamicSurfacePartition := emptyPartition

/-- A wall query at `x = 65636 = 65536 + 100`, far outside the level. -/
def farQuery : WallCollisionData where
  x := 65636
  y := -50
  z := -50
  offsetY := 0
  radius := 50
  numWalls := 0
  walls := fun _ => none

/-- The query `farQuery` with the radius 65637: the same position, and a
radius that reaches from it back into the level. -/
def farWideQuery : WallCollisionData where
  x := 65636
  y := -50
  z := -50
  offsetY := 0
  radius := 65637
  numWalls := 0
  walls := fun _ => none

/-- Globals without any surface, in normal (non-camera) mode. -/
def plainWorld : Globals :=
  uniformGlobals false false (SpatialPartitionCell.mk [] [] []) (SpatialPartitionCell.mk [] [] [])

/-- A wall triangle in the plane `128 x + y + 16 z = 0`, with the unit normal
`(128/129, 1/129, 16/129)`: a wall that leans slightly, `ny = 1/129`. -/
def leaningWall : Surface where
  type := 0
  flags := 0
  lowerY := -5
  upperY := 1605
  vertex1 := Vec3s.mk 0 0 0
  vertex2 := Vec3s.mk 0 1600 (-100)
  vertex3 := Vec3s.mk 100 0 (-800)
  normal := Vec3f.mk (128 / 129) (1 / 129) (16 / 129)
  originOffset := 0

/-- A wall triangle in the plane `x = 0` facing `+x`, whose edge 1-2 is the
vertical segment from `(0, -100, 0)` to `(0, 100, 0)`; edge 1-3 is horizontal
and edge 2-3 runs from `(0, 100, 0)` down to `(0, -100, 448)`. -/
def edgeWall : Surface where
  type := 0
  flags := 0
  lowerY := -100
  upperY := 100
  vertex1 := Vec3s.mk 0 (-100) 0
  vertex2 := Vec3s.mk 0 100 0
  vertex3 := Vec3s.mk 0 (-100) 448
  normal := Vec3f.mk 1 0 0
  originOffset := 0

/-- A wall query at `(x, -50, -50)` with radius 50 and no wall stored. -/
def queryAtX (x : ℚ) : WallCollisionData where
  x := x
  y := -50
  z := -50
  offsetY := 0
  radius := 50
  numWalls := 0
  walls := fun _ => none

/-- A wall query at `(198, 0, -40)`, beside `edgeWall` and 202 units from its
edge 1-2, with the given radius. -/
def besideEdgeQuery (radius : ℚ) : WallCollisionData where
  x := 198
  y := 0
  z := -40
  offsetY := 0
  radius := radius
  numWalls := 0
  walls := fun _ => none

/-- A region table with two overlapping water boxes (kinds 0 and 1, levels 20
and 40) followed by two gas boxes (kinds 50 and 60, levels 70 and 90), all
covering the origin. -/
def overlappingRegions : Nat → Int :=
  regionArray [4, 0, -100, -100, 100, 100, 20, 1, -50, -50, 150, 150, 40,
    50, -100, -100, 100, 100, 70, 60, -50, -50, 150, 150, 90]

/-- A static ceiling at height 150 and no dynamic ceiling. -/
def lowCeilOnly : Globals :=
  uniformGlobals false false (ceilCell [flatCeil 150]) (ceilCell [])

/-- A second wall triangle in the plane `x = 0` facing `+x` that shares the
vertical edge from `(0, -100, 0)` to `(0, 100, 0)` with `edgeWall`. -/
def edgeWallUpper : Surface where
  type := 0
  flags := 0
  lowerY := -100
  upperY := 100
  vertex1 := Vec3s.mk 0 (-100) 0
  vertex2 := Vec3s.mk 0 100 0
  vertex3 := Vec3s.mk 0 100 448
  normal := Vec3f.mk 1 0 0
  originOffset := 0

/-- A wall query at `(x, 0, z)` with radius 50 and no wall stored. -/
def edgeQueryAt (x z : ℚ) : WallCollisionData where
  x := x
  y := 0
  z := z
  offsetY := 0
  radius := 50
  numWalls := 0
  walls := fun _ => none

/-! ## Lemmas -/

theorem excludedByMode_eq_true_iff (c : Config) (cam : Bool) (surf : Surface) :
    excludedByMode c cam surf = true ↔ ExcludedInMode c cam surf := by
  unfold excludedByMode ExcludedInMode
  cases cam <;> simp

theorem floor_newHeight_eq_some_iff (c : Config) (cam : Bool) (surf : Surface)
    (x y z h : ℚ) :
    floor_newHeight c cam surf x y z = some h ↔
      FloorAccepted c cam surf x y z ∧ h = planeHeight surf x z := by
  have hcomm : -(x * surf.normal.x + surf.normal.z * z + surf.originOffset) / surf.normal.y
      = planeHeight surf x z := by
    unfold planeHeight
    rw [mul_comm x]
  unfold floor_newHeight FloorAccepted halfPlane
  simp only [hcomm]
  have hex := excludedByMode_eq_true_iff c cam surf
  split_ifs with h1 h2 h3 h4 h5 h6
  · constructor
    · intro hh; cases hh
    · rintro ⟨⟨a, -⟩, -⟩; exact absurd h1 (not_lt.mpr a)
  · constructor
    · intro hh; cases hh
    · rintro ⟨⟨-, a, -⟩, -⟩; exact absurd h2 (not_lt.mpr a)
  · constructor
    · intro hh; cases hh
    · rintro ⟨⟨-, -, a, -⟩, -⟩; exact absurd h3 (not_lt.mpr a)
  · constructor
    · intro hh; cases hh
    · rintro ⟨⟨-, -, -, a, -⟩, -⟩; exact absurd (hex.mp h4) a
  · constructor
    · intro hh; cases hh
    · rintro ⟨⟨-, -, -, -, a, -⟩, -⟩; exact absurd h5 a
  · constructor
    · intro hh; cases hh
    · rintro ⟨⟨-, -, -, -, -, a⟩, -⟩
      have : y - (planeHeight surf x z + -78) ≥ 0 := by linarith
      exact absurd h6 (not_lt.mpr this)
  · constructor
    · intro hh
      have hh2 : planeHeight surf x z = h := Option.some.inj hh
      refine ⟨⟨not_lt.mp h1, not_lt.mp h2, not_lt.mp h3, fun a => h4 (hex.mpr a), h5, ?_⟩,
        hh2.symm⟩
      have := not_lt.mp h6
      show planeHeight surf x z - 78 ≤ y
      linarith
    · rintro ⟨-, a⟩
      rw [a]

theorem floor_newHeight_eq_none_iff (c : Config) (cam : Bool) (surf : Surface)
    (x y z : ℚ) :
    floor_newHeight c cam surf x y z = none ↔ ¬ FloorAccepted c cam surf x y z := by
  constructor
  · intro hn ha
    have := (floor_newHeight_eq_some_iff c cam surf x y z (planeHeight surf x z)).mpr ⟨ha, rfl⟩
    rw [hn] at this
    cases this
  · intro hna
    cases hv : floor_newHeight c cam surf x y z with
    | none => rfl
    | some h => exact absurd ((floor_newHeight_eq_some_iff c cam surf x y z h).mp hv).1 hna

/-- Invariant of the floor loop, from an arbitrary state: the final state is
either the initial one, not beaten by any candidate, or a candidate of the
list that beats the initial state and everything before it. -/
theorem find_floor_loop_spec (c : Config) (cam : Bool) (x y z : ℚ) :
    ∀ (l : List Surface) (st : Option (Surface × ℚ)),
      (find_floor_loop c cam x y z l st = none →
        st = none ∧ ∀ s ∈ l, floor_newHeight c cam s x y z = none) ∧
      (∀ f h, find_floor_loop c cam x y z l st = some (f, h) →
        (st = some (f, h) ∧
          ∀ s ∈ l, ∀ k, floor_newHeight c cam s x y z = some k → k ≤ h) ∨
        (∃ pre post, l = pre ++ f :: post ∧ floor_newHeight c cam f x y z = some h ∧
          (∀ t ∈ pre, ∀ k, floor_newHeight c cam t x y z = some k → k < h) ∧
          (∀ t ∈ post, ∀ k, floor_newHeight c cam t x y z = some k → k ≤ h) ∧
          (∀ f0 h0, st = some (f0, h0) → h0 < h))) := by
  intro l
  induction l with
  | nil =>
    intro st
    refine ⟨fun h => ⟨h, by simp⟩, fun f h hst => Or.inl ⟨hst, by simp⟩⟩
  | cons surf rest ih =>
    intro st
    cases hnh : floor_newHeight c cam surf x y z with
    | none =>
      have hstep : find_floor_loop c cam x y z (surf :: rest) st
          = find_floor_loop c cam x y z rest st := by
        simp [find_floor_loop, hnh]
      rw [hstep]
      obtain ⟨ih1, ih2⟩ := ih st
      refine ⟨fun h => ?_, fun f h hfin => ?_⟩
      · obtain ⟨a, b⟩ := ih1 h
        refine ⟨a, ?_⟩
        intro s hs
        rcases List.mem_cons.mp hs with rfl | hs
        · exact hnh
        · exact b s hs
      · rcases ih2 f h hfin with ⟨a, b⟩ | ⟨pre, post, hl, hf, hpre, hpost, hst⟩
        · refine Or.inl ⟨a, ?_⟩
          intro s hs k hk
          rcases List.mem_cons.mp hs with rfl | hs
          · rw [hnh] at hk; cases hk
          · exact b s hs k hk
        · refine Or.inr ⟨surf :: pre, post, by simp [hl], hf, ?_, hpost, hst⟩
          intro t ht k hk
          rcases List.mem_cons.mp ht with rfl | ht
          · rw [hnh] at hk; cases hk
          · exact hpre t ht k hk
    | some nh =>
      -- the two ways the state is replaced by `(surf, nh)`
      have taken : ∀ (st0 : Option (Surface × ℚ)),
          (∀ f0 h0, st0 = some (f0, h0) → h0 < nh) →
          (find_floor_loop c cam x y z rest (some (surf, nh)) = none →
            st0 = none ∧ ∀ s ∈ surf :: rest, floor_newHeight c cam s x y z = none) ∧
          (∀ f h, find_floor_loop c cam x y z rest (some (surf, nh)) = some (f, h) →
            (st0 = some (f, h) ∧
              ∀ s ∈ surf :: rest, ∀ k, floor_newHeight c cam s x y z = some k → k ≤ h) ∨
            (∃ pre post, surf :: rest = pre ++ f :: post ∧
              floor_newHeight c cam f x y z = some h ∧
              (∀ t ∈ pre, ∀ k, floor_newHeight c cam t x y z = some k → k < h) ∧
              (∀ t ∈ post, ∀ k, floor_newHeight c cam t x y z = some k → k ≤ h) ∧
              (∀ f0 h0, st0 = some (f0, h0) → h0 < h))) := by
        intro st0 hlt
        obtain ⟨ih1, ih2⟩ := ih (some (surf, nh))
        refine ⟨fun h => ?_, fun f h hfin => ?_⟩
        · have := (ih1 h).1
          cases this
        · rcases ih2 f h hfin with ⟨a, b⟩ | ⟨pre, post, hl, hf, hpre, hpost, hst⟩
          · have hfs : surf = f := by
              have := Option.some.inj a
              exact (Prod.mk.inj this).1
            have hhs : nh = h := by
              have := Option.some.inj a
              exact (Prod.mk.inj this).2
            subst hfs hhs
            refine Or.inr ⟨[], rest, by simp, hnh, by simp, b, hlt⟩
          · have hnhlt : nh < h := hst surf nh rfl
            refine Or.inr ⟨surf :: pre, post, by simp [hl], hf, ?_, hpost, ?_⟩
            · intro t ht k hk
              rcases List.mem_cons.mp ht with rfl | ht
              · rw [hnh] at hk
                have := Option.some.inj hk
                linarith
              · exact hpre t ht k hk
            · intro f0 h0 h00
              exact lt_trans (hlt f0 h0 h00) hnhlt
      cases st with
      | none =>
        have hstep : find_floor_loop c cam x y z (surf :: rest) none
            = find_floor_loop c cam x y z rest (some (surf, nh)) := by
          simp [find_floor_loop, hnh]
        rw [hstep]
        exact taken none (fun f0 h0 h => by cases h)
      | some p =>
        obtain ⟨f0, h0⟩ := p
        by_cases hgt : nh > h0
        · have hstep : find_floor_loop c cam x y z (surf :: rest) (some (f0, h0))
              = find_floor_loop c cam x y z rest (some (surf, nh)) := by
            simp [find_floor_loop, hnh, hgt]
          rw [hstep]
          refine taken (some (f0, h0)) ?_
          intro f1 h1 h
          have := Option.some.inj h
          have := (Prod.mk.inj this).2
          linarith
        · have hstep : find_floor_loop c cam x y z (surf :: rest) (some (f0, h0))
              = find_floor_loop c cam x y z rest (some (f0, h0)) := by
            simp [find_floor_loop, hnh, hgt]
          rw [hstep]
          obtain ⟨ih1, ih2⟩ := ih (some (f0, h0))
          refine ⟨fun h => ?_, fun f h hfin => ?_⟩
          · have := (ih1 h).1
            cases this
          · rcases ih2 f h hfin with ⟨a, b⟩ | ⟨pre, post, hl, hf, hpre, hpost, hst⟩
            · refine Or.inl ⟨a, ?_⟩
              intro s hs k hk
              rcases List.mem_cons.mp hs with rfl | hs
              · rw [hnh] at hk
                have e1 := Option.some.inj hk
                have e2 := (Prod.mk.inj (Option.some.inj a)).2
                have := not_lt.mp hgt
                linarith
              · exact b s hs k hk
            · refine Or.inr ⟨surf :: pre, post, by simp [hl], hf, ?_, hpost, hst⟩
              intro t ht k hk
              rcases List.mem_cons.mp ht with rfl | ht
              · rw [hnh] at hk
                have e1 := Option.some.inj hk
                have := hst f0 h0 rfl
                have := not_lt.mp hgt
                linarith
              · exact hpre t ht k hk


theorem ceil_newHeight_eq_some_iff (c : Config) (cam : Bool) (surf : Surface)
    (x y z h : ℚ) :
    ceil_newHeight c cam surf x y z = some h ↔
      CeilAccepted c cam surf x y z ∧ h = planeHeight surf x z := by
  have hcomm : -(x * surf.normal.x + surf.normal.z * z + surf.originOffset) / surf.normal.y
      = planeHeight surf x z := by
    unfold planeHeight
    rw [mul_comm x]
  unfold ceil_newHeight CeilAccepted halfPlane
  simp only [hcomm]
  have hex := excludedByMode_eq_true_iff c cam surf
  split_ifs with h1 h2 h3 h4 h5 h6
  · constructor
    · intro hh; cases hh
    · rintro ⟨⟨a, -⟩, -⟩; exact absurd h1 (not_lt.mpr a)
  · constructor
    · intro hh; cases hh
    · rintro ⟨⟨-, a, -⟩, -⟩; exact absurd h2 (not_lt.mpr a)
  · constructor
    · intro hh; cases hh
    · rintro ⟨⟨-, -, a, -⟩, -⟩; exact absurd h3 (not_lt.mpr a)
  · constructor
    · intro hh; cases hh
    · rintro ⟨⟨-, -, -, a, -⟩, -⟩; exact absurd (hex.mp h4) a
  · constructor
    · intro hh; cases hh
    · rintro ⟨⟨-, -, -, -, a, -⟩, -⟩; exact absurd h5 a
  · constructor
    · intro hh; cases hh
    · rintro ⟨⟨-, -, -, -, -, a⟩, -⟩
      have : y - (planeHeight surf x z - -78) ≤ 0 := by linarith
      exact absurd h6 (not_lt.mpr this)
  · constructor
    · intro hh
      have hh2 : planeHeight surf x z = h := Option.some.inj hh
      refine ⟨⟨not_lt.mp h1, not_lt.mp h2, not_lt.mp h3, fun a => h4 (hex.mpr a), h5, ?_⟩,
        hh2.symm⟩
      have := not_lt.mp h6
      linarith
    · rintro ⟨-, a⟩
      rw [a]

theorem ceil_newHeight_eq_none_iff (c : Config) (cam : Bool) (surf : Surface)
    (x y z : ℚ) :
    ceil_newHeight c cam surf x y z = none ↔ ¬ CeilAccepted c cam surf x y z := by
  constructor
  · intro hn ha
    have := (ceil_newHeight_eq_some_iff c cam surf x y z (planeHeight surf x z)).mpr ⟨ha, rfl⟩
    rw [hn] at this
    cases this
  · intro hna
    cases hv : ceil_newHeight c cam surf x y z with
    | none => rfl
    | some h => exact absurd ((ceil_newHeight_eq_some_iff c cam surf x y z h).mp hv).1 hna

/-- Invariant of the ceiling loop, from an arbitrary state: the final state is
either the initial one, not beaten by any candidate, or a candidate of the
list that beats the initial state and everything before it. -/
theorem find_ceil_loop_spec (c : Config) (cam : Bool) (x y z : ℚ) :
    ∀ (l : List Surface) (st : Option (Surface × ℚ)),
      (find_ceil_loop c cam x y z l st = none →
        st = none ∧ ∀ s ∈ l, ceil_newHeight c cam s x y z = none) ∧
      (∀ f h, find_ceil_loop c cam x y z l st = some (f, h) →
        (st = some (f, h) ∧
          ∀ s ∈ l, ∀ k, ceil_newHeight c cam s x y z = some k → h ≤ k) ∨
        (∃ pre post, l = pre ++ f :: post ∧ ceil_newHeight c cam f x y z = some h ∧
          (∀ t ∈ pre, ∀ k, ceil_newHeight c cam t x y z = some k → h < k) ∧
          (∀ t ∈ post, ∀ k, ceil_newHeight c cam t x y z = some k → h ≤ k) ∧
          (∀ f0 h0, st = some (f0, h0) → h < h0))) := by
  intro l
  induction l with
  | nil =>
    intro st
    refine ⟨fun h => ⟨h, by simp⟩, fun f h hst => Or.inl ⟨hst, by simp⟩⟩
  | cons surf rest ih =>
    intro st
    cases hnh : ceil_newHeight c cam surf x y z with
    | none =>
      have hstep : find_ceil_loop c cam x y z (surf :: rest) st
          = find_ceil_loop c cam x y z rest st := by
        simp [find_ceil_loop, hnh]
      rw [hstep]
      obtain ⟨ih1, ih2⟩ := ih st
      refine ⟨fun h => ?_, fun f h hfin => ?_⟩
      · obtain ⟨a, b⟩ := ih1 h
        refine ⟨a, ?_⟩
        intro s hs
        rcases List.mem_cons.mp hs with rfl | hs
        · exact hnh
        · exact b s hs
      · rcases ih2 f h hfin with ⟨a, b⟩ | ⟨pre, post, hl, hf, hpre, hpost, hst⟩
        · refine Or.inl ⟨a, ?_⟩
          intro s hs k hk
          rcases List.mem_cons.mp hs with rfl | hs
          · rw [hnh] at hk; cases hk
          · exact b s hs k hk
        · refine Or.inr ⟨surf :: pre, post, by simp [hl], hf, ?_, hpost, hst⟩
          intro t ht k hk
          rcases List.mem_cons.mp ht with rfl | ht
          · rw [hnh] at hk; cases hk
          · exact hpre t ht k hk
    | some nh =>
      -- the two ways the state is replaced by `(surf, nh)`
      have taken : ∀ (st0 : Option (Surface × ℚ)),
          (∀ f0 h0, st0 = some (f0, h0) → nh < h0) →
          (find_ceil_loop c cam x y z rest (some (surf, nh)) = none →
            st0 = none ∧ ∀ s ∈ surf :: rest, ceil_newHeight c cam s x y z = none) ∧
          (∀ f h, find_ceil_loop c cam x y z rest (some (surf, nh)) = some (f, h) →
            (st0 = some (f, h) ∧
              ∀ s ∈ surf :: rest, ∀ k, ceil_newHeight c cam s x y z = some k → h ≤ k) ∨
            (∃ pre post, surf :: rest = pre ++ f :: post ∧
              ceil_newHeight c cam f x y z = some h ∧
              (∀ t ∈ pre, ∀ k, ceil_newHeight c cam t x y z = some k → h < k) ∧
              (∀ t ∈ post, ∀ k, ceil_newHeight c cam t x y z = some k → h ≤ k) ∧
              (∀ f0 h0, st0 = some (f0, h0) → h < h0))) := by
        intro st0 hlt
        obtain ⟨ih1, ih2⟩ := ih (some (surf, nh))
        refine ⟨fun h => ?_, fun f h hfin => ?_⟩
        · have := (ih1 h).1
          cases this
        · rcases ih2 f h hfin with ⟨a, b⟩ | ⟨pre, post, hl, hf, hpre, hpost, hst⟩
          · have hfs : surf = f := by
              have := Option.some.inj a
              exact (Prod.mk.inj this).1
            have hhs : nh = h := by
              have := Option.some.inj a
              exact (Prod.mk.inj this).2
            subst hfs hhs
            refine Or.inr ⟨[], rest, by simp, hnh, by simp, b, hlt⟩
          · have hnhlt : h < nh := hst surf nh rfl
            refine Or.inr ⟨surf :: pre, post, by simp [hl], hf, ?_, hpost, ?_⟩
            · intro t ht k hk
              rcases List.mem_cons.mp ht with rfl | ht
              · rw [hnh] at hk
                have := Option.some.inj hk
                linarith
              · exact hpre t ht k hk
            · intro f0 h0 h00
              exact lt_trans hnhlt (hlt f0 h0 h00)
      cases st with
      | none =>
        have hstep : find_ceil_loop c cam x y z (surf :: rest) none
            = find_ceil_loop c cam x y z rest (some (surf, nh)) := by
          simp [find_ceil_loop, hnh]
        rw [hstep]
        exact taken none (fun f0 h0 h => by cases h)
      | some p =>
        obtain ⟨f0, h0⟩ := p
        by_cases hgt : nh < h0
        · have hstep : find_ceil_loop c cam x y z (surf :: rest) (some (f0, h0))
              = find_ceil_loop c cam x y z rest (some (surf, nh)) := by
            simp [find_ceil_loop, hnh, hgt]
          rw [hstep]
          refine taken (some (f0, h0)) ?_
          intro f1 h1 h
          have := Option.some.inj h
          have := (Prod.mk.inj this).2
          linarith
        · have hstep : find_ceil_loop c cam x y z (surf :: rest) (some (f0, h0))
              = find_ceil_loop c cam x y z rest (some (f0, h0)) := by
            simp [find_ceil_loop, hnh, hgt]
          rw [hstep]
          obtain ⟨ih1, ih2⟩ := ih (some (f0, h0))
          refine ⟨fun h => ?_, fun f h hfin => ?_⟩
          · have := (ih1 h).1
            cases this
          · rcases ih2 f h hfin with ⟨a, b⟩ | ⟨pre, post, hl, hf, hpre, hpost, hst⟩
            · refine Or.inl ⟨a, ?_⟩
              intro s hs k hk
              rcases List.mem_cons.mp hs with rfl | hs
              · rw [hnh] at hk
                have e1 := Option.some.inj hk
                have e2 := (Prod.mk.inj (Option.some.inj a)).2
                have := not_lt.mp hgt
                linarith
              · exact b s hs k hk
            · refine Or.inr ⟨surf :: pre, post, by simp [hl], hf, ?_, hpost, hst⟩
              intro t ht k hk
              rcases List.mem_cons.mp ht with rfl | ht
              · rw [hnh] at hk
                have e1 := Option.some.inj hk
                have := hst f0 h0 rfl
                have := not_lt.mp hgt
                linarith
              · exact hpre t ht k hk


/-- The integer square root is exact on the square of a natural number. -/
theorem ratSqrt_natCast_sq (n : ℕ) : ratSqrt (((n * n : ℕ) : ℚ)) = n := by
  unfold ratSqrt
  rw [Rat.num_natCast, Rat.den_natCast, Int.toNat_natCast, Nat.mul_one, Nat.sqrt_eq]
  simp

/-- The three vertices that the ceiling scan tests for `flatCeil h`: each
original vertex moved by 1.5 units toward the midpoint of the opposite edge. -/
theorem ceil_vertex_flatCeil (h : Int) :
    ceil_vertex sm64 (flatCeil h) (flatCeil h).vertex1 (flatCeil h).vertex2
        (flatCeil h).vertex3 = (-597 / 2, 0) ∧
    ceil_vertex sm64 (flatCeil h) (flatCeil h).vertex2 (flatCeil h).vertex3
        (flatCeil h).vertex1 = (0, -797 / 2) ∧
    ceil_vertex sm64 (flatCeil h) (flatCeil h).vertex3 (flatCeil h).vertex1
        (flatCeil h).vertex2 = (2991 / 10, 1994 / 5) := by
  have hty : (flatCeil h).type ≠ sm64.SURFACE_HANGABLE := by
    simp [flatCeil, sm64]
  have hsq : sm64.sqrtf = ratSqrt := rfl
  have e1 : ratSqrt 810000 = 900 := by
    have := ratSqrt_natCast_sq 900
    norm_num at this
    exact this
  have e2 : ratSqrt 1440000 = 1200 := by
    have := ratSqrt_natCast_sq 1200
    norm_num at this
    exact this
  have e3 : ratSqrt 2250000 = 1500 := by
    have := ratSqrt_natCast_sq 1500
    norm_num at this
    exact this
  unfold ceil_vertex add_ceil_margin
  rw [if_pos hty, if_pos hty, if_pos hty, hsq]
  simp only [flatCeil]
  norm_num [e1, e2, e3]

/-- The ceiling `flatCeil h` is a candidate of height `h` for every probe
`(0, y, 0)` with `y ≤ h + 78`. -/
theorem ceil_newHeight_flatCeil (h : Int) (y : ℚ) (hy : y ≤ (h : ℚ) + 78) :
    ceil_newHeight sm64 false (flatCeil h) 0 y 0 = some (h : ℚ) := by
  obtain ⟨e1, e2, e3⟩ := ceil_vertex_flatCeil h
  have hex : ¬ (excludedByMode sm64 false (flatCeil h) = true) := by
    simp [excludedByMode, flatCeil, sm64]
  have hny : ¬ ((flatCeil h).normal.y = 0) := by
    simp [flatCeil]
  have hh : -(0 * (flatCeil h).normal.x + (flatCeil h).normal.z * 0 + (flatCeil h).originOffset)
      / (flatCeil h).normal.y = (h : ℚ) := by
    simp [flatCeil]
  unfold ceil_newHeight
  simp only [e1, e2, e3, hh]
  rw [if_neg (by norm_num), if_neg (by norm_num), if_neg (by norm_num), if_neg hex,
    if_neg hny, if_neg (by linarith)]

/-- The ceiling scan of an empty list. -/
theorem find_ceil_from_list_nil (c : Config) (cam : Bool) (x y z pheight : ℚ) :
    find_ceil_from_list c cam [] x y z pheight = (none, pheight) := rfl

/-- The ceiling scan of a one-element list whose surface is a candidate. -/
theorem find_ceil_from_list_singleton (c : Config) (cam : Bool) (a : Surface)
    (x y z pheight ha : ℚ) (ea : ceil_newHeight c cam a x y z = some ha) :
    find_ceil_from_list c cam [a] x y z pheight = (some a, ha) := by
  simp only [find_ceil_from_list, find_ceil_loop, ea]

/-- The ceiling scan of two candidates of which the second is strictly lower. -/
theorem find_ceil_from_list_pair_second (c : Config) (cam : Bool) (a b : Surface)
    (x y z pheight ha hb : ℚ) (ea : ceil_newHeight c cam a x y z = some ha)
    (eb : ceil_newHeight c cam b x y z = some hb) (hlt : hb < ha) :
    find_ceil_from_list c cam [a, b] x y z pheight = (some b, hb) := by
  simp only [find_ceil_from_list, find_ceil_loop, ea, eb]
  rw [if_pos hlt]

/-- The two possible outcomes of `find_floor_from_list`. -/
theorem find_floor_from_list_cases (c : Config) (cam : Bool) (l : List Surface)
    (x y z pheight : ℚ) :
    (find_floor_from_list c cam l x y z pheight = (none, pheight) ∧
      ∀ s ∈ l, ¬ FloorAccepted c cam s x y z) ∨
    (∃ s, find_floor_from_list c cam l x y z pheight = (some s, planeHeight s x z) ∧
      s ∈ l ∧ FloorAccepted c cam s x y z ∧
      ∀ t ∈ l, FloorAccepted c cam t x y z → planeHeight t x z ≤ planeHeight s x z) := by
  obtain ⟨h1, h2⟩ := find_floor_loop_spec c cam x y z l none
  unfold find_floor_from_list
  cases hfin : find_floor_loop c cam x y z l none with
  | none =>
    exact Or.inl ⟨rfl, fun s hs =>
      (floor_newHeight_eq_none_iff c cam s x y z).mp ((h1 hfin).2 s hs)⟩
  | some p =>
    obtain ⟨f, h⟩ := p
    rcases h2 f h hfin with ⟨a, -⟩ | ⟨pre, post, hl, hf, hpre, hpost, -⟩
    · cases a
    · obtain ⟨hacc, hh⟩ := (floor_newHeight_eq_some_iff c cam f x y z h).mp hf
      refine Or.inr ⟨f, by rw [hh], by simp [hl], hacc, ?_⟩
      intro t ht hta
      have hk := (floor_newHeight_eq_some_iff c cam t x y z _).mpr ⟨hta, rfl⟩
      rw [hl] at ht
      rcases List.mem_append.mp ht with ht | ht
      · exact le_of_lt (hh ▸ hpre t ht _ hk)
      · rcases List.mem_cons.mp ht with rfl | ht
        · exact le_refl _
        · exact hh ▸ hpost t ht _ hk

/-- The two possible outcomes of `find_ceil_from_list`. -/
theorem find_ceil_from_list_cases (c : Config) (cam : Bool) (l : List Surface)
    (x y z pheight : ℚ) :
    (find_ceil_from_list c cam l x y z pheight = (none, pheight) ∧
      ∀ s ∈ l, ¬ CeilAccepted c cam s x y z) ∨
    (∃ s, find_ceil_from_list c cam l x y z pheight = (some s, planeHeight s x z) ∧
      s ∈ l ∧ CeilAccepted c cam s x y z ∧
      ∀ t ∈ l, CeilAccepted c cam t x y z → planeHeight s x z ≤ planeHeight t x z) := by
  obtain ⟨h1, h2⟩ := find_ceil_loop_spec c cam x y z l none
  unfold find_ceil_from_list
  cases hfin : find_ceil_loop c cam x y z l none with
  | none =>
    exact Or.inl ⟨rfl, fun s hs =>
      (ceil_newHeight_eq_none_iff c cam s x y z).mp ((h1 hfin).2 s hs)⟩
  | some p =>
    obtain ⟨f, h⟩ := p
    rcases h2 f h hfin with ⟨a, -⟩ | ⟨pre, post, hl, hf, hpre, hpost, -⟩
    · cases a
    · obtain ⟨hacc, hh⟩ := (ceil_newHeight_eq_some_iff c cam f x y z h).mp hf
      refine Or.inr ⟨f, by rw [hh], by simp [hl], hacc, ?_⟩
      intro t ht hta
      have hk := (ceil_newHeight_eq_some_iff c cam t x y z _).mpr ⟨hta, rfl⟩
      rw [hl] at ht
      rcases List.mem_append.mp ht with ht | ht
      · exact le_of_lt (hh ▸ hpre t ht _ hk)
      · rcases List.mem_cons.mp ht with rfl | ht
        · exact le_refl _
        · exact hh ▸ hpost t ht _ hk

/-- The body of `find_floor` past the two bounds checks. -/
theorem find_floor_of_inBounds (c : Config) (g : Globals) (xPos yPos zPos : ℚ)
    (hin : InBounds c xPos zPos) :
    find_floor c g xPos yPos zPos =
      (let dyn := find_floor_from_list c g.gCheckingSurfaceCollisionsForCamera
        (dynamicCell c g xPos zPos).floors xPos yPos zPos c.FLOOR_LOWER_LIMIT
      let stat := find_floor_from_list c g.gCheckingSurfaceCollisionsForCamera
        (staticCell c g xPos zPos).floors xPos yPos zPos c.FLOOR_LOWER_LIMIT
      let statAndGlobals : (Option Surface × ℚ) × Globals :=
        if g.gFindFloorIncludeSurfaceIntangible = false then
          match stat.1 with
          | some floor =>
            if floor.type = c.SURFACE_INTANGIBLE then
              (find_floor_from_list c g.gCheckingSurfaceCollisionsForCamera
                (staticCell c g xPos zPos).floors xPos (stat.2 - 200) zPos stat.2, g)
            else (stat, g)
          | none => (stat, g)
        else
          (stat, Globals.mk g.gCheckingSurfaceCollisionsForCamera false
            g.currentObjectMovesThroughGrate g.currentObjectIsVanishMario
            g.gStaticSurfacePartition g.gDynamicSurfacePartition)
      if dyn.2 > statAndGlobals.1.2 then
        FloorResult.mk dyn.2 dyn.1 statAndGlobals.2
      else
        FloorResult.mk statAndGlobals.1.2 statAndGlobals.1.1 statAndGlobals.2) := by
  obtain ⟨⟨hx1, hx2⟩, ⟨hz1, hz2⟩⟩ := hin
  have hx : ¬ (xPos ≤ -(c.LEVEL_BOUNDARY_MAX : ℚ) ∨ xPos ≥ (c.LEVEL_BOUNDARY_MAX : ℚ)) := by
    rintro (h | h)
    · exact absurd hx1 (not_lt.mpr h)
    · exact absurd hx2 (not_lt.mpr h)
  have hz : ¬ (zPos ≤ -(c.LEVEL_BOUNDARY_MAX : ℚ) ∨ zPos ≥ (c.LEVEL_BOUNDARY_MAX : ℚ)) := by
    rintro (h | h)
    · exact absurd hz1 (not_lt.mpr h)
    · exact absurd hz2 (not_lt.mpr h)
  unfold find_floor
  simp only [if_neg hx, if_neg hz]
  rfl

/-- An in-bounds `find_floor` call returns with the include-intangible flag
clear when it was set on entry. -/
theorem find_floor_clears_flag_of_inBounds (c : Config) (g : Globals) (xPos yPos zPos : ℚ)
    (hin : InBounds c xPos zPos) (hflag : g.gFindFloorIncludeSurfaceIntangible = true) :
    (find_floor c g xPos yPos zPos).globals.gFindFloorIncludeSurfaceIntangible = false := by
  rw [find_floor_of_inBounds c g xPos yPos zPos hin]
  have hne : ¬ (g.gFindFloorIncludeSurfaceIntangible = false) := by
    rw [hflag]
    exact Bool.noConfusion
  simp only [if_neg hne]
  split_ifs <;> rfl

/-- An out-of-bounds `find_floor` call leaves the globals as they were. -/
theorem find_floor_globals_of_out_of_bounds (c : Config) (g : Globals) (xPos yPos zPos : ℚ)
    (hout : ¬ InBounds c xPos zPos) :
    (find_floor c g xPos yPos zPos).globals = g := by
  unfold find_floor
  by_cases hx : xPos ≤ -(c.LEVEL_BOUNDARY_MAX : ℚ) ∨ xPos ≥ (c.LEVEL_BOUNDARY_MAX : ℚ)
  · rw [if_pos hx]
  · by_cases hz : zPos ≤ -(c.LEVEL_BOUNDARY_MAX : ℚ) ∨ zPos ≥ (c.LEVEL_BOUNDARY_MAX : ℚ)
    · rw [if_neg hx, if_pos hz]
    · exfalso
      apply hout
      refine ⟨⟨?_, ?_⟩, ⟨?_, ?_⟩⟩
      · exact not_le.mp (fun h => hx (Or.inl h))
      · exact not_le.mp (fun h => hx (Or.inr h))
      · exact not_le.mp (fun h => hz (Or.inl h))
      · exact not_le.mp (fun h => hz (Or.inr h))

/-- The body of `find_ceil` past the two bounds checks. -/
theorem find_ceil_of_inBounds (c : Config) (g : Globals) (xPos yPos zPos : ℚ)
    (hin : InBounds c xPos zPos) :
    find_ceil c g xPos yPos zPos =
      (let dyn := find_ceil_from_list c g.gCheckingSurfaceCollisionsForCamera
        (dynamicCell c g xPos zPos).ceils xPos yPos zPos c.CELL_HEIGHT_LIMIT
      let stat := find_ceil_from_list c g.gCheckingSurfaceCollisionsForCamera
        (staticCell c g xPos zPos).ceils xPos yPos zPos c.CELL_HEIGHT_LIMIT
      if dyn.2 < stat.2 then (dyn.2, dyn.1) else (stat.2, stat.1)) := by
  obtain ⟨⟨hx1, hx2⟩, ⟨hz1, hz2⟩⟩ := hin
  have hx : ¬ (xPos ≤ -(c.LEVEL_BOUNDARY_MAX : ℚ) ∨ xPos ≥ (c.LEVEL_BOUNDARY_MAX : ℚ)) := by
    rintro (h | h)
    · exact absurd hx1 (not_lt.mpr h)
    · exact absurd hx2 (not_lt.mpr h)
  have hz : ¬ (zPos ≤ -(c.LEVEL_BOUNDARY_MAX : ℚ) ∨ zPos ≥ (c.LEVEL_BOUNDARY_MAX : ℚ)) := by
    rintro (h | h)
    · exact absurd hz1 (not_lt.mpr h)
    · exact absurd hz2 (not_lt.mpr h)
  unfold find_ceil
  simp only [if_neg hx, if_neg hz]
  rfl

/-- The probe `(0, 0)` is in bounds for the upstream constants. -/
theorem inBounds_sm64_origin : InBounds sm64 0 0 := by
  unfold InBounds sm64
  norm_num

/-- Invariant of the wall loop from a state with at most four stored walls:
position and margin follow `wallFinal`, `numCols` grows by the number of hits,
`numWalls` is capped at four, and the slots filled are the next hits in
order. -/
theorem find_wall_collisions_loop_spec (c : Config) (g : Globals) (radius y : ℚ) :
    ∀ (l : List Surface) (st : WallLoop), st.numWalls ≤ 4 →
      (find_wall_collisions_loop c g radius y l st).x
        = (wallFinal c g radius y l st.x st.z st.margin_radius).1 ∧
      (find_wall_collisions_loop c g radius y l st).z
        = (wallFinal c g radius y l st.x st.z st.margin_radius).2.1 ∧
      (find_wall_collisions_loop c g radius y l st).margin_radius
        = (wallFinal c g radius y l st.x st.z st.margin_radius).2.2 ∧
      (find_wall_collisions_loop c g radius y l st).numCols
        = st.numCols + ((wallHits c g radius y l st.x st.z st.margin_radius).length : Int) ∧
      (find_wall_collisions_loop c g radius y l st).numWalls
        = min 4 (st.numWalls + (wallHits c g radius y l st.x st.z st.margin_radius).length) ∧
      ∀ i, (find_wall_collisions_loop c g radius y l st).walls i
        = if st.numWalls ≤ i ∧ i < 4 ∧
              i < st.numWalls + (wallHits c g radius y l st.x st.z st.margin_radius).length
          then (wallHits c g radius y l st.x st.z st.margin_radius)[i - st.numWalls]?
          else st.walls i := by
  intro l
  induction l with
  | nil =>
    intro st hst
    simp only [find_wall_collisions_loop, wallFinal, wallHits, List.length_nil]
    refine ⟨trivial, trivial, trivial, by simp, by simp [hst], ?_⟩
    intro i
    have : ¬ (st.numWalls ≤ i ∧ i < 4 ∧ i < st.numWalls + 0) := by omega
    rw [if_neg this]
  | cons surf rest ih =>
    intro st hst
    by_cases hhit : (wall_surface c g surf radius y st.x st.z st.margin_radius).hasCollision
        = true
    · by_cases hroom : st.numWalls < 4
      · have hstep : find_wall_collisions_loop c g radius y (surf :: rest) st
            = find_wall_collisions_loop c g radius y rest
              (WallLoop.mk (wall_surface c g surf radius y st.x st.z st.margin_radius).x
                (wall_surface c g surf radius y st.x st.z st.margin_radius).z
                (wall_surface c g surf radius y st.x st.z st.margin_radius).margin_radius
                (st.numWalls + 1) (Function.update st.walls st.numWalls (some surf))
                (st.numCols + 1)) := by
          simp [find_wall_collisions_loop, hhit, hroom]
        obtain ⟨h1, h2, h3, h4, h5, h6⟩ := ih
          (WallLoop.mk (wall_surface c g surf radius y st.x st.z st.margin_radius).x
            (wall_surface c g surf radius y st.x st.z st.margin_radius).z
            (wall_surface c g surf radius y st.x st.z st.margin_radius).margin_radius
            (st.numWalls + 1) (Function.update st.walls st.numWalls (some surf))
            (st.numCols + 1)) (by show st.numWalls + 1 ≤ 4; omega)
        rw [hstep]
        simp only [wallFinal, wallHits, if_pos hhit, List.length_cons]
        simp only [] at h1 h2 h3 h4 h5 h6
        refine ⟨h1, h2, h3, ?_, ?_, ?_⟩
        · rw [h4]; push_cast; ring
        · rw [h5]; congr 1; omega
        · intro i
          rw [h6 i]
          by_cases hi : i = st.numWalls
          · subst hi
            have hc1 : ¬ (st.numWalls + 1 ≤ st.numWalls ∧ st.numWalls < 4 ∧ st.numWalls <
                st.numWalls + 1 + (wallHits c g radius y rest
                  (wall_surface c g surf radius y st.x st.z st.margin_radius).x
                  (wall_surface c g surf radius y st.x st.z st.margin_radius).z
                  (wall_surface c g surf radius y st.x st.z
                    st.margin_radius).margin_radius).length) := by omega
            have hc2 : st.numWalls ≤ st.numWalls ∧ st.numWalls < 4 ∧ st.numWalls <
                st.numWalls + ((wallHits c g radius y rest
                  (wall_surface c g surf radius y st.x st.z st.margin_radius).x
                  (wall_surface c g surf radius y st.x st.z st.margin_radius).z
                  (wall_surface c g surf radius y st.x st.z
                    st.margin_radius).margin_radius).length + 1) := by omega
            rw [if_neg hc1, if_pos hc2]
            simp
          · by_cases hlt : st.numWalls < i
            · obtain ⟨k, hk⟩ : ∃ k, i = st.numWalls + 1 + k := ⟨i - (st.numWalls + 1), by omega⟩
              subst hk
              have e1 : st.numWalls + 1 + k - (st.numWalls + 1) = k := by omega
              have e2 : st.numWalls + 1 + k - st.numWalls = k + 1 := by omega
              rw [e1, e2, List.getElem?_cons_succ]
              by_cases hcond : st.numWalls + 1 + k < 4 ∧ k < (wallHits c g radius y rest
                  (wall_surface c g surf radius y st.x st.z st.margin_radius).x
                  (wall_surface c g surf radius y st.x st.z st.margin_radius).z
                  (wall_surface c g surf radius y st.x st.z
                    st.margin_radius).margin_radius).length
              · rw [if_pos (by omega), if_pos (by omega)]
              · rw [if_neg (by omega), if_neg (by omega)]
                exact Function.update_noteq (by omega) _ _
            · rw [if_neg (by omega), if_neg (by omega)]
              exact Function.update_noteq hi _ _
      · have hstep : find_wall_collisions_loop c g radius y (surf :: rest) st
            = find_wall_collisions_loop c g radius y rest
              (WallLoop.mk (wall_surface c g surf radius y st.x st.z st.margin_radius).x
                (wall_surface c g surf radius y st.x st.z st.margin_radius).z
                (wall_surface c g surf radius y st.x st.z st.margin_radius).margin_radius
                st.numWalls st.walls (st.numCols + 1)) := by
          simp [find_wall_collisions_loop, hhit, hroom]
        obtain ⟨h1, h2, h3, h4, h5, h6⟩ := ih
          (WallLoop.mk (wall_surface c g surf radius y st.x st.z st.margin_radius).x
            (wall_surface c g surf radius y st.x st.z st.margin_radius).z
            (wall_surface c g surf radius y st.x st.z st.margin_radius).margin_radius
            st.numWalls st.walls (st.numCols + 1)) hst
        rw [hstep]
        simp only [wallFinal, wallHits, if_pos hhit, List.length_cons]
        simp only [] at h1 h2 h3 h4 h5 h6
        refine ⟨h1, h2, h3, ?_, ?_, ?_⟩
        · rw [h4]; push_cast; ring
        · rw [h5]; omega
        · intro i
          rw [h6 i, if_neg (by omega), if_neg (by omega)]
    · have hstep : find_wall_collisions_loop c g radius y (surf :: rest) st
          = find_wall_collisions_loop c g radius y rest
            (WallLoop.mk (wall_surface c g surf radius y st.x st.z st.margin_radius).x
              (wall_surface c g surf radius y st.x st.z st.margin_radius).z
              (wall_surface c g surf radius y st.x st.z st.margin_radius).margin_radius
              st.numWalls st.walls st.numCols) := by
        simp [find_wall_collisions_loop, hhit]
      obtain ⟨h1, h2, h3, h4, h5, h6⟩ := ih
        (WallLoop.mk (wall_surface c g surf radius y st.x st.z st.margin_radius).x
          (wall_surface c g surf radius y st.x st.z st.margin_radius).z
          (wall_surface c g surf radius y st.x st.z st.margin_radius).margin_radius
          st.numWalls st.walls st.numCols) hst
      rw [hstep]
      simp only [wallFinal, wallHits, if_neg hhit]
      simp only [] at h1 h2 h3 h4 h5 h6
      exact ⟨h1, h2, h3, h4, h5, h6⟩

/-- What one call of `find_wall_collisions_from_list` does to `*data` when at
most four walls are stored on entry. -/
theorem find_wall_collisions_from_list_spec (c : Config) (g : Globals) (l : List Surface)
    (data : WallCollisionData) (hn : data.numWalls ≤ 4) :
    (find_wall_collisions_from_list c g l data).1
      = ((wallHits c g (clampedRadius data.radius) (data.y + data.offsetY) l
          data.x data.z (data.radius - 1)).length : Int) ∧
    (find_wall_collisions_from_list c g l data).2.x
      = (wallFinal c g (clampedRadius data.radius) (data.y + data.offsetY) l
          data.x data.z (data.radius - 1)).1 ∧
    (find_wall_collisions_from_list c g l data).2.z
      = (wallFinal c g (clampedRadius data.radius) (data.y + data.offsetY) l
          data.x data.z (data.radius - 1)).2.1 ∧
    (find_wall_collisions_from_list c g l data).2.numWalls
      = min 4 (data.numWalls + (wallHits c g (clampedRadius data.radius)
          (data.y + data.offsetY) l data.x data.z (data.radius - 1)).length) ∧
    (∀ i, (find_wall_collisions_from_list c g l data).2.walls i
      = if data.numWalls ≤ i ∧ i < 4 ∧
            i < data.numWalls + (wallHits c g (clampedRadius data.radius)
              (data.y + data.offsetY) l data.x data.z (data.radius - 1)).length
        then (wallHits c g (clampedRadius data.radius) (data.y + data.offsetY) l
          data.x data.z (data.radius - 1))[i - data.numWalls]?
        else data.walls i) ∧
    (find_wall_collisions_from_list c g l data).2.y = data.y ∧
    (find_wall_collisions_from_list c g l data).2.offsetY = data.offsetY ∧
    (find_wall_collisions_from_list c g l data).2.radius = data.radius := by
  obtain ⟨h1, h2, -, h4, h5, h6⟩ := find_wall_collisions_loop_spec c g
    (clampedRadius data.radius) (data.y + data.offsetY) l
    (WallLoop.mk data.x data.z (data.radius - 1) data.numWalls data.walls 0) hn
  simp only [] at h1 h2 h4 h5 h6
  unfold find_wall_collisions_from_list
  refine ⟨?_, h1, h2, h5, h6, rfl, rfl, rfl⟩
  show (find_wall_collisions_loop c g (clampedRadius data.radius) (data.y + data.offsetY) l
    (WallLoop.mk data.x data.z (data.radius - 1) data.numWalls data.walls 0)).numCols = _
  rw [h4]
  simp

/-- The body of `find_wall_collisions` past the two bounds checks. -/
theorem find_wall_collisions_of_inBounds (c : Config) (g : Globals)
    (colData : WallCollisionData) (hin : WallInBounds c colData) :
    find_wall_collisions c g colData =
      ((find_wall_collisions_from_list c g (dynamicWalls c g colData)
          (WallCollisionData.mk colData.x colData.y colData.z colData.offsetY
            colData.radius 0 colData.walls)).1 +
        (find_wall_collisions_from_list c g (staticWalls c g colData)
          (find_wall_collisions_from_list c g (dynamicWalls c g colData)
            (WallCollisionData.mk colData.x colData.y colData.z colData.offsetY
              colData.radius 0 colData.walls)).2).1,
       (find_wall_collisions_from_list c g (staticWalls c g colData)
          (find_wall_collisions_from_list c g (dynamicWalls c g colData)
            (WallCollisionData.mk colData.x colData.y colData.z colData.offsetY
              colData.radius 0 colData.walls)).2).2) := by
  obtain ⟨⟨hx1, hx2⟩, ⟨hz1, hz2⟩⟩ := hin
  have hx : ¬ (toS16 (truncToInt colData.x) ≤ -c.LEVEL_BOUNDARY_MAX ∨
      toS16 (truncToInt colData.x) ≥ c.LEVEL_BOUNDARY_MAX) := by
    rintro (h | h)
    · exact absurd hx1 (not_lt.mpr h)
    · exact absurd hx2 (not_lt.mpr h)
  have hz : ¬ (toS16 (truncToInt colData.z) ≤ -c.LEVEL_BOUNDARY_MAX ∨
      toS16 (truncToInt colData.z) ≥ c.LEVEL_BOUNDARY_MAX) := by
    rintro (h | h)
    · exact absurd hz1 (not_lt.mpr h)
    · exact absurd hz2 (not_lt.mpr h)
  unfold find_wall_collisions
  simp only [if_neg hx, if_neg hz]
  rfl

/-- Truncation toward zero leaves an integer unchanged. -/
theorem truncToInt_intCast (n : Int) : truncToInt (n : ℚ) = n := by
  unfold truncToInt
  split_ifs
  · exact Int.floor_intCast n
  · exact Int.ceil_intCast n

/-- The face case of `wall_surface`: a surface that passes the height, offset
and mode checks and whose barycentric coordinates lie in the triangle pushes
the probe along the normal by `radius - offset` and ends at `hasCollision`. -/
theorem wall_surface_face (c : Config) (g : Globals) (surf : Surface)
    (radius y x z m : ℚ)
    (hy : (surf.lowerY : ℚ) ≤ y ∧ y ≤ (surf.upperY : ℚ))
    (ho : 0 ≤ wallOffset surf x y z ∧ wallOffset surf x y z ≤ radius)
    (hex : wallExcludedByMode c g surf = false)
    (hv : 0 ≤ wallBaryV surf x y z ∧ wallBaryV surf x y z ≤ 1)
    (hw : 0 ≤ wallBaryW surf x y z ∧ wallBaryW surf x y z ≤ 1 ∧
      wallBaryV surf x y z + wallBaryW surf x y z ≤ 1) :
    wall_surface c g surf radius y x z m
      = WallStep.mk (x + surf.normal.x * (radius - wallOffset surf x y z))
          (z + surf.normal.z * (radius - wallOffset surf x y z)) m true := by
  have h1 : ¬ (y < (surf.lowerY : ℚ) ∨ y > (surf.upperY : ℚ)) := by
    rintro (h | h)
    · exact absurd h (not_lt.mpr hy.1)
    · exact absurd h (not_lt.mpr hy.2)
  have h2 : ¬ (wallOffset surf x y z < 0 ∨ wallOffset surf x y z > radius) := by
    rintro (h | h)
    · exact absurd h (not_lt.mpr ho.1)
    · exact absurd h (not_lt.mpr ho.2)
  have h3 : ¬ (wallExcludedByMode c g surf = true) := by
    rw [hex]
    exact Bool.false_ne_true
  have h4 : ¬ (wallBaryV surf x y z < 0 ∨ wallBaryV surf x y z > 1) ∧
      ¬ (wallBaryW surf x y z < 0 ∨ wallBaryW surf x y z > 1 ∨
        wallBaryV surf x y z + wallBaryW surf x y z > 1) := by
    refine ⟨?_, ?_⟩
    · rintro (h | h)
      · exact absurd h (not_lt.mpr hv.1)
      · exact absurd h (not_lt.mpr hv.2)
    · rintro (h | h | h)
      · exact absurd h (not_lt.mpr hw.1)
      · exact absurd h (not_lt.mpr hw.2.1)
      · exact absurd h (not_lt.mpr hw.2.2)
  unfold wall_surface
  rw [if_neg h1]
  show (if wallOffset surf x y z < 0 ∨ wallOffset surf x y z > radius then _ else _) = _
  rw [if_neg h2, if_neg h3]
  show (if ¬ (wallBaryV surf x y z < 0 ∨ wallBaryV surf x y z > 1) ∧
      ¬ (wallBaryW surf x y z < 0 ∨ wallBaryW surf x y z > 1 ∨
        wallBaryV surf x y z + wallBaryW surf x y z > 1) then _ else _) = _
  rw [if_pos h4]
  rfl

/-- The wall `xWall k` takes the face case for a probe at height -50, `z = -50`
and `k ≤ x ≤ k + 50` with radius 50, and moves it to `x = 50 + k`. -/
theorem wall_surface_xWall (k : Int) (x m : ℚ) (hx0 : (k : ℚ) ≤ x) (hx1 : x ≤ 50 + (k : ℚ)) :
    wall_surface sm64 sixWalls (xWall k) 50 (-50) x (-50) m
      = WallStep.mk (50 + (k : ℚ)) (-50) m true := by
  have hoff : wallOffset (xWall k) x (-50) (-50) = x - (k : ℚ) := by
    simp [wallOffset, xWall]
    ring
  have hex : wallExcludedByMode sm64 sixWalls (xWall k) = false := by
    simp [wallExcludedByMode, sixWalls, uniformGlobals, xWall, sm64]
  have hv : wallBaryV (xWall k) x (-50) (-50) = 1 / 4 := by
    norm_num [wallBaryV, xWall]
  have hw : wallBaryW (xWall k) x (-50) (-50) = 1 / 4 := by
    norm_num [wallBaryW, xWall]
  rw [wall_surface_face sm64 sixWalls (xWall k) 50 (-50) x (-50) m
    (by norm_num [xWall])
    (by rw [hoff]; constructor <;> linarith) hex
    (by rw [hv]; norm_num)
    (by rw [hv, hw]; norm_num)]
  rw [hoff]
  simp only [xWall]
  congr 1 <;> ring

/-- The signed plane distance after a face push: the push is horizontal, so it
closes the gap `radius - offset` only by the factor `nx² + nz²`. -/
theorem wallOffset_after_face_push (surf : Surface) (radius x y z : ℚ) :
    wallOffset surf (x + surf.normal.x * (radius - wallOffset surf x y z)) y
        (z + surf.normal.z * (radius - wallOffset surf x y z))
      = wallOffset surf x y z +
        (surf.normal.x * surf.normal.x + surf.normal.z * surf.normal.z) *
          (radius - wallOffset surf x y z) := by
  unfold wallOffset
  ring

/-- The three outcomes of an edge block in terms of the edge's parameter,
distance and push. -/
theorem wall_edge_eq (c : Config) (surf : Surface) (e : EdgeProbe) (x z m : ℚ) :
    wall_edge c surf e.ex e.ey e.ez e.v2x e.v2y e.v2z x z m =
      if e.param < 0 ∨ e.param > 1 then EdgeResult.next
      else if e.distance c - m > 0 then EdgeResult.next
      else if (e.push c m).1 * surf.normal.x + (e.push c m).2 * surf.normal.z
          < (-9 / 10) * (e.distance c - m) then
        EdgeResult.rejected (x + (e.push c m).1) (z + (e.push c m).2) (m + 1 / 100)
      else EdgeResult.hasCollision (x + (e.push c m).1) (z + (e.push c m).2) (m + 1 / 100) :=
  rfl

/-- A surface whose edge blocks are reached ends as its edge cascade does. -/
theorem wall_surface_of_inEdgeCase (c : Config) (g : Globals) (surf : Surface)
    (radius y x z m : ℚ) (h : InEdgeCase c g surf radius y x z) :
    wall_surface c g surf radius y x z m
      = WallStep.ofEdge x z m (wallEdgeCascade c surf y x z m) := by
  obtain ⟨hy, ho, hex, hnf⟩ := h
  have h1 : ¬ (y < (surf.lowerY : ℚ) ∨ y > (surf.upperY : ℚ)) := by
    rintro (h | h)
    · exact absurd h (not_lt.mpr hy.1)
    · exact absurd h (not_lt.mpr hy.2)
  have h2 : ¬ (wallOffset surf x y z < 0 ∨ wallOffset surf x y z > radius) := by
    rintro (h | h)
    · exact absurd h (not_lt.mpr ho.1)
    · exact absurd h (not_lt.mpr ho.2)
  have h3 : ¬ (wallExcludedByMode c g surf = true) := by
    rw [hex]
    exact Bool.false_ne_true
  have h4 : ¬ (¬ (wallBaryV surf x y z < 0 ∨ wallBaryV surf x y z > 1) ∧
      ¬ (wallBaryW surf x y z < 0 ∨ wallBaryW surf x y z > 1 ∨
        wallBaryV surf x y z + wallBaryW surf x y z > 1)) := by
    rintro ⟨a, b⟩
    apply hnf
    refine ⟨⟨?_, ?_⟩, ?_, ?_, ?_⟩
    · exact not_lt.mp (fun h => a (Or.inl h))
    · exact not_lt.mp (fun h => a (Or.inr h))
    · exact not_lt.mp (fun h => b (Or.inl h))
    · exact not_lt.mp (fun h => b (Or.inr (Or.inl h)))
    · exact not_lt.mp (fun h => b (Or.inr (Or.inr h)))
  have h5 : ¬ (wallOffset surf x y z < 0) := not_lt.mpr ho.1
  unfold wall_surface
  rw [if_neg h1]
  show (if wallOffset surf x y z < 0 ∨ wallOffset surf x y z > radius then _ else _) = _
  rw [if_neg h2, if_neg h3]
  show (if ¬ (wallBaryV surf x y z < 0 ∨ wallBaryV surf x y z > 1) ∧
      ¬ (wallBaryW surf x y z < 0 ∨ wallBaryW surf x y z > 1 ∨
        wallBaryV surf x y z + wallBaryW surf x y z > 1) then _ else _) = _
  rw [if_neg h4]
  show (if wallOffset surf x y z < 0 then _ else _) = _
  rw [if_neg h5]
  show (match edgeBlock c surf (edge_1_2 surf x y z) x z m with
    | EdgeResult.rejected x1 z1 m1 => WallStep.mk x1 z1 m1 false
    | EdgeResult.hasCollision x1 z1 m1 => WallStep.mk x1 z1 m1 true
    | EdgeResult.next =>
      match edgeBlock c surf (edge_1_3 surf x y z) x z m with
      | EdgeResult.rejected x1 z1 m1 => WallStep.mk x1 z1 m1 false
      | EdgeResult.hasCollision x1 z1 m1 => WallStep.mk x1 z1 m1 true
      | EdgeResult.next =>
        if (edge_2_3 surf x y z).ey ≠ 0 then
          WallStep.ofEdge x z m
            (wall_edge c surf (edge_2_3 surf x y z).ex (edge_2_3 surf x y z).ey
              (edge_2_3 surf x y z).ez (edge_2_3 surf x y z).v2x (edge_2_3 surf x y z).v2y
              (edge_2_3 surf x y z).v2z x z m)
        else WallStep.mk x z m false) = _
  unfold wallEdgeCascade
  cases h12 : edgeBlock c surf (edge_1_2 surf x y z) x z m with
  | rejected a b d => rfl
  | hasCollision a b d => rfl
  | next =>
    cases h13 : edgeBlock c surf (edge_1_3 surf x y z) x z m with
    | rejected a b d => rfl
    | hasCollision a b d => rfl
    | next =>
      simp only [edgeBlock]
      split_ifs <;> rfl

/-- A cascade that ends in a rejection or a collision got it from the block
of one of the three edges, which has a vertical span. -/
theorem wallEdgeCascade_source (c : Config) (surf : Surface) (y x z m : ℚ) (r : EdgeResult)
    (hr : wallEdgeCascade c surf y x z m = r) (hne : r ≠ EdgeResult.next) :
    ∃ e ∈ [edge_1_2 surf x y z, edge_1_3 surf x y z, edge_2_3 surf x y z],
      e.ey ≠ 0 ∧ wall_edge c surf e.ex e.ey e.ez e.v2x e.v2y e.v2z x z m = r := by
  have key : ∀ e : EdgeProbe, edgeBlock c surf e x z m = r →
      e.ey ≠ 0 ∧ wall_edge c surf e.ex e.ey e.ez e.v2x e.v2y e.v2z x z m = r := by
    intro e he
    unfold edgeBlock at he
    by_cases hey : e.ey ≠ 0
    · rw [if_pos hey] at he
      exact ⟨hey, he⟩
    · rw [if_neg hey] at he
      exact absurd he.symm hne
  unfold wallEdgeCascade at hr
  cases h12 : edgeBlock c surf (edge_1_2 surf x y z) x z m with
  | rejected a b d =>
    rw [h12] at hr
    exact ⟨_, by simp, key _ (h12.trans hr)⟩
  | hasCollision a b d =>
    rw [h12] at hr
    exact ⟨_, by simp, key _ (h12.trans hr)⟩
  | next =>
    rw [h12] at hr
    cases h13 : edgeBlock c surf (edge_1_3 surf x y z) x z m with
    | rejected a b d =>
      rw [h13] at hr
      exact ⟨_, by simp, key _ (h13.trans hr)⟩
    | hasCollision a b d =>
      rw [h13] at hr
      exact ⟨_, by simp, key _ (h13.trans hr)⟩
    | next =>
      rw [h13] at hr
      exact ⟨_, by simp, key _ hr⟩

/-- What a rejected edge block has done: the probe is moved by the push, the
margin radius is enlarged, and the corner test is what rejected it. -/
theorem wall_edge_rejected (c : Config) (surf : Surface) (e : EdgeProbe) (x z m x1 z1 m1 : ℚ)
    (h : wall_edge c surf e.ex e.ey e.ez e.v2x e.v2y e.v2z x z m = EdgeResult.rejected x1 z1 m1) :
    x1 = x + (e.push c m).1 ∧ z1 = z + (e.push c m).2 ∧ m1 = m + 1 / 100 ∧
    e.distance c - m ≤ 0 ∧
    (e.push c m).1 * surf.normal.x + (e.push c m).2 * surf.normal.z
      < (-9 / 10) * (e.distance c - m) := by
  rw [wall_edge_eq] at h
  split_ifs at h with h1 h2 h3
  · injection h with a b d
    exact ⟨a.symm, b.symm, d.symm, not_lt.mp h2, h3⟩

/-- The `sqrtf` of the concrete constants is exact on the square of a natural
number. -/
theorem sm64_sqrtf_sq (n : ℕ) : sm64.sqrtf ((n : ℚ) * (n : ℚ)) = (n : ℚ) := by
  have h := ratSqrt_natCast_sq n
  rw [Nat.cast_mul] at h
  exact h

/-- The edge 1-2 of `edgeWall` seen from a probe at height 0: the edge point
is the origin, so the vector to it is `(-x, -z)`. -/
theorem edgeWall_edge_1_2 (x z : ℚ) :
    (edge_1_2 edgeWall x 0 z).ey ≠ 0 ∧ (edge_1_2 edgeWall x 0 z).param = 1 / 2 ∧
    (edge_1_2 edgeWall x 0 z).toEdgePoint = (-x, -z) := by
  refine ⟨?_, ?_, ?_⟩
  · norm_num [edge_1_2, edgeWall]
  · norm_num [EdgeProbe.param, edge_1_2, edgeWall]
  · norm_num [EdgeProbe.toEdgePoint, EdgeProbe.param, edge_1_2, edgeWall]

/-- A probe at height 0 beside `edgeWall` (`z < 0`, within the radius of its
plane) reaches the edge blocks. -/
theorem edgeWall_inEdgeCase (radius x z : ℚ) (hx0 : 0 ≤ x) (hx1 : x ≤ radius) (hz : z < 0) :
    InEdgeCase sm64 plainWorld edgeWall radius 0 x z := by
  have hw : wallBaryW edgeWall x 0 z = z / 448 := by
    norm_num [wallBaryW, edgeWall]
    ring
  refine ⟨by norm_num [edgeWall], ?_, ?_, ?_⟩
  · norm_num [wallOffset, edgeWall]
    exact ⟨hx0, hx1⟩
  · simp [wallExcludedByMode, plainWorld, uniformGlobals, edgeWall, sm64]
  · rintro ⟨-, h, -⟩
    rw [hw] at h
    have : z / 448 < 0 := div_neg_of_neg_of_pos hz (by norm_num)
    linarith

/-- The block of edge 1-2 of `edgeWall` for a probe at height 0 whose distance
to the edge point (the origin) the scan computes as `d`. -/
theorem edgeWall_block_1_2 (x z m d : ℚ) (hd : sm64.sqrtf (x * x + z * z) = d) :
    edgeBlock sm64 edgeWall (edge_1_2 edgeWall x 0 z) x z m =
      if d - m > 0 then EdgeResult.next
      else if -x * ((d - m) / d) < (-9 / 10) * (d - m) then
        EdgeResult.rejected (x + -x * ((d - m) / d)) (z + -z * ((d - m) / d)) (m + 1 / 100)
      else
        EdgeResult.hasCollision (x + -x * ((d - m) / d)) (z + -z * ((d - m) / d))
          (m + 1 / 100) := by
  obtain ⟨hey, hparam, hto⟩ := edgeWall_edge_1_2 x z
  have hdist : (edge_1_2 edgeWall x 0 z).distance sm64 = d := by
    unfold EdgeProbe.distance
    rw [hto]
    have : -x * -x + -z * -z = x * x + z * z := by ring
    simp only []
    rw [this, hd]
  have hpush : (edge_1_2 edgeWall x 0 z).push sm64 m
      = (-x * ((d - m) / d), -z * ((d - m) / d)) := by
    unfold EdgeProbe.push
    rw [hto, hdist]
  have hn : edgeWall.normal.x = 1 ∧ edgeWall.normal.z = 0 := ⟨rfl, rfl⟩
  unfold edgeBlock
  rw [if_pos hey, wall_edge_eq, hparam, hdist, hpush, hn.1, hn.2]
  rw [if_neg (by norm_num)]
  simp only [mul_one, mul_zero, add_zero]

/-- A surface whose signed plane distance is negative or beyond the radius is
skipped by the check of line 68 (when the height check has not skipped it
already). -/
theorem wall_surface_of_offset_out (c : Config) (g : Globals) (surf : Surface)
    (radius y x z m : ℚ)
    (h : wallOffset surf x y z < 0 ∨ wallOffset surf x y z > radius) :
    wall_surface c g surf radius y x z m = WallStep.mk x z m false := by
  unfold wall_surface
  by_cases h1 : y < (surf.lowerY : ℚ) ∨ y > (surf.upperY : ℚ)
  · rw [if_pos h1]
  · rw [if_neg h1]
    show (if wallOffset surf x y z < 0 ∨ wallOffset surf x y z > radius then _ else _) = _
    rw [if_pos h]

/-- A loop whose every surface is skipped at the entry state returns that state. -/
theorem find_wall_collisions_loop_all_skipped (c : Config) (g : Globals) (radius y : ℚ) :
    ∀ (l : List Surface) (st : WallLoop),
      (∀ s ∈ l, wall_surface c g s radius y st.x st.z st.margin_radius
        = WallStep.mk st.x st.z st.margin_radius false) →
      find_wall_collisions_loop c g radius y l st = st := by
  intro l
  induction l with
  | nil => intro st _; rfl
  | cons surf rest ih =>
    intro st h
    have hs := h surf (List.mem_cons_self _ _)
    have hstep : find_wall_collisions_loop c g radius y (surf :: rest) st
        = find_wall_collisions_loop c g radius y rest st := by
      simp only [find_wall_collisions_loop, hs]
      rfl
    rw [hstep]
    exact ih st (fun s hsm => h s (List.mem_cons_of_mem _ hsm))

/-- The edge 1-3 of `edgeWall` is horizontal: its block falls through. -/
theorem edgeWall_block_1_3 (x y z m : ℚ) :
    edgeBlock sm64 edgeWall (edge_1_3 edgeWall x y z) x z m = EdgeResult.next := by
  have hey : ¬ ((edge_1_3 edgeWall x y z).ey ≠ 0) := by
    norm_num [edge_1_3, edgeWall]
  unfold edgeBlock
  rw [if_neg hey]

/-- The block of edge 2-3 of `edgeWall` for a probe at height 0 falls through
when the distance `d` that the scan computes to the edge point `(0, 0, 224)`
exceeds the margin radius. -/
theorem edgeWall_block_2_3_far (x z m d : ℚ)
    (hd : sm64.sqrtf (x * x + (224 - z) * (224 - z)) = d) (hfar : d - m > 0) :
    edgeBlock sm64 edgeWall (edge_2_3 edgeWall x 0 z) x z m = EdgeResult.next := by
  have hey : (edge_2_3 edgeWall x 0 z).ey ≠ 0 := by
    norm_num [edge_2_3, edgeWall]
  have hparam : (edge_2_3 edgeWall x 0 z).param = 1 / 2 := by
    norm_num [EdgeProbe.param, edge_2_3, edgeWall]
  have hto : (edge_2_3 edgeWall x 0 z).toEdgePoint = (-x, 224 - z) := by
    norm_num [EdgeProbe.toEdgePoint, EdgeProbe.param, edge_2_3, edgeWall]
  have hdist : (edge_2_3 edgeWall x 0 z).distance sm64 = d := by
    unfold EdgeProbe.distance
    rw [hto]
    have : -x * -x + (224 - z) * (224 - z) = x * x + (224 - z) * (224 - z) := by ring
    simp only []
    rw [this, hd]
  unfold edgeBlock
  rw [if_pos hey, wall_edge_eq, hparam, hdist]
  rw [if_neg (by norm_num), if_pos hfar]

/-- The scan of a one-surface list in terms of the step of that surface. -/
theorem find_wall_collisions_from_list_singleton (c : Config) (g : Globals) (surf : Surface)
    (data : WallCollisionData) (r : WallStep)
    (hr : wall_surface c g surf (clampedRadius data.radius) (data.y + data.offsetY)
      data.x data.z (data.radius - 1) = r) :
    (find_wall_collisions_from_list c g [surf] data).1 = (if r.hasCollision = true then 1 else 0) ∧
    (find_wall_collisions_from_list c g [surf] data).2.x = r.x ∧
    (find_wall_collisions_from_list c g [surf] data).2.z = r.z := by
  have hloop : find_wall_collisions_loop c g (clampedRadius data.radius)
      (data.y + data.offsetY) [surf]
      (WallLoop.mk data.x data.z (data.radius - 1) data.numWalls data.walls 0)
      = if r.hasCollision = true then
          if data.numWalls < 4 then
            WallLoop.mk r.x r.z r.margin_radius (data.numWalls + 1)
              (Function.update data.walls data.numWalls (some surf)) (0 + 1)
          else WallLoop.mk r.x r.z r.margin_radius data.numWalls data.walls (0 + 1)
        else WallLoop.mk r.x r.z r.margin_radius data.numWalls data.walls 0 := by
    simp only [find_wall_collisions_loop, hr]
  refine ⟨?_, ?_, ?_⟩
  · show (find_wall_collisions_loop c g (clampedRadius data.radius) (data.y + data.offsetY)
      [surf] (WallLoop.mk data.x data.z (data.radius - 1) data.numWalls data.walls 0)).numCols
      = _
    rw [hloop]
    split_ifs <;> rfl
  · show (find_wall_collisions_loop c g (clampedRadius data.radius) (data.y + data.offsetY)
      [surf] (WallLoop.mk data.x data.z (data.radius - 1) data.numWalls data.walls 0)).x = _
    rw [hloop]
    split_ifs <;> rfl
  · show (find_wall_collisions_loop c g (clampedRadius data.radius) (data.y + data.offsetY)
      [surf] (WallLoop.mk data.x data.z (data.radius - 1) data.numWalls data.walls 0)).z = _
    rw [hloop]
    split_ifs <;> rfl

/-- A cascade whose first block does not fall through ends as that block. -/
theorem wallEdgeCascade_of_first (c : Config) (surf : Surface) (y x z m : ℚ) (r : EdgeResult)
    (h : edgeBlock c surf (edge_1_2 surf x y z) x z m = r) (hne : r ≠ EdgeResult.next) :
    wallEdgeCascade c surf y x z m = r := by
  unfold wallEdgeCascade
  rw [h]
  cases r with
  | next => exact absurd rfl hne
  | rejected a b d => rfl
  | hasCollision a b d => rfl

/-- A cascade whose three blocks fall through is `next`. -/
theorem wallEdgeCascade_of_all_next (c : Config) (surf : Surface) (y x z m : ℚ)
    (h1 : edgeBlock c surf (edge_1_2 surf x y z) x z m = EdgeResult.next)
    (h2 : edgeBlock c surf (edge_1_3 surf x y z) x z m = EdgeResult.next)
    (h3 : edgeBlock c surf (edge_2_3 surf x y z) x z m = EdgeResult.next) :
    wallEdgeCascade c surf y x z m = EdgeResult.next := by
  unfold wallEdgeCascade
  rw [h1, h2, h3]

/-- Invariant of the water loop started at record `k`: it returns the level of
the first water match among the next `n` records, the sentinel when there is
none. -/
theorem find_water_level_loop_spec (c : Config) (p : Nat → Int) (x z : ℚ) :
    ∀ (n k : Nat),
      ((∀ i, k ≤ i → i < k + n → ¬ WaterMatch p x z i) →
        find_water_level_loop c p x z n (1 + 6 * k) = c.FLOOR_LOWER_LIMIT) ∧
      (∀ i, k ≤ i → i < k + n → WaterMatch p x z i →
        (∀ j, k ≤ j → j < i → ¬ WaterMatch p x z j) →
        find_water_level_loop c p x z n (1 + 6 * k) = (regionLevel p i : ℚ)) := by
  intro n
  induction n with
  | zero =>
    intro k
    refine ⟨fun _ => rfl, ?_⟩
    intro i h1 h2
    omega
  | succ n ih =>
    intro k
    have hnext : 1 + 6 * k + 6 = 1 + 6 * (k + 1) := by ring
    have hcond : (((p (1 + 6 * k + 1) : Int) : ℚ) < x ∧ x < ((p (1 + 6 * k + 3) : Int) : ℚ) ∧
        ((p (1 + 6 * k + 2) : Int) : ℚ) < z ∧ z < ((p (1 + 6 * k + 4) : Int) : ℚ) ∧
        p (1 + 6 * k) < 50) ↔ WaterMatch p x z k := by
      unfold WaterMatch InRegionBox regionKind regionMinX regionMaxX regionMinZ regionMaxZ
      tauto
    obtain ⟨ih1, ih2⟩ := ih (k + 1)
    by_cases hm : WaterMatch p x z k
    · have hstep : find_water_level_loop c p x z (n + 1) (1 + 6 * k)
          = (regionLevel p k : ℚ) := by
        simp only [find_water_level_loop]
        rw [if_pos (hcond.mpr hm)]
        rfl
      refine ⟨fun hall => absurd hm (hall k (le_refl k) (by omega)), ?_⟩
      intro i h1 h2 hi hfirst
      rcases Nat.eq_or_lt_of_le h1 with heq | hlt
      · rw [hstep, heq]
      · exact absurd hm (hfirst k (le_refl k) hlt)
    · have hstep : find_water_level_loop c p x z (n + 1) (1 + 6 * k)
          = find_water_level_loop c p x z n (1 + 6 * (k + 1)) := by
        simp only [find_water_level_loop]
        rw [if_neg (fun h => hm (hcond.mp h)), hnext]
      rw [hstep]
      refine ⟨fun hall => ih1 (fun i h1 h2 => hall i (by omega) (by omega)), ?_⟩
      intro i h1 h2 hi hfirst
      rcases Nat.eq_or_lt_of_le h1 with heq | hlt
      · rw [← heq] at hi
        exact absurd hi hm
      · exact ih2 i hlt (by omega) hi (fun j hj1 hj2 => hfirst j (by omega) hj2)

/-- Invariant of the gas loop started at record `k`: it returns the level of
the first gas match among the next `n` records, the sentinel when there is
none. -/
theorem find_poison_gas_level_loop_spec (c : Config) (p : Nat → Int) (x z : ℚ) :
    ∀ (n k : Nat),
      ((∀ i, k ≤ i → i < k + n → ¬ GasMatch p x z i) →
        find_poison_gas_level_loop c p x z n (1 + 6 * k) = c.FLOOR_LOWER_LIMIT) ∧
      (∀ i, k ≤ i → i < k + n → GasMatch p x z i →
        (∀ j, k ≤ j → j < i → ¬ GasMatch p x z j) →
        find_poison_gas_level_loop c p x z n (1 + 6 * k) = (regionLevel p i : ℚ)) := by
  intro n
  induction n with
  | zero =>
    intro k
    refine ⟨fun _ => rfl, ?_⟩
    intro i h1 h2
    omega
  | succ n ih =>
    intro k
    have hnext : 1 + 6 * k + 6 = 1 + 6 * (k + 1) := by ring
    have hcond : (p (1 + 6 * k) ≥ 50 ∧
        (((p (1 + 6 * k + 1) : Int) : ℚ) < x ∧ x < ((p (1 + 6 * k + 3) : Int) : ℚ) ∧
        ((p (1 + 6 * k + 2) : Int) : ℚ) < z ∧ z < ((p (1 + 6 * k + 4) : Int) : ℚ) ∧
        Int.tmod (p (1 + 6 * k)) 10 = 0)) ↔ GasMatch p x z k := by
      unfold GasMatch InRegionBox regionKind regionMinX regionMaxX regionMinZ regionMaxZ
      constructor
      · rintro ⟨h50, a, b, d, e, hmod⟩
        rw [Int.tmod_eq_emod (by omega) (by norm_num)] at hmod
        exact ⟨h50, hmod, a, b, d, e⟩
      · rintro ⟨h50, hmod, a, b, d, e⟩
        refine ⟨h50, a, b, d, e, ?_⟩
        rw [Int.tmod_eq_emod (by omega) (by norm_num)]
        exact hmod
    obtain ⟨ih1, ih2⟩ := ih (k + 1)
    by_cases hm : GasMatch p x z k
    · have hstep : find_poison_gas_level_loop c p x z (n + 1) (1 + 6 * k)
          = (regionLevel p k : ℚ) := by
        obtain ⟨h50, hbox⟩ := hcond.mpr hm
        simp only [find_poison_gas_level_loop]
        rw [if_pos h50, if_pos hbox]
        rfl
      refine ⟨fun hall => absurd hm (hall k (le_refl k) (by omega)), ?_⟩
      intro i h1 h2 hi hfirst
      rcases Nat.eq_or_lt_of_le h1 with heq | hlt
      · rw [hstep, heq]
      · exact absurd hm (hfirst k (le_refl k) hlt)
    · have hstep : find_poison_gas_level_loop c p x z (n + 1) (1 + 6 * k)
          = find_poison_gas_level_loop c p x z n (1 + 6 * (k + 1)) := by
        simp only [find_poison_gas_level_loop]
        by_cases h50 : p (1 + 6 * k) ≥ 50
        · rw [if_pos h50, if_neg (fun h => hm (hcond.mp ⟨h50, h⟩)), hnext]
        · rw [if_neg h50, hnext]
      rw [hstep]
      refine ⟨fun hall => ih1 (fun i h1 h2 => hall i (by omega) (by omega)), ?_⟩
      intro i h1 h2 hi hfirst
      rcases Nat.eq_or_lt_of_le h1 with heq | hlt
      · rw [← heq] at hi
        exact absurd hi hm
      · exact ih2 i hlt (by omega) hi (fun j hj1 hj2 => hfirst j (by omega) hj2)

/-- The distance and the push of edge 1-2 of `edgeWall` for a probe at height 0
whose distance to the edge point (the origin) the scan computes as `d`. -/
theorem edgeWall_push_1_2 (x z m d : ℚ) (hd : sm64.sqrtf (x * x + z * z) = d) :
    (edge_1_2 edgeWall x 0 z).distance sm64 = d ∧
    (edge_1_2 edgeWall x 0 z).push sm64 m = (-x * ((d - m) / d), -z * ((d - m) / d)) := by
  obtain ⟨-, -, hto⟩ := edgeWall_edge_1_2 x z
  have hdist : (edge_1_2 edgeWall x 0 z).distance sm64 = d := by
    unfold EdgeProbe.distance
    rw [hto]
    have : -x * -x + -z * -z = x * x + z * z := by ring
    simp only []
    rw [this, hd]
  refine ⟨hdist, ?_⟩
  unfold EdgeProbe.push
  rw [hto, hdist]

/-- Over `lowCeilOnly` a probe at `(0, y, 0)` with `y <= 228` gets the ceiling
at height 150. -/
theorem find_ceil_lowCeilOnly (y : ℚ) (hy : y ≤ 228) :
    find_ceil sm64 lowCeilOnly 0 y 0 = (150, some (flatCeil 150)) := by
  have hd : (dynamicCell sm64 lowCeilOnly 0 0).ceils = [] := rfl
  have hs : (staticCell sm64 lowCeilOnly 0 0).ceils = [flatCeil 150] := rfl
  have hc : lowCeilOnly.gCheckingSurfaceCollisionsForCamera = false := rfl
  rw [find_ceil_of_inBounds sm64 lowCeilOnly 0 y 0 inBounds_sm64_origin, hd, hs, hc,
    find_ceil_from_list_nil,
    find_ceil_from_list_singleton sm64 false (flatCeil 150) 0 y 0 _ _
      (ceil_newHeight_flatCeil 150 y (by push_cast; linarith))]
  norm_num [sm64]

/-- A surface returned by the ceiling scan of a list lies at most 78 units
below the probe. -/
theorem find_ceil_from_list_some_bound (c : Config) (cam : Bool) (l : List Surface)
    (x y z pheight : ℚ) (s : Surface)
    (h : (find_ceil_from_list c cam l x y z pheight).1 = some s) :
    y ≤ (find_ceil_from_list c cam l x y z pheight).2 + 78 ∧
    (find_ceil_from_list c cam l x y z pheight).2 = planeHeight s x z := by
  rcases find_ceil_from_list_cases c cam l x y z pheight with ⟨hn, -⟩ | ⟨t, ht, -, hacc, -⟩
  · rw [hn] at h
    cases h
  · rw [ht] at h ⊢
    have hts : t = s := Option.some.inj h
    subst hts
    exact ⟨hacc.2.2.2.2.2, rfl⟩

/-- The conversion `(s32)` of `-1/2` is 0: the fraction is dropped toward zero. -/
theorem truncToInt_neg_half : truncToInt (-1 / 2) = 0 := by
  unfold truncToInt
  rw [if_neg (by norm_num), Int.ceil_eq_iff]
  norm_num

/-- A surface that the mode rule excludes is no floor candidate. -/
theorem floor_newHeight_of_excluded (c : Config) (cam : Bool) (surf : Surface) (x y z : ℚ)
    (h : ExcludedInMode c cam surf) : floor_newHeight c cam surf x y z = none :=
  (floor_newHeight_eq_none_iff c cam surf x y z).mpr (fun ha => ha.2.2.2.1 h)

/-- A surface that the mode rule excludes is no ceiling candidate. -/
theorem ceil_newHeight_of_excluded (c : Config) (cam : Bool) (surf : Surface) (x y z : ℚ)
    (h : ExcludedInMode c cam surf) : ceil_newHeight c cam surf x y z = none :=
  (ceil_newHeight_eq_none_iff c cam surf x y z).mpr (fun ha => ha.2.2.2.1 h)

/-- The mode rule of the wall scan contains the rule shared with the floor and
ceiling scans. -/
theorem wallExcludedByMode_of_excluded (c : Config) (g : Globals) (surf : Surface)
    (h : ExcludedInMode c g.gCheckingSurfaceCollisionsForCamera surf) :
    wallExcludedByMode c g surf = true := by
  unfold wallExcludedByMode
  rcases h with ⟨hc, hf⟩ | ⟨hc, ht⟩
  · rw [if_pos hc, if_pos hf]
  · have hc2 : ¬ (g.gCheckingSurfaceCollisionsForCamera = true) := by
      rw [hc]
      exact Bool.false_ne_true
    rw [if_neg hc2, if_pos ht]

/-- A wall that the mode rule excludes leaves the running position and margin
radius as they are and is no hit. -/
theorem wall_surface_of_excluded (c : Config) (g : Globals) (surf : Surface)
    (radius y x z m : ℚ) (h : wallExcludedByMode c g surf = true) :
    wall_surface c g surf radius y x z m = WallStep.mk x z m false := by
  unfold wall_surface
  by_cases h1 : y < (surf.lowerY : ℚ) ∨ y > (surf.upperY : ℚ)
  · rw [if_pos h1]
  · rw [if_neg h1]
    show (if wallOffset surf x y z < 0 ∨ wallOffset surf x y z > radius then _ else _) = _
    by_cases h2 : wallOffset surf x y z < 0 ∨ wallOffset surf x y z > radius
    · rw [if_pos h2]
    · rw [if_neg h2, if_pos h]

/-- The floor loop does not see the surfaces that the mode rule excludes. -/
theorem find_floor_loop_withoutExcluded (c : Config) (cam : Bool) (x y z : ℚ) :
    ∀ (l : List Surface) (st : Option (Surface × ℚ)),
      find_floor_loop c cam x y z (withoutExcluded c cam l) st
        = find_floor_loop c cam x y z l st := by
  intro l
  induction l with
  | nil => intro st; rfl
  | cons s rest ih =>
    intro st
    by_cases hex : ExcludedInMode c cam s
    · have hf : withoutExcluded c cam (s :: rest) = withoutExcluded c cam rest := by
        unfold withoutExcluded
        rw [List.filter_cons_of_neg (by simpa using hex)]
      have hn := floor_newHeight_of_excluded c cam s x y z hex
      rw [hf, ih st]
      simp only [find_floor_loop, hn]
    · have hf : withoutExcluded c cam (s :: rest) = s :: withoutExcluded c cam rest := by
        unfold withoutExcluded
        rw [List.filter_cons_of_pos (by simpa using hex)]
      rw [hf]
      cases hn : floor_newHeight c cam s x y z with
      | none => simp only [find_floor_loop, hn, ih]
      | some nh =>
        cases st with
        | none => simp only [find_floor_loop, hn, ih]
        | some p =>
          obtain ⟨f, hgt⟩ := p
          simp only [find_floor_loop, hn, ih]

/-- The ceiling loop does not see the surfaces that the mode rule excludes. -/
theorem find_ceil_loop_withoutExcluded (c : Config) (cam : Bool) (x y z : ℚ) :
    ∀ (l : List Surface) (st : Option (Surface × ℚ)),
      find_ceil_loop c cam x y z (withoutExcluded c cam l) st
        = find_ceil_loop c cam x y z l st := by
  intro l
  induction l with
  | nil => intro st; rfl
  | cons s rest ih =>
    intro st
    by_cases hex : ExcludedInMode c cam s
    · have hf : withoutExcluded c cam (s :: rest) = withoutExcluded c cam rest := by
        unfold withoutExcluded
        rw [List.filter_cons_of_neg (by simpa using hex)]
      have hn := ceil_newHeight_of_excluded c cam s x y z hex
      rw [hf, ih st]
      simp only [find_ceil_loop, hn]
    · have hf : withoutExcluded c cam (s :: rest) = s :: withoutExcluded c cam rest := by
        unfold withoutExcluded
        rw [List.filter_cons_of_pos (by simpa using hex)]
      rw [hf]
      cases hn : ceil_newHeight c cam s x y z with
      | none => simp only [find_ceil_loop, hn, ih]
      | some nh =>
        cases st with
        | none => simp only [find_ceil_loop, hn, ih]
        | some p =>
          obtain ⟨f, hgt⟩ := p
          simp only [find_ceil_loop, hn, ih]

/-- The wall loop does not see the surfaces that the mode rule excludes. -/
theorem find_wall_collisions_loop_withoutExcluded (c : Config) (g : Globals) (radius y : ℚ) :
    ∀ (l : List Surface) (st : WallLoop),
      find_wall_collisions_loop c g radius y
          (withoutExcluded c g.gCheckingSurfaceCollisionsForCamera l) st
        = find_wall_collisions_loop c g radius y l st := by
  intro l
  induction l with
  | nil => intro st; rfl
  | cons s rest ih =>
    intro st
    by_cases hex : ExcludedInMode c g.gCheckingSurfaceCollisionsForCamera s
    · have hf : withoutExcluded c g.gCheckingSurfaceCollisionsForCamera (s :: rest)
          = withoutExcluded c g.gCheckingSurfaceCollisionsForCamera rest := by
        unfold withoutExcluded
        rw [List.filter_cons_of_neg (by simpa using hex)]
      have hs := wall_surface_of_excluded c g s radius y st.x st.z st.margin_radius
        (wallExcludedByMode_of_excluded c g s hex)
      have hstep : find_wall_collisions_loop c g radius y (s :: rest) st
          = find_wall_collisions_loop c g radius y rest st := by
        simp only [find_wall_collisions_loop, hs]
        rfl
      rw [hf, ih st, hstep]
    · have hf : withoutExcluded c g.gCheckingSurfaceCollisionsForCamera (s :: rest)
          = s :: withoutExcluded c g.gCheckingSurfaceCollisionsForCamera rest := by
        unfold withoutExcluded
        rw [List.filter_cons_of_pos (by simpa using hex)]
      rw [hf]
      simp only [find_wall_collisions_loop, ih]

/-- A surface returned by the floor scan of a list lies at most 78 units above
the probe, and the height returned with it is its plane height. -/
theorem find_floor_from_list_some_bound (c : Config) (cam : Bool) (l : List Surface)
    (x y z pheight : ℚ) (s : Surface)
    (h : (find_floor_from_list c cam l x y z pheight).1 = some s) :
    (find_floor_from_list c cam l x y z pheight).2 ≤ y + 78 ∧
    (find_floor_from_list c cam l x y z pheight).2 = planeHeight s x z := by
  rcases find_floor_from_list_cases c cam l x y z pheight with ⟨hn, -⟩ | ⟨t, ht, -, hacc, -⟩
  · rw [hn] at h
    cases h
  · rw [ht] at h ⊢
    have hts : t = s := Option.some.inj h
    subst hts
    have := hacc.2.2.2.2.2
    exact ⟨by show planeHeight t x z ≤ y + 78; linarith, rfl⟩

/-- The default query at `(0, 120, 0)` over an intangible floor at 100 and a
normal floor at -50 returns the normal floor through the re-query. -/
theorem find_floor_intangibleOverNormal :
    find_floor sm64 (intangibleOverNormal false) 0 120 0
      = FloorResult.mk (-50) (some (flatFloor 0 (-50))) (intangibleOverNormal false) := by
  rw [find_floor_of_inBounds sm64 (intangibleOverNormal false) 0 120 0 inBounds_sm64_origin]
  simp [staticCell, dynamicCell, intangibleOverNormal, uniformGlobals, floorCell,
    find_floor_from_list, find_floor_loop, floor_newHeight, excludedByMode, flatFloor, sm64]
  norm_num

/-- The vector `(d00, d01)` that an edge block computes is the vector from the
probe to the point of the edge at the probe's height. -/
theorem toEdgePoint_of_edgeOfSurface (surf : Surface) (x y z : ℚ) (e : EdgeProbe) (E : ℚ × ℚ)
    (he : EdgeOfSurface surf x y z e E) : e.toEdgePoint = (E.1 - x, E.2 - z) := by
  rcases he with ⟨h1, h2⟩ | ⟨h1, h2⟩ | ⟨h1, h2⟩
  · rw [h1, h2]
    simp only [EdgeProbe.toEdgePoint, EdgeProbe.param, edge_1_2, edgePoint]
    push_cast
    exact Prod.ext (by simp only []; ring) (by simp only []; ring)
  · rw [h1, h2]
    simp only [EdgeProbe.toEdgePoint, EdgeProbe.param, edge_1_3, edgePoint]
    push_cast
    exact Prod.ext (by simp only []; ring) (by simp only []; ring)
  · rw [h1, h2]
    simp only [EdgeProbe.toEdgePoint, EdgeProbe.param, edge_2_3, edgePoint]
    push_cast
    exact Prod.ext (by simp only []; ring) (by simp only []; ring)

/-- An edge block that does not fall through has enlarged the margin radius
by 0.01. -/
theorem wall_edge_margin (c : Config) (surf : Surface) (e : EdgeProbe) (x z m : ℚ) :
    wall_edge c surf e.ex e.ey e.ez e.v2x e.v2y e.v2z x z m = EdgeResult.next ∨
    (∃ x1 z1, wall_edge c surf e.ex e.ey e.ez e.v2x e.v2y e.v2z x z m
      = EdgeResult.rejected x1 z1 (m + 1 / 100)) ∨
    (∃ x1 z1, wall_edge c surf e.ex e.ey e.ez e.v2x e.v2y e.v2z x z m
      = EdgeResult.hasCollision x1 z1 (m + 1 / 100)) := by
  rw [wall_edge_eq]
  split_ifs
  · exact Or.inl rfl
  · exact Or.inl rfl
  · exact Or.inr (Or.inl ⟨_, _, rfl⟩)
  · exact Or.inr (Or.inr ⟨_, _, rfl⟩)

/-- An edge cascade that does not fall through has enlarged the margin radius
by 0.01. -/
theorem wallEdgeCascade_margin (c : Config) (surf : Surface) (y x z m : ℚ) :
    wallEdgeCascade c surf y x z m = EdgeResult.next ∨
    (∃ x1 z1, wallEdgeCascade c surf y x z m = EdgeResult.rejected x1 z1 (m + 1 / 100)) ∨
    (∃ x1 z1, wallEdgeCascade c surf y x z m = EdgeResult.hasCollision x1 z1 (m + 1 / 100)) := by
  cases hr : wallEdgeCascade c surf y x z m with
  | next => exact Or.inl rfl
  | rejected a b d =>
    obtain ⟨e, -, -, he⟩ := wallEdgeCascade_source c surf y x z m _ hr (fun h => by cases h)
    rcases wall_edge_margin c surf e x z m with h | ⟨x1, z1, h⟩ | ⟨x1, z1, h⟩
    · rw [h] at he
      cases he
    · rw [h] at he
      exact Or.inr (Or.inl ⟨x1, z1, he.symm⟩)
    · rw [h] at he
      cases he
  | hasCollision a b d =>
    obtain ⟨e, -, -, he⟩ := wallEdgeCascade_source c surf y x z m _ hr (fun h => by cases h)
    rcases wall_edge_margin c surf e x z m with h | ⟨x1, z1, h⟩ | ⟨x1, z1, h⟩
    · rw [h] at he
      cases he
    · rw [h] at he
      cases he
    · rw [h] at he
      exact Or.inr (Or.inr ⟨x1, z1, he.symm⟩)

/-- A surface whose edge blocks are not reached leaves the margin radius as it
is. -/
theorem wall_surface_margin_of_not_edge (c : Config) (g : Globals) (surf : Surface)
    (radius y x z m : ℚ) (h : ¬ InEdgeCase c g surf radius y x z) :
    (wall_surface c g surf radius y x z m).margin_radius = m := by
  by_cases h1 : y < (surf.lowerY : ℚ) ∨ y > (surf.upperY : ℚ)
  · unfold wall_surface
    rw [if_pos h1]
  by_cases h2 : wallOffset surf x y z < 0 ∨ wallOffset surf x y z > radius
  · rw [wall_surface_of_offset_out c g surf radius y x z m h2]
  by_cases h3 : wallExcludedByMode c g surf = true
  · rw [wall_surface_of_excluded c g surf radius y x z m h3]
  have hy : (surf.lowerY : ℚ) ≤ y ∧ y ≤ (surf.upperY : ℚ) :=
    ⟨not_lt.mp (fun a => h1 (Or.inl a)), not_lt.mp (fun a => h1 (Or.inr a))⟩
  have ho : 0 ≤ wallOffset surf x y z ∧ wallOffset surf x y z ≤ radius :=
    ⟨not_lt.mp (fun a => h2 (Or.inl a)), not_lt.mp (fun a => h2 (Or.inr a))⟩
  have hex : wallExcludedByMode c g surf = false := by
    cases hv : wallExcludedByMode c g surf with
    | true => exact absurd hv h3
    | false => rfl
  by_cases h4 : (0 ≤ wallBaryV surf x y z ∧ wallBaryV surf x y z ≤ 1) ∧
      (0 ≤ wallBaryW surf x y z ∧ wallBaryW surf x y z ≤ 1 ∧
        wallBaryV surf x y z + wallBaryW surf x y z ≤ 1)
  · rw [wall_surface_face c g surf radius y x z m hy ho hex h4.1 h4.2]
  · exact absurd ⟨hy, ho, hex, h4⟩ h

/-- The margin radius after one surface: enlarged by 0.01 when the surface
pushes the probe at an edge, unchanged otherwise. -/
theorem wall_surface_margin_radius (c : Config) (g : Globals) (surf : Surface)
    (radius y x z m : ℚ) :
    (wall_surface c g surf radius y x z m).margin_radius
      = if EdgePushed c g surf radius y x z m then m + 1 / 100 else m := by
  by_cases hE : InEdgeCase c g surf radius y x z
  · rw [wall_surface_of_inEdgeCase c g surf radius y x z m hE]
    rcases wallEdgeCascade_margin c surf y x z m with h | ⟨x1, z1, h⟩ | ⟨x1, z1, h⟩
    · have hn : ¬ EdgePushed c g surf radius y x z m := by
        rintro ⟨-, h2⟩
        rw [h] at h2
        cases h2
      rw [if_neg hn, h]
      rfl
    · have hp : EdgePushed c g surf radius y x z m := ⟨hE, by rw [h]; rfl⟩
      rw [if_pos hp, h]
      rfl
    · have hp : EdgePushed c g surf radius y x z m := ⟨hE, by rw [h]; rfl⟩
      rw [if_pos hp, h]
      rfl
  · have hn : ¬ EdgePushed c g surf radius y x z m := fun h => hE h.1
    rw [if_neg hn]
    exact wall_surface_margin_of_not_edge c g surf radius y x z m hE

/-- The running position and margin radius of the wall loop follow `wallFinal`,
whatever the number of stored walls. -/
theorem find_wall_collisions_loop_run (c : Config) (g : Globals) (radius y : ℚ) :
    ∀ (l : List Surface) (st : WallLoop),
      (find_wall_collisions_loop c g radius y l st).x
        = (wallFinal c g radius y l st.x st.z st.margin_radius).1 ∧
      (find_wall_collisions_loop c g radius y l st).z
        = (wallFinal c g radius y l st.x st.z st.margin_radius).2.1 ∧
      (find_wall_collisions_loop c g radius y l st).margin_radius
        = (wallFinal c g radius y l st.x st.z st.margin_radius).2.2 := by
  intro l
  induction l with
  | nil => intro st; exact ⟨rfl, rfl, rfl⟩
  | cons s rest ih =>
    intro st
    simp only [find_wall_collisions_loop, wallFinal]
    split_ifs <;> exact ih _

/-- The margin radius after a list: the start value plus 0.01 for every surface
that pushed the probe at an edge. -/
theorem wallFinal_margin (c : Config) (g : Globals) (radius y : ℚ) :
    ∀ (l : List Surface) (x z m : ℚ),
      (wallFinal c g radius y l x z m).2.2
        = m + (edgePushes c g radius y l x z m : ℚ) / 100 := by
  intro l
  induction l with
  | nil =>
    intro x z m
    simp [wallFinal, edgePushes]
  | cons s rest ih =>
    intro x z m
    simp only [wallFinal, edgePushes]
    rw [ih, wall_surface_margin_radius]
    split_ifs
    · push_cast
      ring
    · push_cast
      ring

/-- The wall loop over a concatenation continues from the state the first part
left. -/
theorem find_wall_collisions_loop_append (c : Config) (g : Globals) (radius y : ℚ) :
    ∀ (l1 l2 : List Surface) (st : WallLoop),
      find_wall_collisions_loop c g radius y (l1 ++ l2) st
        = find_wall_collisions_loop c g radius y l2
            (find_wall_collisions_loop c g radius y l1 st) := by
  intro l1
  induction l1 with
  | nil => intro l2 st; rfl
  | cons s rest ih =>
    intro l2 st
    simp only [List.cons_append, find_wall_collisions_loop]
    split_ifs <;> exact ih _ _

/-- The hit count of the wall loop grows by the number of hits, whatever the
number of stored walls. -/
theorem find_wall_collisions_loop_numCols (c : Config) (g : Globals) (radius y : ℚ) :
    ∀ (l : List Surface) (st : WallLoop),
      (find_wall_collisions_loop c g radius y l st).numCols
        = st.numCols + ((wallHits c g radius y l st.x st.z st.margin_radius).length : Int) := by
  intro l
  induction l with
  | nil => intro st; simp [find_wall_collisions_loop, wallHits]
  | cons s rest ih =>
    intro st
    simp only [find_wall_collisions_loop, wallHits]
    split_ifs
    · rw [ih]
      simp only [List.length_cons]
      push_cast
      ring
    · rw [ih]
      simp only [List.length_cons]
      push_cast
      ring
    · rw [ih]

/-- The scan of a two-surface list in terms of the steps of its surfaces. -/
theorem find_wall_collisions_from_list_pair (c : Config) (g : Globals) (a b : Surface)
    (data : WallCollisionData) (r1 r2 : WallStep)
    (hr1 : wall_surface c g a (clampedRadius data.radius) (data.y + data.offsetY)
      data.x data.z (data.radius - 1) = r1)
    (hr2 : wall_surface c g b (clampedRadius data.radius) (data.y + data.offsetY)
      r1.x r1.z r1.margin_radius = r2) :
    (find_wall_collisions_from_list c g [a, b] data).1
      = (if r1.hasCollision = true then 1 else 0) + (if r2.hasCollision = true then 1 else 0) ∧
    (find_wall_collisions_from_list c g [a, b] data).2.x = r2.x ∧
    (find_wall_collisions_from_list c g [a, b] data).2.z = r2.z := by
  obtain ⟨hx, hz, -⟩ := find_wall_collisions_loop_run c g (clampedRadius data.radius)
    (data.y + data.offsetY) [a, b]
    (WallLoop.mk data.x data.z (data.radius - 1) data.numWalls data.walls 0)
  have hn := find_wall_collisions_loop_numCols c g (clampedRadius data.radius)
    (data.y + data.offsetY) [a, b]
    (WallLoop.mk data.x data.z (data.radius - 1) data.numWalls data.walls 0)
  simp only [wallFinal, hr1, hr2] at hx hz
  simp only [wallHits, hr1, hr2] at hn
  refine ⟨?_, hx, hz⟩
  show (find_wall_collisions_loop c g (clampedRadius data.radius) (data.y + data.offsetY)
    [a, b] (WallLoop.mk data.x data.z (data.radius - 1) data.numWalls data.walls 0)).numCols = _
  rw [hn]
  split_ifs <;> simp

/-- The block of edge 1-2 of `edgeWallUpper` is that of `edgeWall`: the two walls
share the edge and the normal. -/
theorem edgeWallUpper_block_1_2 (x z m : ℚ) :
    edgeBlock sm64 edgeWallUpper (edge_1_2 edgeWallUpper x 0 z) x z m
      = edgeBlock sm64 edgeWall (edge_1_2 edgeWall x 0 z) x z m := rfl

/-- A probe at height 0 beside `edgeWallUpper` (`z < 0`, within the radius of its
plane) reaches the edge blocks. -/
theorem edgeWallUpper_inEdgeCase (radius x z : ℚ) (hx0 : 0 ≤ x) (hx1 : x ≤ radius)
    (hz : z < 0) : InEdgeCase sm64 plainWorld edgeWallUpper radius 0 x z := by
  have hw : wallBaryW edgeWallUpper x 0 z = z / 448 := by
    norm_num [wallBaryW, edgeWallUpper]
    ring
  refine ⟨by norm_num [edgeWallUpper], ?_, ?_, ?_⟩
  · norm_num [wallOffset, edgeWallUpper]
    exact ⟨hx0, hx1⟩
  · simp [wallExcludedByMode, plainWorld, uniformGlobals, edgeWallUpper, sm64]
  · rintro ⟨-, h, -⟩
    rw [hw] at h
    have : z / 448 < 0 := div_neg_of_neg_of_pos hz (by norm_num)
    linarith

/-- A surface that takes neither the face case nor reaches its edge blocks is
skipped: it leaves the running position and margin radius as they are and is
no hit. -/
theorem wall_surface_of_skipped (c : Config) (g : Globals) (surf : Surface)
    (radius y x z m : ℚ) (hnf : ¬ InFaceCase c g surf radius y x z)
    (hne : ¬ InEdgeCase c g surf radius y x z) :
    wall_surface c g surf radius y x z m = WallStep.mk x z m false := by
  by_cases h1 : y < (surf.lowerY : ℚ) ∨ y > (surf.upperY : ℚ)
  · unfold wall_surface
    rw [if_pos h1]
  by_cases h2 : wallOffset surf x y z < 0 ∨ wallOffset surf x y z > radius
  · exact wall_surface_of_offset_out c g surf radius y x z m h2
  by_cases h3 : wallExcludedByMode c g surf = true
  · exact wall_surface_of_excluded c g surf radius y x z m h3
  have hy : (surf.lowerY : ℚ) ≤ y ∧ y ≤ (surf.upperY : ℚ) :=
    ⟨not_lt.mp (fun a => h1 (Or.inl a)), not_lt.mp (fun a => h1 (Or.inr a))⟩
  have ho : 0 ≤ wallOffset surf x y z ∧ wallOffset surf x y z ≤ radius :=
    ⟨not_lt.mp (fun a => h2 (Or.inl a)), not_lt.mp (fun a => h2 (Or.inr a))⟩
  have hex : wallExcludedByMode c g surf = false := by
    cases hv : wallExcludedByMode c g surf with
    | true => exact absurd hv h3
    | false => rfl
  by_cases h4 : (0 ≤ wallBaryV surf x y z ∧ wallBaryV surf x y z ≤ 1) ∧
      (0 ≤ wallBaryW surf x y z ∧ wallBaryW surf x y z ≤ 1 ∧
        wallBaryV surf x y z + wallBaryW surf x y z ≤ 1)
  · exact absurd ⟨hy, ho, hex, h4.1, h4.2⟩ hnf
  · exact absurd ⟨hy, ho, hex, h4⟩ hne

/-- One surface at a position where its signed plane distance is negative or
at least the radius and where it does not push at an edge: the position and
the margin radius stay, and it is a hit exactly in the face case. -/
theorem wall_surface_of_no_push (c : Config) (g : Globals) (surf : Surface)
    (radius y x z m : ℚ)
    (h : wallOffset surf x y z < 0 ∨ wallOffset surf x y z ≥ radius)
    (hedge : ¬ EdgePushed c g surf radius y x z m) :
    wall_surface c g surf radius y x z m
      = WallStep.mk x z m (decide (InFaceCase c g surf radius y x z)) := by
  by_cases hf : InFaceCase c g surf radius y x z
  · have hoff : wallOffset surf x y z = radius := by
      rcases h with h1 | h1
      · exact absurd h1 (not_lt.mpr hf.2.1.1)
      · exact le_antisymm hf.2.1.2 h1
    rw [wall_surface_face c g surf radius y x z m hf.1 hf.2.1 hf.2.2.1 hf.2.2.2.1 hf.2.2.2.2,
      hoff, sub_self, mul_zero, mul_zero, add_zero, add_zero, decide_eq_true hf]
  · rw [decide_eq_false hf]
    by_cases he : InEdgeCase c g surf radius y x z
    · rw [wall_surface_of_inEdgeCase c g surf radius y x z m he]
      cases hc : wallEdgeCascade c surf y x z m with
      | next => rfl
      | rejected a b d =>
        exact absurd ⟨he, by rw [hc]; rfl⟩ hedge
      | hasCollision a b d =>
        exact absurd ⟨he, by rw [hc]; rfl⟩ hedge
    · exact wall_surface_of_skipped c g surf radius y x z m hf he

/-- The trace of a list from a position at which every wall is at a negative
distance or at least the radius and none pushes at an edge: the position and
margin radius never change and the hits are the walls in whose face case the
probe lies. -/
theorem wall_trace_of_no_push (c : Config) (g : Globals) (radius y x z m : ℚ) :
    ∀ (l : List Surface),
      (∀ s ∈ l, wallOffset s x y z < 0 ∨ wallOffset s x y z ≥ radius) →
      (∀ s ∈ l, ¬ EdgePushed c g s radius y x z m) →
      wallFinal c g radius y l x z m = (x, z, m) ∧
      wallHits c g radius y l x z m
        = l.filter (fun s => decide (InFaceCase c g s radius y x z)) := by
  intro l
  induction l with
  | nil => intro _ _; exact ⟨rfl, rfl⟩
  | cons s rest ih =>
    intro h hedge
    have hs := wall_surface_of_no_push c g s radius y x z m (h s (List.mem_cons_self _ _))
      (hedge s (List.mem_cons_self _ _))
    obtain ⟨ih1, ih2⟩ := ih (fun t ht => h t (List.mem_cons_of_mem _ ht))
      (fun t ht => hedge t (List.mem_cons_of_mem _ ht))
    constructor
    · simp only [wallFinal, hs]
      exact ih1
    · simp only [wallHits, hs]
      by_cases hf : InFaceCase c g s radius y x z
      · rw [List.filter_cons_of_pos (by simpa using hf)]
        simp only [decide_eq_true hf, if_true]
        rw [ih2]
      · rw [List.filter_cons_of_neg (by simpa using hf)]
        simp only [decide_eq_false hf]
        exact ih2

/-- The iteration of a surface that reaches its edge blocks and whose cascade is
decided by the block of the edge `e`, which interacts: the probe is moved by
`(E - P) (d - m) / d` and the margin radius enlarged by 0.01. -/
theorem wall_surface_edge_push (c : Config) (g : Globals) (surf : Surface)
    (radius y x z m : ℚ) (e : EdgeProbe) (E : ℚ × ℚ)
    (hedge : InEdgeCase c g surf radius y x z) (he : EdgeOfSurface surf x y z e E)
    (hfire : wallEdgeCascade c surf y x z m = edgeBlock c surf e x z m)
    (hey : e.ey ≠ 0) (hp : 0 ≤ e.param ∧ e.param ≤ 1) (hm : e.distance c ≤ m) :
    (wall_surface c g surf radius y x z m).x
      = x + (E.1 - x) * ((e.distance c - m) / e.distance c) ∧
    (wall_surface c g surf radius y x z m).z
      = z + (E.2 - z) * ((e.distance c - m) / e.distance c) ∧
    (wall_surface c g surf radius y x z m).margin_radius = m + 1 / 100 := by
  have hto := toEdgePoint_of_edgeOfSurface surf x y z e E he
  have hpush : e.push c m
      = ((E.1 - x) * ((e.distance c - m) / e.distance c),
          (E.2 - z) * ((e.distance c - m) / e.distance c)) := by
    unfold EdgeProbe.push
    rw [hto]
  have h1 : ¬ (e.param < 0 ∨ e.param > 1) := by
    rintro (h | h)
    · exact absurd h (not_lt.mpr hp.1)
    · exact absurd h (not_lt.mpr hp.2)
  have h2 : ¬ (e.distance c - m > 0) := by
    intro h
    linarith
  have hblock : edgeBlock c surf e x z m =
      if (e.push c m).1 * surf.normal.x + (e.push c m).2 * surf.normal.z
          < (-9 / 10) * (e.distance c - m) then
        EdgeResult.rejected (x + (e.push c m).1) (z + (e.push c m).2) (m + 1 / 100)
      else EdgeResult.hasCollision (x + (e.push c m).1) (z + (e.push c m).2) (m + 1 / 100) := by
    unfold edgeBlock
    rw [if_pos hey, wall_edge_eq, if_neg h1, if_neg h2]
  rw [wall_surface_of_inEdgeCase c g surf radius y x z m hedge, hfire, hblock]
  split_ifs
  · rw [hpush]
    exact ⟨rfl, rfl, rfl⟩
  · rw [hpush]
    exact ⟨rfl, rfl, rfl⟩

/-- The iteration of `farEdgeWall` for the probe `(65636, -50, -50)` with the
clamped radius 200 and the margin radius 65636: the probe lies in the wall's
plane, 65536 units beyond its edge 1-2, whose block pushes it by 100 and
rejects the interaction. -/
theorem farEdgeWall_step :
    wall_surface sm64 farWorld farEdgeWall 200 (-50) 65636 (-50) 65636
      = WallStep.mk 65736 (-50) (6563601 / 100) false := by
  have hs : sm64.sqrtf ((-65536 : ℚ) * (-65536) + 0 * 0) = 65536 := by
    have := sm64_sqrtf_sq 65536
    norm_num at this ⊢
    exact this
  have hw : wallBaryW farEdgeWall 65636 (-50) (-50) = 4096 / 25 := by
    norm_num [wallBaryW, farEdgeWall]
  have hin : InEdgeCase sm64 farWorld farEdgeWall 200 (-50) 65636 (-50) := by
    refine ⟨by norm_num [farEdgeWall], by norm_num [wallOffset, farEdgeWall], ?_, ?_⟩
    · simp [wallExcludedByMode, farWorld, farEdgeWall, sm64]
    · rintro ⟨-, -, h, -⟩
      rw [hw] at h
      norm_num at h
  have hey : (edge_1_2 farEdgeWall 65636 (-50) (-50)).ey ≠ 0 := by
    norm_num [edge_1_2, farEdgeWall]
  have hparam : (edge_1_2 farEdgeWall 65636 (-50) (-50)).param = 1 / 4 := by
    norm_num [EdgeProbe.param, edge_1_2, farEdgeWall]
  have hto : (edge_1_2 farEdgeWall 65636 (-50) (-50)).toEdgePoint = (-65536, 0) := by
    norm_num [EdgeProbe.toEdgePoint, EdgeProbe.param, edge_1_2, farEdgeWall]
  have hdist : (edge_1_2 farEdgeWall 65636 (-50) (-50)).distance sm64 = 65536 := by
    unfold EdgeProbe.distance
    rw [hto]
    exact hs
  have hpush : (edge_1_2 farEdgeWall 65636 (-50) (-50)).push sm64 65636 = (100, 0) := by
    unfold EdgeProbe.push
    rw [hto, hdist]
    norm_num
  have hn : farEdgeWall.normal.x = 0 ∧ farEdgeWall.normal.z = -1 := ⟨rfl, rfl⟩
  have hb : edgeBlock sm64 farEdgeWall (edge_1_2 farEdgeWall 65636 (-50) (-50)) 65636 (-50)
      65636 = EdgeResult.rejected 65736 (-50) (6563601 / 100) := by
    unfold edgeBlock
    rw [if_pos hey, wall_edge_eq, hparam, hdist, hpush, hn.1, hn.2]
    rw [if_neg (by norm_num), if_neg (by norm_num), if_pos (by norm_num)]
    norm_num
  have hc : wallEdgeCascade sm64 farEdgeWall (-50) 65636 (-50) 65636
      = EdgeResult.rejected 65736 (-50) (6563601 / 100) :=
    wallEdgeCascade_of_first sm64 farEdgeWall (-50) 65636 (-50) 65636 _ hb
      (fun h => by cases h)
  rw [wall_surface_of_inEdgeCase sm64 farWorld farEdgeWall 200 (-50) 65636 (-50) 65636 hin, hc]
  rfl

/-- The scan of an empty list returns the query as it is. -/
theorem find_wall_collisions_from_list_nil (c : Config) (g : Globals)
    (data : WallCollisionData) : find_wall_collisions_from_list c g [] data = (0, data) := rfl

/-- The scan of a one-surface list whose surface is no hit: the count is 0, no
wall is stored, and the position is the one the surface left. -/
theorem find_wall_collisions_from_list_singleton_no_hit (c : Config) (g : Globals)
    (surf : Surface) (data : WallCollisionData) (x1 z1 m1 : ℚ)
    (hr : wall_surface c g surf (clampedRadius data.radius) (data.y + data.offsetY)
      data.x data.z (data.radius - 1) = WallStep.mk x1 z1 m1 false) :
    find_wall_collisions_from_list c g [surf] data
      = (0, WallCollisionData.mk x1 data.y z1 data.offsetY data.radius data.numWalls
          data.walls) := by
  have hloop : find_wall_collisions_loop c g (clampedRadius data.radius)
      (data.y + data.offsetY) [surf]
      (WallLoop.mk data.x data.z (data.radius - 1) data.numWalls data.walls 0)
      = WallLoop.mk x1 z1 m1 data.numWalls data.walls 0 := by
    simp only [find_wall_collisions_loop, hr]
    rfl
  show ((find_wall_collisions_loop c g (clampedRadius data.radius) (data.y + data.offsetY)
      [surf] (WallLoop.mk data.x data.z (data.radius - 1) data.numWalls data.walls 0)).numCols,
    WallCollisionData.mk
      (find_wall_collisions_loop c g (clampedRadius data.radius) (data.y + data.offsetY)
        [surf] (WallLoop.mk data.x data.z (data.radius - 1) data.numWalls data.walls 0)).x
      data.y
      (find_wall_collisions_loop c g (clampedRadius data.radius) (data.y + data.offsetY)
        [surf] (WallLoop.mk data.x data.z (data.radius - 1) data.numWalls data.walls 0)).z
      data.offsetY data.radius
      (find_wall_collisions_loop c g (clampedRadius data.radius) (data.y + data.offsetY)
        [surf] (WallLoop.mk data.x data.z (data.radius - 1) data.numWalls
          data.walls 0)).numWalls
      (find_wall_collisions_loop c g (clampedRadius data.radius) (data.y + data.offsetY)
        [surf] (WallLoop.mk data.x data.z (data.radius - 1) data.numWalls
          data.walls 0)).walls) = _
  rw [hloop]

/-- The iteration of `farEdgeWall` for the probe `(65636, -50, -50)` with the
radius 50 and the margin radius 49: the edges 1-2 and 2-3 are 65536 and 65236
units away and the edge 1-3 is horizontal, so every block falls through. -/
theorem farEdgeWall_step_near :
    wall_surface sm64 farWorld farEdgeWall 50 (-50) 65636 (-50) 49
      = WallStep.mk 65636 (-50) 49 false := by
  have hs1 : sm64.sqrtf ((-65536 : ℚ) * (-65536) + 0 * 0) = 65536 := by
    have := sm64_sqrtf_sq 65536
    norm_num at this ⊢
    exact this
  have hs2 : sm64.sqrtf ((-65236 : ℚ) * (-65236) + 0 * 0) = 65236 := by
    have := sm64_sqrtf_sq 65236
    norm_num at this ⊢
    exact this
  have hw : wallBaryW farEdgeWall 65636 (-50) (-50) = 4096 / 25 := by
    norm_num [wallBaryW, farEdgeWall]
  have hin : InEdgeCase sm64 farWorld farEdgeWall 50 (-50) 65636 (-50) := by
    refine ⟨by norm_num [farEdgeWall], by norm_num [wallOffset, farEdgeWall], ?_, ?_⟩
    · simp [wallExcludedByMode, farWorld, farEdgeWall, sm64]
    · rintro ⟨-, -, h, -⟩
      rw [hw] at h
      norm_num at h
  have hb12 : edgeBlock sm64 farEdgeWall (edge_1_2 farEdgeWall 65636 (-50) (-50)) 65636 (-50)
      49 = EdgeResult.next := by
    have hey : (edge_1_2 farEdgeWall 65636 (-50) (-50)).ey ≠ 0 := by
      norm_num [edge_1_2, farEdgeWall]
    have hparam : (edge_1_2 farEdgeWall 65636 (-50) (-50)).param = 1 / 4 := by
      norm_num [EdgeProbe.param, edge_1_2, farEdgeWall]
    have hto : (edge_1_2 farEdgeWall 65636 (-50) (-50)).toEdgePoint = (-65536, 0) := by
      norm_num [EdgeProbe.toEdgePoint, EdgeProbe.param, edge_1_2, farEdgeWall]
    have hdist : (edge_1_2 farEdgeWall 65636 (-50) (-50)).distance sm64 = 65536 := by
      unfold EdgeProbe.distance
      rw [hto]
      exact hs1
    unfold edgeBlock
    rw [if_pos hey, wall_edge_eq, hparam, hdist]
    rw [if_neg (by norm_num), if_pos (by norm_num)]
  have hb13 : edgeBlock sm64 farEdgeWall (edge_1_3 farEdgeWall 65636 (-50) (-50)) 65636 (-50)
      49 = EdgeResult.next := by
    have hey : ¬ ((edge_1_3 farEdgeWall 65636 (-50) (-50)).ey ≠ 0) := by
      norm_num [edge_1_3, farEdgeWall]
    unfold edgeBlock
    rw [if_neg hey]
  have hb23 : edgeBlock sm64 farEdgeWall (edge_2_3 farEdgeWall 65636 (-50) (-50)) 65636 (-50)
      49 = EdgeResult.next := by
    have hey : (edge_2_3 farEdgeWall 65636 (-50) (-50)).ey ≠ 0 := by
      norm_num [edge_2_3, farEdgeWall]
    have hparam : (edge_2_3 farEdgeWall 65636 (-50) (-50)).param = 3 / 4 := by
      norm_num [EdgeProbe.param, edge_2_3, farEdgeWall]
    have hto : (edge_2_3 farEdgeWall 65636 (-50) (-50)).toEdgePoint = (-65236, 0) := by
      norm_num [EdgeProbe.toEdgePoint, EdgeProbe.param, edge_2_3, farEdgeWall]
    have hdist : (edge_2_3 farEdgeWall 65636 (-50) (-50)).distance sm64 = 65236 := by
      unfold EdgeProbe.distance
      rw [hto]
      exact hs2
    unfold edgeBlock
    rw [if_pos hey, wall_edge_eq, hparam, hdist]
    rw [if_neg (by norm_num), if_pos (by norm_num)]
  rw [wall_surface_of_inEdgeCase sm64 farWorld farEdgeWall 50 (-50) 65636 (-50) 49 hin,
    wallEdgeCascade_of_all_next sm64 farEdgeWall (-50) 65636 (-50) 49 hb12 hb13 hb23]
  rfl

/-! ## Theorems -/

/-- C1: `find_floor_from_list` returns null, leaving the output height
untouched, exactly when no surface of the list is accepted; otherwise it
returns the first surface in list order whose plane height is the maximum over
the accepted surfaces, and writes that height to the output. -/
theorem find_floor_from_list_first_highest (c : Config) (cam : Bool) (l : List Surface)
    (x y z pheight : ℚ) :
    ((find_floor_from_list c cam l x y z pheight).1 = none ↔
      ∀ s ∈ l, ¬ FloorAccepted c cam s x y z) ∧
    ((find_floor_from_list c cam l x y z pheight).1 = none →
      (find_floor_from_list c cam l x y z pheight).2 = pheight) ∧
    (∀ s, (find_floor_from_list c cam l x y z pheight).1 = some s →
      FirstHighestFloor c cam x y z l s ∧
      (find_floor_from_list c cam l x y z pheight).2 = planeHeight s x z) := by
  obtain ⟨h1, h2⟩ := find_floor_loop_spec c cam x y z l none
  unfold find_floor_from_list
  cases hfin : find_floor_loop c cam x y z l none with
  | none =>
    refine ⟨⟨fun _ s hs => ?_, fun _ => rfl⟩, fun _ => rfl, fun s hs => by cases hs⟩
    exact (floor_newHeight_eq_none_iff c cam s x y z).mp ((h1 hfin).2 s hs)
  | some p =>
    obtain ⟨f, h⟩ := p
    rcases h2 f h hfin with ⟨a, -⟩ | ⟨pre, post, hl, hf, hpre, hpost, -⟩
    · cases a
    · obtain ⟨hacc, hh⟩ := (floor_newHeight_eq_some_iff c cam f x y z h).mp hf
      refine ⟨⟨fun hn => (by cases hn), fun hall => ?_⟩, fun hn => (by cases hn), ?_⟩
      · exact absurd hacc (hall f (by simp [hl]))
      · intro s hs
        have hsf : f = s := Option.some.inj hs
        subst hsf
        refine ⟨⟨pre, post, hl, hacc, ?_, ?_⟩, hh⟩
        · intro t ht hta
          have := hpre t ht _
            ((floor_newHeight_eq_some_iff c cam t x y z _).mpr ⟨hta, rfl⟩)
          rw [hh] at this
          exact this
        · intro t ht hta
          have := hpost t ht _
            ((floor_newHeight_eq_some_iff c cam t x y z _).mpr ⟨hta, rfl⟩)
          rw [hh] at this
          exact this

/-- C1 at the floors of heights 10 and 50 under the probe `(0, 60, 0)`: the
scan returns the floor at 50, which is the first highest accepted floor. -/
theorem find_floor_from_list_first_highest_witness :
    (find_floor_from_list sm64 false [flatFloor 0 10, flatFloor 0 50] 0 60 0 (-11000)).1
      = some (flatFloor 0 50) ∧
    FirstHighestFloor sm64 false 0 60 0 [flatFloor 0 10, flatFloor 0 50] (flatFloor 0 50) ∧
    (find_floor_from_list sm64 false [flatFloor 0 10, flatFloor 0 50] 0 60 0 (-11000)).2
      = planeHeight (flatFloor 0 50) 0 0 := by
  have hev : (find_floor_from_list sm64 false [flatFloor 0 10, flatFloor 0 50] 0 60 0
      (-11000)).1 = some (flatFloor 0 50) := by
    simp [find_floor_from_list, find_floor_loop, floor_newHeight, excludedByMode, flatFloor,
      sm64]
    norm_num
  exact ⟨hev, (find_floor_from_list_first_highest sm64 false
    [flatFloor 0 10, flatFloor 0 50] 0 60 0 (-11000)).2.2 (flatFloor 0 50) hev⟩


/-- C3: for an in-bounds `find_floor` call in which the intangible override
does not fire (the include-intangible flag is set, or the static winner is
null or not intangible), the dynamic floor and its height are returned when
the dynamic height is strictly greater than the static height, and the static
floor and height otherwise; the static height is `FLOOR_LOWER_LIMIT` when the
static list has no accepted floor. -/
theorem find_floor_higher_of_static_and_dynamic (c : Config) (g : Globals)
    (xPos yPos zPos : ℚ) (hin : InBounds c xPos zPos)
    (hno : g.gFindFloorIncludeSurfaceIntangible = true ∨
      ∀ s, (staticFloorPass c g xPos yPos zPos).1 = some s → s.type ≠ c.SURFACE_INTANGIBLE) :
    ((dynamicFloorPass c g xPos yPos zPos).2 > (staticFloorPass c g xPos yPos zPos).2 →
      (find_floor c g xPos yPos zPos).pfloor = (dynamicFloorPass c g xPos yPos zPos).1 ∧
      (find_floor c g xPos yPos zPos).height = (dynamicFloorPass c g xPos yPos zPos).2) ∧
    (¬ (dynamicFloorPass c g xPos yPos zPos).2 > (staticFloorPass c g xPos yPos zPos).2 →
      (find_floor c g xPos yPos zPos).pfloor = (staticFloorPass c g xPos yPos zPos).1 ∧
      (find_floor c g xPos yPos zPos).height = (staticFloorPass c g xPos yPos zPos).2) ∧
    ((∀ s ∈ (staticCell c g xPos zPos).floors,
        ¬ FloorAccepted c g.gCheckingSurfaceCollisionsForCamera s xPos yPos zPos) →
      (staticFloorPass c g xPos yPos zPos).2 = c.FLOOR_LOWER_LIMIT) := by
  rw [find_floor_of_inBounds c g xPos yPos zPos hin]
  have hfold1 : find_floor_from_list c g.gCheckingSurfaceCollisionsForCamera
      (staticCell c g xPos zPos).floors xPos yPos zPos c.FLOOR_LOWER_LIMIT
      = staticFloorPass c g xPos yPos zPos := rfl
  have hfold2 : find_floor_from_list c g.gCheckingSurfaceCollisionsForCamera
      (dynamicCell c g xPos zPos).floors xPos yPos zPos c.FLOOR_LOWER_LIMIT
      = dynamicFloorPass c g xPos yPos zPos := rfl
  simp only [hfold1, hfold2]
  refine ⟨?_, ?_, ?_⟩
  · intro hgt
    rcases hno with hflag | hnot
    · simp [hflag, hgt]
    · cases hf : g.gFindFloorIncludeSurfaceIntangible with
      | true => simp [hgt]
      | false =>
        cases hs : (staticFloorPass c g xPos yPos zPos).1 with
        | none => simp [hgt]
        | some s => simp [hnot s hs, hgt]
  · intro hgt
    rcases hno with hflag | hnot
    · simp [hflag, hgt]
    · cases hf : g.gFindFloorIncludeSurfaceIntangible with
      | true => simp [hgt]
      | false =>
        cases hs : (staticFloorPass c g xPos yPos zPos).1 with
        | none => simp [hgt, hs]
        | some s => simp [hnot s hs, hgt, hs]
  · intro hall
    rcases find_floor_from_list_cases c g.gCheckingSurfaceCollisionsForCamera
      (staticCell c g xPos zPos).floors xPos yPos zPos c.FLOOR_LOWER_LIMIT with
      ⟨h, -⟩ | ⟨s, -, hmem, hacc, -⟩
    · rw [← hfold1, h]
    · exact absurd hacc (hall s hmem)


/-- C3 at a static floor of height 10 and a dynamic floor of height 50 under
the probe `(0, 60, 0)`: the dynamic floor and its height 50 are returned. -/
theorem find_floor_higher_of_static_and_dynamic_witness :
    dynamicFloorPass sm64 staticLowDynamicHigh 0 60 0 = (some (flatFloor 0 50), 50) ∧
    (find_floor sm64 staticLowDynamicHigh 0 60 0).pfloor
      = (dynamicFloorPass sm64 staticLowDynamicHigh 0 60 0).1 ∧
    (find_floor sm64 staticLowDynamicHigh 0 60 0).height
      = (dynamicFloorPass sm64 staticLowDynamicHigh 0 60 0).2 := by
  have hd : dynamicFloorPass sm64 staticLowDynamicHigh 0 60 0
      = (some (flatFloor 0 50), 50) := by
    simp [dynamicFloorPass, dynamicCell, staticLowDynamicHigh, uniformGlobals, floorCell,
      find_floor_from_list, find_floor_loop, floor_newHeight, excludedByMode, flatFloor, sm64]
    norm_num
  have hs : staticFloorPass sm64 staticLowDynamicHigh 0 60 0
      = (some (flatFloor 0 10), 10) := by
    simp [staticFloorPass, staticCell, staticLowDynamicHigh, uniformGlobals, floorCell,
      find_floor_from_list, find_floor_loop, floor_newHeight, excludedByMode, flatFloor, sm64]
    norm_num
  refine ⟨hd, (find_floor_higher_of_static_and_dynamic sm64 staticLowDynamicHigh 0 60 0
    inBounds_sm64_origin (Or.inr ?_)).1 ?_⟩
  · intro s hsome
    rw [hs] at hsome
    have : flatFloor 0 10 = s := Option.some.inj hsome
    rw [← this]
    simp [flatFloor, sm64]
  · rw [hd, hs]
    norm_num


/-- C5: for an in-bounds `find_floor` call whose first-pass static winner `s`
is an intangible floor at height `H`: with the include-intangible flag clear
the static result is replaced by the re-query of the same static list at probe
height `H - 200`, whose answer is never `s`, and the higher of that and the
dynamic winner is returned; with the flag set the first-pass static winner is
kept. -/
theorem find_floor_intangible_override (c : Config) (g : Globals) (xPos yPos zPos : ℚ)
    (s : Surface) (H : ℚ) (hin : InBounds c xPos zPos)
    (hstat : staticFloorPass c g xPos yPos zPos = (some s, H))
    (hint : s.type = c.SURFACE_INTANGIBLE) :
    (g.gFindFloorIncludeSurfaceIntangible = false →
      (staticFloorRequery c g xPos zPos H).1 ≠ some s ∧
      ((dynamicFloorPass c g xPos yPos zPos).2 > (staticFloorRequery c g xPos zPos H).2 →
        (find_floor c g xPos yPos zPos).pfloor = (dynamicFloorPass c g xPos yPos zPos).1 ∧
        (find_floor c g xPos yPos zPos).height = (dynamicFloorPass c g xPos yPos zPos).2) ∧
      (¬ (dynamicFloorPass c g xPos yPos zPos).2 > (staticFloorRequery c g xPos zPos H).2 →
        (find_floor c g xPos yPos zPos).pfloor = (staticFloorRequery c g xPos zPos H).1 ∧
        (find_floor c g xPos yPos zPos).height = (staticFloorRequery c g xPos zPos H).2)) ∧
    (g.gFindFloorIncludeSurfaceIntangible = true →
      ((dynamicFloorPass c g xPos yPos zPos).2 > H →
        (find_floor c g xPos yPos zPos).pfloor = (dynamicFloorPass c g xPos yPos zPos).1 ∧
        (find_floor c g xPos yPos zPos).height = (dynamicFloorPass c g xPos yPos zPos).2) ∧
      (¬ (dynamicFloorPass c g xPos yPos zPos).2 > H →
        (find_floor c g xPos yPos zPos).pfloor = some s ∧
        (find_floor c g xPos yPos zPos).height = H)) := by
  rw [find_floor_of_inBounds c g xPos yPos zPos hin]
  have hfold1 : find_floor_from_list c g.gCheckingSurfaceCollisionsForCamera
      (staticCell c g xPos zPos).floors xPos yPos zPos c.FLOOR_LOWER_LIMIT
      = (some s, H) := hstat
  have hfold2 : find_floor_from_list c g.gCheckingSurfaceCollisionsForCamera
      (dynamicCell c g xPos zPos).floors xPos yPos zPos c.FLOOR_LOWER_LIMIT
      = dynamicFloorPass c g xPos yPos zPos := rfl
  have hfold3 : find_floor_from_list c g.gCheckingSurfaceCollisionsForCamera
      (staticCell c g xPos zPos).floors xPos (H - 200) zPos H
      = staticFloorRequery c g xPos zPos H := rfl
  simp only [hfold1, hfold2]
  refine ⟨fun hflag => ⟨?_, ?_, ?_⟩, fun hflag => ⟨?_, ?_⟩⟩
  · -- the re-query cannot answer `s`: it would need `H - 200 ≥ H - 78`
    have hH : H = planeHeight s xPos zPos := by
      rcases find_floor_from_list_cases c g.gCheckingSurfaceCollisionsForCamera
        (staticCell c g xPos zPos).floors xPos yPos zPos c.FLOOR_LOWER_LIMIT with
        ⟨h, -⟩ | ⟨t, h, -⟩
      · rw [hfold1] at h
        cases h
      · rw [hfold1] at h
        have h1 := (Prod.mk.inj h).1
        have h2 := (Prod.mk.inj h).2
        have : s = t := Option.some.inj h1
        rw [this]
        exact h2
    intro hre
    rcases find_floor_from_list_cases c g.gCheckingSurfaceCollisionsForCamera
      (staticCell c g xPos zPos).floors xPos (H - 200) zPos H with
      ⟨h, -⟩ | ⟨t, h, -, hacc, -⟩
    · rw [hfold3] at h
      rw [h] at hre
      cases hre
    · rw [hfold3] at h
      rw [h] at hre
      have : t = s := Option.some.inj hre
      rw [this] at hacc
      have := hacc.2.2.2.2.2
      rw [← hH] at this
      linarith
  · intro hgt
    simp [hflag, hint, hfold3, hgt]
  · intro hgt
    simp [hflag, hint, hfold3, hgt]
  · intro hgt
    simp [hflag, hgt]
  · intro hgt
    simp [hflag, hgt]

/-- C5 at an intangible static floor at 100 over a normal static floor at -50,
probe `(0, 100, 0)`: the default query returns the floor at -50, the query
with the include-intangible flag set returns the intangible floor at 100. -/
theorem find_floor_intangible_override_witness :
    ((find_floor sm64 (intangibleOverNormal false) 0 100 0).pfloor = some (flatFloor 0 (-50)) ∧
      (find_floor sm64 (intangibleOverNormal false) 0 100 0).height = -50) ∧
    ((find_floor sm64 (intangibleOverNormal true) 0 100 0).pfloor = some (flatFloor 18 100) ∧
      (find_floor sm64 (intangibleOverNormal true) 0 100 0).height = 100) := by
  have hs : ∀ b, staticFloorPass sm64 (intangibleOverNormal b) 0 100 0
      = (some (flatFloor 18 100), 100) := by
    intro b
    simp [staticFloorPass, staticCell, intangibleOverNormal, uniformGlobals, floorCell,
      find_floor_from_list, find_floor_loop, floor_newHeight, excludedByMode, flatFloor, sm64]
    norm_num
  have hd : ∀ b, dynamicFloorPass sm64 (intangibleOverNormal b) 0 100 0
      = (none, -11000) := by
    intro b
    simp [dynamicFloorPass, dynamicCell, intangibleOverNormal, uniformGlobals, floorCell,
      find_floor_from_list, find_floor_loop, sm64]
  have hr : staticFloorRequery sm64 (intangibleOverNormal false) 0 0 100
      = (some (flatFloor 0 (-50)), -50) := by
    simp [staticFloorRequery, staticCell, intangibleOverNormal, uniformGlobals, floorCell,
      find_floor_from_list, find_floor_loop, floor_newHeight, excludedByMode, flatFloor, sm64]
    norm_num
  have hint : (flatFloor 18 100).type = sm64.SURFACE_INTANGIBLE := by
    simp [flatFloor, sm64]
  constructor
  · have h := ((find_floor_intangible_override sm64 (intangibleOverNormal false) 0 100 0
      (flatFloor 18 100) 100 inBounds_sm64_origin (hs false) hint).1 rfl).2.2
    rw [hr, hd] at h
    exact h (by norm_num)
  · have h := ((find_floor_intangible_override sm64 (intangibleOverNormal true) 0 100 0
      (flatFloor 18 100) 100 inBounds_sm64_origin (hs true) hint).2 rfl).2
    rw [hd] at h
    exact h (by norm_num)

/-- C6 (the code departs from the claim): with an intangible static floor at
height 100, nothing beneath it and no dynamic floor, the default query at
`(0, 100, 0)` returns a null surface together with the height 100 of the
intangible floor, not the sentinel `FLOOR_LOWER_LIMIT`. -/
theorem find_floor_null_with_intangible_height :
    (find_floor sm64 intangibleOverVoid 0 100 0).pfloor = none ∧
    (find_floor sm64 intangibleOverVoid 0 100 0).height = 100 ∧
    (find_floor sm64 intangibleOverVoid 0 100 0).height ≠ sm64.FLOOR_LOWER_LIMIT := by
  have h : find_floor sm64 intangibleOverVoid 0 100 0
      = FloorResult.mk 100 none intangibleOverVoid := by
    rw [find_floor_of_inBounds sm64 intangibleOverVoid 0 100 0 inBounds_sm64_origin]
    simp [staticCell, dynamicCell, intangibleOverVoid, uniformGlobals, floorCell,
      find_floor_from_list, find_floor_loop, floor_newHeight, excludedByMode, flatFloor, sm64]
    norm_num
  rw [h]
  refine ⟨rfl, rfl, ?_⟩
  simp only [sm64]
  norm_num

/-- C7 (the code departs from the claim): an out-of-bounds call made with the
include-intangible flag set returns through the early exit of line 621 and
leaves the flag set. -/
theorem find_floor_out_of_bounds_keeps_flag :
    emptyWorldFlagSet.gFindFloorIncludeSurfaceIntangible = true ∧
    (find_floor sm64 emptyWorldFlagSet 8192 0 0).globals.gFindFloorIncludeSurfaceIntangible
      = true := by
  constructor
  · rfl
  · have h : find_floor sm64 emptyWorldFlagSet 8192 0 0
        = FloorResult.mk sm64.FLOOR_LOWER_LIMIT none emptyWorldFlagSet := by
      unfold find_floor
      simp [sm64]
    rw [h]
    rfl

/-- C8: a probe with `xPos <= -LEVEL_BOUNDARY_MAX`, `xPos >= LEVEL_BOUNDARY_MAX`,
`zPos <= -LEVEL_BOUNDARY_MAX` or `zPos >= LEVEL_BOUNDARY_MAX` makes `find_floor`
return `FLOOR_LOWER_LIMIT` with a null surface and `find_ceil` return
`CELL_HEIGHT_LIMIT` with a null surface, whatever the globals (the partitions
among them), `yPos` and the mode. -/
theorem find_floor_find_ceil_out_of_bounds (c : Config) (g : Globals) (xPos yPos zPos : ℚ)
    (hout : xPos ≤ -(c.LEVEL_BOUNDARY_MAX : ℚ) ∨ xPos ≥ (c.LEVEL_BOUNDARY_MAX : ℚ) ∨
      zPos ≤ -(c.LEVEL_BOUNDARY_MAX : ℚ) ∨ zPos ≥ (c.LEVEL_BOUNDARY_MAX : ℚ)) :
    (find_floor c g xPos yPos zPos).height = c.FLOOR_LOWER_LIMIT ∧
    (find_floor c g xPos yPos zPos).pfloor = none ∧
    find_ceil c g xPos yPos zPos = (c.CELL_HEIGHT_LIMIT, none) := by
  by_cases hx : xPos ≤ -(c.LEVEL_BOUNDARY_MAX : ℚ) ∨ xPos ≥ (c.LEVEL_BOUNDARY_MAX : ℚ)
  · unfold find_floor find_ceil
    rw [if_pos hx, if_pos hx]
    exact ⟨rfl, rfl, rfl⟩
  · have hz : zPos ≤ -(c.LEVEL_BOUNDARY_MAX : ℚ) ∨ zPos ≥ (c.LEVEL_BOUNDARY_MAX : ℚ) := by
      rcases hout with h | h | h | h
      · exact absurd (Or.inl h) hx
      · exact absurd (Or.inr h) hx
      · exact Or.inl h
      · exact Or.inr h
    unfold find_floor find_ceil
    rw [if_neg hx, if_pos hz, if_neg hx, if_pos hz]
    exact ⟨rfl, rfl, rfl⟩

/-- C8 at the probe `(0, 0, -8192)` of a world whose every cell holds a floor
under the probe: both queries return their sentinel and a null surface. -/
theorem find_floor_find_ceil_out_of_bounds_witness :
    (find_floor sm64 staticLowDynamicHigh 0 0 (-8192)).height = -11000 ∧
    (find_floor sm64 staticLowDynamicHigh 0 0 (-8192)).pfloor = none ∧
    find_ceil sm64 staticLowDynamicHigh 0 0 (-8192) = (20000, none) :=
  find_floor_find_ceil_out_of_bounds sm64 staticLowDynamicHigh 0 0 (-8192)
    (Or.inr (Or.inr (Or.inl (by simp [sm64]))))


/-- C4 as stated fails: in bounds, with an accepted dynamic ceiling at height
25000 and no static ceiling, `find_ceil` returns a null surface and the
sentinel 20000, because the dynamic height is not below the initial static
height `CELL_HEIGHT_LIMIT`. -/
theorem find_ceil_null_despite_accepted :
    InBounds sm64 0 0 ∧
    (∃ s ∈ (staticCell sm64 highDynamicCeilOnly 0 0).ceils ++
        (dynamicCell sm64 highDynamicCeilOnly 0 0).ceils,
      CeilAccepted sm64 highDynamicCeilOnly.gCheckingSurfaceCollisionsForCamera s 0 0 0) ∧
    find_ceil sm64 highDynamicCeilOnly 0 0 0 = (20000, none) := by
  refine ⟨inBounds_sm64_origin, ⟨flatCeil 25000, ?_, ?_⟩, ?_⟩
  · simp [staticCell, dynamicCell, highDynamicCeilOnly, uniformGlobals, ceilCell]
  · exact ((ceil_newHeight_eq_some_iff sm64 false (flatCeil 25000) 0 0 0 _).mp
      (ceil_newHeight_flatCeil 25000 0 (by norm_num))).1
  · have hd : (dynamicCell sm64 highDynamicCeilOnly 0 0).ceils = [flatCeil 25000] := rfl
    have hs : (staticCell sm64 highDynamicCeilOnly 0 0).ceils = [] := rfl
    have hc : highDynamicCeilOnly.gCheckingSurfaceCollisionsForCamera = false := rfl
    rw [find_ceil_of_inBounds sm64 highDynamicCeilOnly 0 0 0 inBounds_sm64_origin, hd, hs, hc,
      find_ceil_from_list_nil,
      find_ceil_from_list_singleton sm64 false (flatCeil 25000) 0 0 0 _ _
        (ceil_newHeight_flatCeil 25000 0 (by norm_num))]
    norm_num [sm64]

/-- C4, amended: for an in-bounds `find_ceil` call, whenever some surface of the
cell's static or dynamic ceiling list is accepted with a plane height below
`CELL_HEIGHT_LIMIT`, `find_ceil` returns a non-null surface; it is an accepted
ceiling of one of the two lists, the returned height is its plane height, and
no accepted ceiling of either list is lower. -/
theorem find_ceil_lowest_below_limit (c : Config) (g : Globals) (xPos yPos zPos : ℚ)
    (hin : InBounds c xPos zPos)
    (hacc : ∃ s ∈ (staticCell c g xPos zPos).ceils ++ (dynamicCell c g xPos zPos).ceils,
      CeilAccepted c g.gCheckingSurfaceCollisionsForCamera s xPos yPos zPos ∧
      planeHeight s xPos zPos < c.CELL_HEIGHT_LIMIT) :
    ∃ s, (find_ceil c g xPos yPos zPos).2 = some s ∧
      s ∈ (staticCell c g xPos zPos).ceils ++ (dynamicCell c g xPos zPos).ceils ∧
      CeilAccepted c g.gCheckingSurfaceCollisionsForCamera s xPos yPos zPos ∧
      (find_ceil c g xPos yPos zPos).1 = planeHeight s xPos zPos ∧
      ∀ t ∈ (staticCell c g xPos zPos).ceils ++ (dynamicCell c g xPos zPos).ceils,
        CeilAccepted c g.gCheckingSurfaceCollisionsForCamera t xPos yPos zPos →
        planeHeight s xPos zPos ≤ planeHeight t xPos zPos := by
  obtain ⟨s0, hs0mem, hs0acc, hs0lt⟩ := hacc
  rw [find_ceil_of_inBounds c g xPos yPos zPos hin]
  rcases find_ceil_from_list_cases c g.gCheckingSurfaceCollisionsForCamera
    (dynamicCell c g xPos zPos).ceils xPos yPos zPos c.CELL_HEIGHT_LIMIT with
    ⟨hd, hdnone⟩ | ⟨d, hd, hdmem, hdacc, hdmin⟩ <;>
  rcases find_ceil_from_list_cases c g.gCheckingSurfaceCollisionsForCamera
    (staticCell c g xPos zPos).ceils xPos yPos zPos c.CELL_HEIGHT_LIMIT with
    ⟨hs, hsnone⟩ | ⟨s, hs, hsmem, hsacc, hsmin⟩
  · -- no accepted ceiling at all
    rcases List.mem_append.mp hs0mem with h | h
    · exact absurd hs0acc (hsnone s0 h)
    · exact absurd hs0acc (hdnone s0 h)
  · -- static only
    have hle : planeHeight s xPos zPos ≤ planeHeight s0 xPos zPos := by
      rcases List.mem_append.mp hs0mem with h | h
      · exact hsmin s0 h hs0acc
      · exact absurd hs0acc (hdnone s0 h)
    have hnot : ¬ c.CELL_HEIGHT_LIMIT < planeHeight s xPos zPos := by
      intro hh
      linarith
    simp only [hd, hs, if_neg hnot]
    refine ⟨s, rfl, List.mem_append.mpr (Or.inl hsmem), hsacc, rfl, ?_⟩
    intro t ht hta
    rcases List.mem_append.mp ht with h | h
    · exact hsmin t h hta
    · exact absurd hta (hdnone t h)
  · -- dynamic only
    have hle : planeHeight d xPos zPos ≤ planeHeight s0 xPos zPos := by
      rcases List.mem_append.mp hs0mem with h | h
      · exact absurd hs0acc (hsnone s0 h)
      · exact hdmin s0 h hs0acc
    have hlt : planeHeight d xPos zPos < c.CELL_HEIGHT_LIMIT := lt_of_le_of_lt hle hs0lt
    simp only [hd, hs, if_pos hlt]
    refine ⟨d, rfl, List.mem_append.mpr (Or.inr hdmem), hdacc, rfl, ?_⟩
    intro t ht hta
    rcases List.mem_append.mp ht with h | h
    · exact absurd hta (hsnone t h)
    · exact hdmin t h hta
  · -- both lists have a winner
    by_cases hlt : planeHeight d xPos zPos < planeHeight s xPos zPos
    · simp only [hd, hs, if_pos hlt]
      refine ⟨d, rfl, List.mem_append.mpr (Or.inr hdmem), hdacc, rfl, ?_⟩
      intro t ht hta
      rcases List.mem_append.mp ht with h | h
      · exact le_trans (le_of_lt hlt) (hsmin t h hta)
      · exact hdmin t h hta
    · simp only [hd, hs, if_neg hlt]
      refine ⟨s, rfl, List.mem_append.mpr (Or.inl hsmem), hsacc, rfl, ?_⟩
      intro t ht hta
      rcases List.mem_append.mp ht with h | h
      · exact hsmin t h hta
      · exact le_trans (not_lt.mp hlt) (hdmin t h hta)

/-- C4, amended, at a static ceiling of height 200 and a dynamic ceiling of
height 150 over the probe `(0, 60, 0)`, both below the sentinel 20000: a
non-null lowest accepted ceiling is returned. -/
theorem find_ceil_lowest_below_limit_witness :
    ∃ s, (find_ceil sm64 staticHighDynamicLow 0 60 0).2 = some s ∧
      s ∈ (staticCell sm64 staticHighDynamicLow 0 0).ceils ++
        (dynamicCell sm64 staticHighDynamicLow 0 0).ceils ∧
      CeilAccepted sm64 staticHighDynamicLow.gCheckingSurfaceCollisionsForCamera s 0 60 0 ∧
      (find_ceil sm64 staticHighDynamicLow 0 60 0).1 = planeHeight s 0 0 ∧
      ∀ t ∈ (staticCell sm64 staticHighDynamicLow 0 0).ceils ++
          (dynamicCell sm64 staticHighDynamicLow 0 0).ceils,
        CeilAccepted sm64 staticHighDynamicLow.gCheckingSurfaceCollisionsForCamera t 0 60 0 →
        planeHeight s 0 0 ≤ planeHeight t 0 0 := by
  refine find_ceil_lowest_below_limit sm64 staticHighDynamicLow 0 60 0 inBounds_sm64_origin
    ⟨flatCeil 150, ?_, ?_, ?_⟩
  · simp [staticCell, dynamicCell, staticHighDynamicLow, uniformGlobals, ceilCell]
  · exact ((ceil_newHeight_eq_some_iff sm64 false (flatCeil 150) 0 60 0 _).mp
      (ceil_newHeight_flatCeil 150 60 (by norm_num))).1
  · simp [planeHeight, flatCeil, sm64]
    norm_num


/-- C10: after an in-bounds `find_wall_collisions`, the returned count `n` is the
number of hits of the dynamic list followed by the static list, `numWalls` is
`min(4, n)`, the first `min(4, n)` slots of `walls` hold the first hits in
processing order, and the final position is the one reached by processing
every surface, the hits beyond the fourth included. -/
theorem find_wall_collisions_stores_first_four (c : Config) (g : Globals)
    (colData : WallCollisionData) (hin : WallInBounds c colData) :
    (find_wall_collisions c g colData).1 = ((wallQueryHits c g colData).length : Int) ∧
    (find_wall_collisions c g colData).2.numWalls = min 4 (wallQueryHits c g colData).length ∧
    (∀ i, i < min 4 (wallQueryHits c g colData).length →
      (find_wall_collisions c g colData).2.walls i = (wallQueryHits c g colData)[i]?) ∧
    ((find_wall_collisions c g colData).2.x, (find_wall_collisions c g colData).2.z)
      = wallQueryPosition c g colData := by
  rw [find_wall_collisions_of_inBounds c g colData hin]
  obtain ⟨d1, d2, d3, d4, d5, d6, d7, d8⟩ := find_wall_collisions_from_list_spec c g
    (dynamicWalls c g colData)
    (WallCollisionData.mk colData.x colData.y colData.z colData.offsetY
      colData.radius 0 colData.walls) (Nat.zero_le 4)
  have hn : (find_wall_collisions_from_list c g (dynamicWalls c g colData)
      (WallCollisionData.mk colData.x colData.y colData.z colData.offsetY
        colData.radius 0 colData.walls)).2.numWalls ≤ 4 := by
    rw [d4]
    exact min_le_left _ _
  obtain ⟨s1, s2, s3, s4, s5, -, -, -⟩ := find_wall_collisions_from_list_spec c g
    (staticWalls c g colData)
    (find_wall_collisions_from_list c g (dynamicWalls c g colData)
      (WallCollisionData.mk colData.x colData.y colData.z colData.offsetY
        colData.radius 0 colData.walls)).2 hn
  simp only [d2, d3, d6, d7, d8] at s1 s2 s3 s4 s5
  simp only [] at d1 d4 d5
  have hmid1 : (wallFinal c g (clampedRadius colData.radius) (colData.y + colData.offsetY)
      (dynamicWalls c g colData) colData.x colData.z (colData.radius - 1)).1
      = (wallQueryMid c g colData).1 := rfl
  have hmid2 : (wallFinal c g (clampedRadius colData.radius) (colData.y + colData.offsetY)
      (dynamicWalls c g colData) colData.x colData.z (colData.radius - 1)).2.1
      = (wallQueryMid c g colData).2.1 := rfl
  rw [hmid1, hmid2] at s1 s2 s3 s4 s5
  simp only [zero_add] at d4 d5
  refine ⟨?_, ?_, ?_, ?_⟩
  · show _ + _ = _
    rw [d1, s1]
    unfold wallQueryHits
    rw [List.length_append]
    push_cast
    rfl
  · show (find_wall_collisions_from_list c g (staticWalls c g colData) _).2.numWalls = _
    rw [s4, d4]
    unfold wallQueryHits
    rw [List.length_append]
    omega
  · intro i hi
    show (find_wall_collisions_from_list c g (staticWalls c g colData) _).2.walls i = _
    rw [s5 i, d4, d5 i]
    unfold wallQueryHits at hi ⊢
    rw [List.length_append] at hi
    by_cases hd : i < (wallHits c g (clampedRadius colData.radius)
        (colData.y + colData.offsetY) (dynamicWalls c g colData) colData.x colData.z
        (colData.radius - 1)).length
    · rw [if_neg (by omega), if_pos (by omega), List.getElem?_append_left hd]
      rfl
    · rw [if_pos (by omega), List.getElem?_append_right (by omega)]
      congr 1
      omega
  · unfold wallQueryPosition
    show ((find_wall_collisions_from_list c g (staticWalls c g colData) _).2.x,
      (find_wall_collisions_from_list c g (staticWalls c g colData) _).2.z) = _
    rw [s2, s3]


/-- C10 at a probe within radius 50 of six walls in the planes `x = 0`, ...,
`x = 5`: every wall pushes the probe to 50 units from its plane, the total hit
count is 6, four walls are stored, they are the first four of the list, and
the probe ends at `x = 55`, where the sixth wall put it. -/
theorem find_wall_collisions_stores_first_four_witness :
    (find_wall_collisions sm64 sixWalls sixWallsQuery).1 = 6 ∧
    (find_wall_collisions sm64 sixWalls sixWallsQuery).2.numWalls = 4 ∧
    (find_wall_collisions sm64 sixWalls sixWallsQuery).2.walls 0 = some (xWall 0) ∧
    (find_wall_collisions sm64 sixWalls sixWallsQuery).2.walls 3 = some (xWall 3) ∧
    ((find_wall_collisions sm64 sixWalls sixWallsQuery).2.x,
      (find_wall_collisions sm64 sixWalls sixWallsQuery).2.z) = (55, -50) := by
  have ht1 : truncToInt (10 : ℚ) = 10 := by
    have := truncToInt_intCast 10
    simpa using this
  have ht2 : truncToInt (-50 : ℚ) = -50 := by
    have := truncToInt_intCast (-50)
    simpa using this
  have hin : WallInBounds sm64 sixWallsQuery := by
    simp only [WallInBounds, sixWallsQuery, ht1, ht2, sm64]
    decide
  have hr : clampedRadius (50 : ℚ) = 50 := by
    norm_num [clampedRadius]
  have hm : (50 : ℚ) - 1 = 49 := by norm_num
  have hmid : wallQueryMid sm64 sixWalls sixWallsQuery = (10, -50, 49) := by
    simp only [wallQueryMid, dynamicWalls, sixWalls, uniformGlobals, sixWallsQuery, wallFinal,
      hm]
  have hhits : wallQueryHits sm64 sixWalls sixWallsQuery
      = [xWall 0, xWall 1, xWall 2, xWall 3, xWall 4, xWall 5] := by
    simp only [wallQueryHits, hmid]
    simp only [dynamicWalls, staticWalls, sixWalls, uniformGlobals, sixWallsQuery, hr, hm,
      add_zero, wallHits, List.nil_append]
    have e0 := wall_surface_xWall 0 10 49 (by norm_num) (by norm_num)
    have e1 := wall_surface_xWall 1 50 49 (by norm_num) (by norm_num)
    have e2 := wall_surface_xWall 2 51 49 (by norm_num) (by norm_num)
    have e3 := wall_surface_xWall 3 52 49 (by norm_num) (by norm_num)
    have e4 := wall_surface_xWall 4 53 49 (by norm_num) (by norm_num)
    have e5 := wall_surface_xWall 5 54 49 (by norm_num) (by norm_num)
    norm_num at e0 e1 e2 e3 e4 e5
    simp only [sixWalls, uniformGlobals] at e0 e1 e2 e3 e4 e5
    simp only [e0, e1, e2, e3, e4, e5, if_true]
  have hpos : wallQueryPosition sm64 sixWalls sixWallsQuery = (55, -50) := by
    simp only [wallQueryPosition, hmid]
    simp only [staticWalls, sixWalls, uniformGlobals, sixWallsQuery, hr, hm,
      add_zero, wallFinal]
    have e0 := wall_surface_xWall 0 10 49 (by norm_num) (by norm_num)
    have e1 := wall_surface_xWall 1 50 49 (by norm_num) (by norm_num)
    have e2 := wall_surface_xWall 2 51 49 (by norm_num) (by norm_num)
    have e3 := wall_surface_xWall 3 52 49 (by norm_num) (by norm_num)
    have e4 := wall_surface_xWall 4 53 49 (by norm_num) (by norm_num)
    have e5 := wall_surface_xWall 5 54 49 (by norm_num) (by norm_num)
    norm_num at e0 e1 e2 e3 e4 e5
    simp only [sixWalls, uniformGlobals] at e0 e1 e2 e3 e4 e5
    simp only [e0, e1, e2, e3, e4, e5]
  obtain ⟨h1, h2, h3, h4⟩ := find_wall_collisions_stores_first_four sm64 sixWalls
    sixWallsQuery hin
  rw [hhits] at h1 h2 h3
  rw [hpos] at h4
  refine ⟨?_, ?_, ?_, ?_, h4⟩
  · rw [h1]; rfl
  · rw [h2]; rfl
  · rw [h3 0 (by decide)]; rfl
  · rw [h3 3 (by decide)]; rfl


/-- C9 (the code departs from the claim): the wall query at `x = 65636`, beyond
`LEVEL_BOUNDARY_MAX = 8192`, is not rejected.  The conversion of `x` to `s16`
wraps it to 100, the two bounds tests pass, and for every grid the query is
the scan of the two wall lists of the cell `[7][8]`.  `farEdgeWall`, a wall of
that cell whose plane is that of its vertices, is 65536 units from the probe:
with the radius 50 its scan finds nothing and the outputs are those of a
rejected query; with the radius 65637 the margin radius 65636 reaches its
edge 1-2 and the query returns with `x` moved to 65736. -/
theorem find_wall_collisions_wraps_far_coordinate :
    farQuery.x ≥ (sm64.LEVEL_BOUNDARY_MAX : ℚ) ∧
    toS16 (truncToInt farQuery.x) = 100 ∧
    WallInBounds sm64 farQuery ∧
    (∀ g : Globals, find_wall_collisions sm64 g farQuery
      = ((find_wall_collisions_from_list sm64 g (g.gDynamicSurfacePartition 7 8).walls
            farQuery).1 +
          (find_wall_collisions_from_list sm64 g (g.gStaticSurfacePartition 7 8).walls
            (find_wall_collisions_from_list sm64 g (g.gDynamicSurfacePartition 7 8).walls
              farQuery).2).1,
         (find_wall_collisions_from_list sm64 g (g.gStaticSurfacePartition 7 8).walls
            (find_wall_collisions_from_list sm64 g (g.gDynamicSurfacePartition 7 8).walls
              farQuery).2).2)) ∧
    farEdgeWall.normal.x * (farEdgeWall.vertex1.x : ℚ) + farEdgeWall.normal.y
        * (farEdgeWall.vertex1.y : ℚ) + farEdgeWall.normal.z * (farEdgeWall.vertex1.z : ℚ)
        + farEdgeWall.originOffset = 0 ∧
    (find_wall_collisions sm64 farWorld farQuery).1 = 0 ∧
    (find_wall_collisions sm64 farWorld farQuery).2.x = farQuery.x ∧
    farWideQuery.x ≥ (sm64.LEVEL_BOUNDARY_MAX : ℚ) ∧
    (find_wall_collisions sm64 farWorld farWideQuery).1 = 0 ∧
    (find_wall_collisions sm64 farWorld farWideQuery).2.numWalls = 0 ∧
    (find_wall_collisions sm64 farWorld farWideQuery).2.x = 65736 ∧
    (find_wall_collisions sm64 farWorld farWideQuery).2.x ≠ farWideQuery.x := by
  have ht1 : truncToInt (65636 : ℚ) = 65636 := by
    have := truncToInt_intCast 65636
    simpa using this
  have ht2 : truncToInt (-50 : ℚ) = -50 := by
    have := truncToInt_intCast (-50)
    simpa using this
  have hwrap : toS16 (truncToInt farQuery.x) = 100 := by
    simp only [farQuery, ht1]
    decide
  have hz : toS16 (truncToInt farQuery.z) = -50 := by
    simp only [farQuery, ht2]
    decide
  have hin : WallInBounds sm64 farQuery := by
    simp only [WallInBounds, hwrap, hz, sm64]
    decide
  have hwrap2 : toS16 (truncToInt farWideQuery.x) = 100 := by
    simp only [farWideQuery, ht1]
    decide
  have hz2 : toS16 (truncToInt farWideQuery.z) = -50 := by
    simp only [farWideQuery, ht2]
    decide
  have hin2 : WallInBounds sm64 farWideQuery := by
    simp only [WallInBounds, hwrap2, hz2, sm64]
    decide
  have hcx : toS16 (cellIndex sm64 100) = 8 := by decide
  have hcz : toS16 (cellIndex sm64 (-50)) = 7 := by decide
  have hall : ∀ g : Globals, find_wall_collisions sm64 g farQuery
      = ((find_wall_collisions_from_list sm64 g (g.gDynamicSurfacePartition 7 8).walls
            farQuery).1 +
          (find_wall_collisions_from_list sm64 g (g.gStaticSurfacePartition 7 8).walls
            (find_wall_collisions_from_list sm64 g (g.gDynamicSurfacePartition 7 8).walls
              farQuery).2).1,
         (find_wall_collisions_from_list sm64 g (g.gStaticSurfacePartition 7 8).walls
            (find_wall_collisions_from_list sm64 g (g.gDynamicSurfacePartition 7 8).walls
              farQuery).2).2) := by
    intro g
    have hd : dynamicWalls sm64 g farQuery = (g.gDynamicSurfacePartition 7 8).walls := by
      simp only [dynamicWalls, hwrap, hz, hcx, hcz]
    have hs : staticWalls sm64 g farQuery = (g.gStaticSurfacePartition 7 8).walls := by
      simp only [staticWalls, hwrap, hz, hcx, hcz]
    rw [find_wall_collisions_of_inBounds sm64 g farQuery hin, hd, hs]
    rfl
  have hstat : staticWalls sm64 farWorld farWideQuery = [farEdgeWall] := by
    simp only [staticWalls, hwrap2, hz2, hcx, hcz, farWorld]
    simp
  have hdyn : dynamicWalls sm64 farWorld farWideQuery = [] := by
    simp only [dynamicWalls, farWorld, emptyPartition]
  have hstep := farEdgeWall_step
  have hr200 : clampedRadius (65637 : ℚ) = 200 := by norm_num [clampedRadius]
  have hone := find_wall_collisions_from_list_singleton_no_hit sm64 farWorld farEdgeWall
    farWideQuery 65736 (-50) (6563601 / 100) (by
      simp only [farWideQuery, hr200]
      norm_num
      exact hstep)
  have hq : find_wall_collisions sm64 farWorld farWideQuery
      = (0 + 0, WallCollisionData.mk 65736 farWideQuery.y (-50) farWideQuery.offsetY
          farWideQuery.radius farWideQuery.numWalls farWideQuery.walls) := by
    rw [find_wall_collisions_of_inBounds sm64 farWorld farWideQuery hin2, hstat, hdyn]
    have hnil : find_wall_collisions_from_list sm64 farWorld []
        (WallCollisionData.mk farWideQuery.x farWideQuery.y farWideQuery.z farWideQuery.offsetY
          farWideQuery.radius 0 farWideQuery.walls) = (0, farWideQuery) := rfl
    rw [hnil, hone]
  have hr50 : clampedRadius (50 : ℚ) = 50 := by norm_num [clampedRadius]
  have hnear := find_wall_collisions_from_list_singleton_no_hit sm64 farWorld farEdgeWall
    farQuery 65636 (-50) 49 (by
      simp only [farQuery, hr50]
      norm_num
      exact farEdgeWall_step_near)
  have hstat1 : staticWalls sm64 farWorld farQuery = [farEdgeWall] := by
    simp only [staticWalls, hwrap, hz, hcx, hcz, farWorld]
    simp
  have hdyn1 : dynamicWalls sm64 farWorld farQuery = [] := by
    simp only [dynamicWalls, farWorld, emptyPartition]
  have hq1 : find_wall_collisions sm64 farWorld farQuery
      = (0 + 0, WallCollisionData.mk 65636 farQuery.y (-50) farQuery.offsetY
          farQuery.radius farQuery.numWalls farQuery.walls) := by
    rw [find_wall_collisions_of_inBounds sm64 farWorld farQuery hin, hstat1, hdyn1]
    have hnil : find_wall_collisions_from_list sm64 farWorld []
        (WallCollisionData.mk farQuery.x farQuery.y farQuery.z farQuery.offsetY
          farQuery.radius 0 farQuery.walls) = (0, farQuery) := rfl
    rw [hnil, hnear]
  refine ⟨?_, hwrap, hin, hall, ?_, ?_, ?_, ?_, ?_, ?_, ?_, ?_⟩
  · norm_num [farQuery, sm64]
  · norm_num [farEdgeWall]
  · rw [hq1]
    rfl
  · rw [hq1]
    rfl
  · norm_num [farWideQuery, sm64]
  · rw [hq]
    rfl
  · rw [hq]
    rfl
  · rw [hq]
  · rw [hq]
    norm_num [farWideQuery]

/-- C11 as stated fails: `leaningWall` has a unit normal, the probe
`(35, 400, -225)` with radius 50 takes its face case, and the signed plane
distance of the position after the push is `107329280/2146689`, short of the
radius 50, because only `x` and `z` are moved. -/
theorem wall_face_push_not_exact_on_leaning_wall :
    leaningWall.normal.x * leaningWall.normal.x + leaningWall.normal.y * leaningWall.normal.y
      + leaningWall.normal.z * leaningWall.normal.z = 1 ∧
    (wall_surface sm64 plainWorld leaningWall 50 400 35 (-225) 49).hasCollision = true ∧
    wallOffset leaningWall (wall_surface sm64 plainWorld leaningWall 50 400 35 (-225) 49).x 400
      (wall_surface sm64 plainWorld leaningWall 50 400 35 (-225) 49).z = 107329280 / 2146689 ∧
    wallOffset leaningWall (wall_surface sm64 plainWorld leaningWall 50 400 35 (-225) 49).x 400
      (wall_surface sm64 plainWorld leaningWall 50 400 35 (-225) 49).z ≠ 50 := by
  have hoff : wallOffset leaningWall 35 400 (-225) = 1280 / 129 := by
    norm_num [wallOffset, leaningWall]
  have hv : wallBaryV leaningWall 35 400 (-225) = 83189 / 332820 := by
    norm_num [wallBaryV, leaningWall]
  have hw : wallBaryW leaningWall 35 400 (-225) = 83719 / 332820 := by
    norm_num [wallBaryW, leaningWall]
  have hstep := wall_surface_face sm64 plainWorld leaningWall 50 400 35 (-225) 49
    (by norm_num [leaningWall])
    (by rw [hoff]; norm_num)
    (by simp [wallExcludedByMode, plainWorld, uniformGlobals, leaningWall, sm64])
    (by rw [hv]; norm_num)
    (by rw [hv, hw]; norm_num)
  have hnew : wallOffset leaningWall
      (wall_surface sm64 plainWorld leaningWall 50 400 35 (-225) 49).x 400
      (wall_surface sm64 plainWorld leaningWall 50 400 35 (-225) 49).z
      = 107329280 / 2146689 := by
    rw [hstep]
    show wallOffset leaningWall (35 + leaningWall.normal.x * (50 - wallOffset leaningWall 35 400
      (-225))) 400 (-225 + leaningWall.normal.z * (50 - wallOffset leaningWall 35 400 (-225)))
      = _
    rw [wallOffset_after_face_push, hoff]
    norm_num [leaningWall]
  refine ⟨by norm_num [leaningWall], by rw [hstep], hnew, ?_⟩
  rw [hnew]
  norm_num

/-- C11, amended: for every wall surface whose unit normal is horizontal
(`ny = 0`) and every probe that takes the face case, the position after
processing that surface lies at signed plane distance exactly `radius`, the
radius being the one the scan works with (after the clamp to 200). -/
theorem wall_face_push_exact_on_vertical_wall (c : Config) (g : Globals) (surf : Surface)
    (radius y x z m : ℚ)
    (hy : (surf.lowerY : ℚ) ≤ y ∧ y ≤ (surf.upperY : ℚ))
    (ho : 0 ≤ wallOffset surf x y z ∧ wallOffset surf x y z ≤ radius)
    (hex : wallExcludedByMode c g surf = false)
    (hv : 0 ≤ wallBaryV surf x y z ∧ wallBaryV surf x y z ≤ 1)
    (hw : 0 ≤ wallBaryW surf x y z ∧ wallBaryW surf x y z ≤ 1 ∧
      wallBaryV surf x y z + wallBaryW surf x y z ≤ 1)
    (hunit : surf.normal.x * surf.normal.x + surf.normal.y * surf.normal.y
      + surf.normal.z * surf.normal.z = 1)
    (hny : surf.normal.y = 0) :
    (wall_surface c g surf radius y x z m).hasCollision = true ∧
    surf.normal.x * (wall_surface c g surf radius y x z m).x + surf.normal.y * y
      + surf.normal.z * (wall_surface c g surf radius y x z m).z + surf.originOffset
      = radius := by
  have hstep := wall_surface_face c g surf radius y x z m hy ho hex hv hw
  rw [hstep]
  refine ⟨rfl, ?_⟩
  have hpush := wallOffset_after_face_push surf radius x y z
  have hh : surf.normal.x * surf.normal.x + surf.normal.z * surf.normal.z = 1 := by
    rw [hny] at hunit
    linarith
  rw [hh] at hpush
  unfold wallOffset at hpush
  simp only []
  unfold wallOffset
  linarith

/-- C11, amended, at the vertical wall `xWall 0` (normal `(1, 0, 0)`) and the
probe `(10, -50, -50)` with radius 50: the probe is moved to signed plane
distance 50. -/
theorem wall_face_push_exact_on_vertical_wall_witness :
    (wall_surface sm64 sixWalls (xWall 0) 50 (-50) 10 (-50) 49).hasCollision = true ∧
    (xWall 0).normal.x * (wall_surface sm64 sixWalls (xWall 0) 50 (-50) 10 (-50) 49).x
      + (xWall 0).normal.y * (-50)
      + (xWall 0).normal.z * (wall_surface sm64 sixWalls (xWall 0) 50 (-50) 10 (-50) 49).z
      + (xWall 0).originOffset = 50 := by
  have hoff : wallOffset (xWall 0) 10 (-50) (-50) = 10 := by
    norm_num [wallOffset, xWall]
  have hv : wallBaryV (xWall 0) 10 (-50) (-50) = 1 / 4 := by
    norm_num [wallBaryV, xWall]
  have hw : wallBaryW (xWall 0) 10 (-50) (-50) = 1 / 4 := by
    norm_num [wallBaryW, xWall]
  exact wall_face_push_exact_on_vertical_wall sm64 sixWalls (xWall 0) 50 (-50) 10 (-50) 49
    (by norm_num [xWall])
    (by rw [hoff]; norm_num)
    (by simp [wallExcludedByMode, sixWalls, uniformGlobals, xWall, sm64])
    (by rw [hv]; norm_num)
    (by rw [hv, hw]; norm_num)
    (by norm_num [xWall])
    (by simp [xWall])

/-- C12 as stated fails: the probe `(0, 0, -30)` beside `edgeWall`, radius 50 and
margin radius 49, is 30 units from the edge 1-2; the edge block pushes it to
`z = -49` and then rejects the interaction in the corner test.  No hit is
recorded, but the running position has moved. -/
theorem wall_corner_rejection_moves_probe :
    wallEdgeCascade sm64 edgeWall 0 0 (-30) 49 = EdgeResult.rejected 0 (-49) (4901 / 100) ∧
    wall_surface sm64 plainWorld edgeWall 50 0 0 (-30) 49
      = WallStep.mk 0 (-49) (4901 / 100) false ∧
    (wall_surface sm64 plainWorld edgeWall 50 0 0 (-30) 49).z ≠ -30 := by
  have hs : sm64.sqrtf ((0 : ℚ) * 0 + (-30) * (-30)) = 30 := by
    have := sm64_sqrtf_sq 30
    norm_num at this ⊢
    exact this
  have hb := edgeWall_block_1_2 0 (-30) 49 30 hs
  norm_num at hb
  have hc : wallEdgeCascade sm64 edgeWall 0 0 (-30) 49
      = EdgeResult.rejected 0 (-49) (4901 / 100) :=
    wallEdgeCascade_of_first sm64 edgeWall 0 0 (-30) 49 _ hb (fun h => by cases h)
  have hw := wall_surface_of_inEdgeCase sm64 plainWorld edgeWall 50 0 0 (-30) 49
    (edgeWall_inEdgeCase 50 0 (-30) (by norm_num) (by norm_num) (by norm_num))
  rw [hc] at hw
  refine ⟨hc, hw, ?_⟩
  rw [hw]
  show (-49 : ℚ) ≠ -30
  norm_num

/-- C12, amended: for every wall surface whose edge interaction fails the
corner-rejection test, the surface records no hit; by then the edge block has
moved the running position by its push and enlarged the margin radius by
0.01, and both stay so. -/
theorem wall_corner_rejection_no_hit_after_push (c : Config) (g : Globals) (surf : Surface)
    (radius y x z m x1 z1 m1 : ℚ) (hedge : InEdgeCase c g surf radius y x z)
    (hrej : wallEdgeCascade c surf y x z m = EdgeResult.rejected x1 z1 m1) :
    wall_surface c g surf radius y x z m = WallStep.mk x1 z1 m1 false ∧
    wallHits c g radius y [surf] x z m = [] ∧
    ∃ e ∈ [edge_1_2 surf x y z, edge_1_3 surf x y z, edge_2_3 surf x y z],
      x1 = x + (e.push c m).1 ∧ z1 = z + (e.push c m).2 ∧ m1 = m + 1 / 100 ∧
      (e.push c m).1 * surf.normal.x + (e.push c m).2 * surf.normal.z
        < (-9 / 10) * (e.distance c - m) := by
  have hw := wall_surface_of_inEdgeCase c g surf radius y x z m hedge
  rw [hrej] at hw
  have hw2 : wall_surface c g surf radius y x z m = WallStep.mk x1 z1 m1 false := hw
  refine ⟨hw2, ?_, ?_⟩
  · simp [wallHits, hw2]
  · obtain ⟨e, hmem, -, he⟩ := wallEdgeCascade_source c surf y x z m _ hrej
      (fun h => by cases h)
    obtain ⟨a, b, d, -, t⟩ := wall_edge_rejected c surf e x z m x1 z1 m1 he
    exact ⟨e, hmem, a, b, d, t⟩

/-- C12, amended, at the probe `(0, 0, -30)` beside `edgeWall` with radius 50 and
margin radius 49: no hit, and the probe has been pushed to `z = -49`. -/
theorem wall_corner_rejection_no_hit_after_push_witness :
    wall_surface sm64 plainWorld edgeWall 50 0 0 (-30) 49
      = WallStep.mk 0 (-49) (4901 / 100) false ∧
    wallHits sm64 plainWorld 50 0 [edgeWall] 0 (-30) 49 = [] ∧
    ∃ e ∈ [edge_1_2 edgeWall 0 0 (-30), edge_1_3 edgeWall 0 0 (-30),
        edge_2_3 edgeWall 0 0 (-30)],
      (0 : ℚ) = 0 + (e.push sm64 49).1 ∧ (-49 : ℚ) = -30 + (e.push sm64 49).2 ∧
      (4901 / 100 : ℚ) = 49 + 1 / 100 ∧
      (e.push sm64 49).1 * edgeWall.normal.x + (e.push sm64 49).2 * edgeWall.normal.z
        < (-9 / 10) * (e.distance sm64 - 49) := by
  have hs : sm64.sqrtf ((0 : ℚ) * 0 + (-30) * (-30)) = 30 := by
    have := sm64_sqrtf_sq 30
    norm_num at this ⊢
    exact this
  have hb := edgeWall_block_1_2 0 (-30) 49 30 hs
  norm_num at hb
  have hc : wallEdgeCascade sm64 edgeWall 0 0 (-30) 49
      = EdgeResult.rejected 0 (-49) (4901 / 100) :=
    wallEdgeCascade_of_first sm64 edgeWall 0 0 (-30) 49 _ hb (fun h => by cases h)
  exact wall_corner_rejection_no_hit_after_push sm64 plainWorld edgeWall 50 0 0 (-30) 49
    0 (-49) (4901 / 100)
    (edgeWall_inEdgeCase 50 0 (-30) (by norm_num) (by norm_num) (by norm_num)) hc

/-- C14 (the code departs from the claim): the margin radius is taken from the
radius before the clamp.  For the probe `(198, 0, -40)`, 202 units from the
edge 1-2 of `edgeWall`, the query with radius 300 works with margin radius 299,
registers an edge hit and moves the probe, while the query with radius 200
works with margin radius 199 and leaves the probe alone. -/
theorem wall_radius_clamp_misses_margin_radius :
    (find_wall_collisions_from_list sm64 plainWorld [edgeWall] (besideEdgeQuery 300)).1 = 1 ∧
    (find_wall_collisions_from_list sm64 plainWorld [edgeWall] (besideEdgeQuery 300)).2.x
      = 29601 / 101 ∧
    (find_wall_collisions_from_list sm64 plainWorld [edgeWall] (besideEdgeQuery 300)).2.z
      = -5980 / 101 ∧
    (find_wall_collisions_from_list sm64 plainWorld [edgeWall] (besideEdgeQuery 200)).1 = 0 ∧
    (find_wall_collisions_from_list sm64 plainWorld [edgeWall] (besideEdgeQuery 200)).2.x
      = 198 ∧
    (find_wall_collisions_from_list sm64 plainWorld [edgeWall] (besideEdgeQuery 200)).2.z
      = -40 := by
  have hs1 : sm64.sqrtf ((198 : ℚ) * 198 + (-40) * (-40)) = 202 := by
    have := sm64_sqrtf_sq 202
    norm_num at this ⊢
    exact this
  have hs2 : sm64.sqrtf ((198 : ℚ) * 198 + (224 - -40) * (224 - -40)) = 330 := by
    have := sm64_sqrtf_sq 330
    norm_num at this ⊢
    exact this
  have hin := edgeWall_inEdgeCase 200 198 (-40) (by norm_num) (by norm_num) (by norm_num)
  -- radius 300: clamped radius 200, margin radius 299
  have hb300 := edgeWall_block_1_2 198 (-40) 299 202 hs1
  norm_num at hb300
  have hc300 : wallEdgeCascade sm64 edgeWall 0 198 (-40) 299
      = EdgeResult.hasCollision (29601 / 101) (-(5980 / 101)) (29901 / 100) :=
    wallEdgeCascade_of_first sm64 edgeWall 0 198 (-40) 299 _ hb300 (fun h => by cases h)
  have hw300 := wall_surface_of_inEdgeCase sm64 plainWorld edgeWall 200 0 198 (-40) 299 hin
  rw [hc300] at hw300
  -- radius 200: margin radius 199
  have hb200 := edgeWall_block_1_2 198 (-40) 199 202 hs1
  norm_num at hb200
  have hc200 : wallEdgeCascade sm64 edgeWall 0 198 (-40) 199 = EdgeResult.next :=
    wallEdgeCascade_of_all_next sm64 edgeWall 0 198 (-40) 199 hb200
      (edgeWall_block_1_3 198 0 (-40) 199)
      (edgeWall_block_2_3_far 198 (-40) 199 330 hs2 (by norm_num))
  have hw200 := wall_surface_of_inEdgeCase sm64 plainWorld edgeWall 200 0 198 (-40) 199 hin
  rw [hc200] at hw200
  have hr300 : clampedRadius (300 : ℚ) = 200 := by norm_num [clampedRadius]
  have hr200 : clampedRadius (200 : ℚ) = 200 := by norm_num [clampedRadius]
  obtain ⟨a1, a2, a3⟩ := find_wall_collisions_from_list_singleton sm64 plainWorld edgeWall
    (besideEdgeQuery 300) (WallStep.mk (29601 / 101) (-(5980 / 101)) (29901 / 100) true) (by
      simp only [besideEdgeQuery, hr300]
      norm_num
      exact hw300)
  obtain ⟨b1, b2, b3⟩ := find_wall_collisions_from_list_singleton sm64 plainWorld edgeWall
    (besideEdgeQuery 200) (WallStep.mk 198 (-40) 199 false) (by
      simp only [besideEdgeQuery, hr200]
      norm_num
      exact hw200)
  exact ⟨a1, a2, a3.trans (by norm_num), b1, b2, b3⟩

/-- C15: `find_water_level` returns the level of the first record, in table
order among the first `count` records, with `kind < 50` and the point
strictly inside its box; it returns `FLOOR_LOWER_LIMIT` when no record
matches or the table is absent.  So of two water boxes that cover the point
the earlier one's level is returned. -/
theorem find_water_level_first_match (c : Config) (x z : ℚ) :
    find_water_level c none x z = c.FLOOR_LOWER_LIMIT ∧
    ∀ p : Nat → Int,
      ((∀ i < regionCount p, ¬ WaterMatch p x z i) →
        find_water_level c (some p) x z = c.FLOOR_LOWER_LIMIT) ∧
      (∀ i, FirstMatch (WaterMatch p x z) (regionCount p) i →
        find_water_level c (some p) x z = (regionLevel p i : ℚ)) ∧
      (∀ i j, i < j → j < regionCount p → WaterMatch p x z i → WaterMatch p x z j →
        ∃ k ≤ i, WaterMatch p x z k ∧
          find_water_level c (some p) x z = (regionLevel p k : ℚ)) := by
  refine ⟨rfl, fun p => ?_⟩
  obtain ⟨h1, h2⟩ := find_water_level_loop_spec c p x z (regionCount p) 0
  have hfirst : ∀ i, FirstMatch (WaterMatch p x z) (regionCount p) i →
      find_water_level c (some p) x z = (regionLevel p i : ℚ) := by
    rintro i ⟨hlt, hm, hbefore⟩
    exact h2 i (Nat.zero_le i) (by omega) hm (fun j _ hj => hbefore j hj)
  refine ⟨?_, hfirst, ?_⟩
  · intro hall
    exact h1 (fun i _ hi => hall i (by omega))
  · intro i j hij hj hmi _
    -- the first match exists and is at most `i`
    have hex : ∃ k, WaterMatch p x z k := ⟨i, hmi⟩
    classical
    refine ⟨Nat.find hex, Nat.find_min' hex hmi, Nat.find_spec hex, ?_⟩
    apply hfirst
    refine ⟨?_, Nat.find_spec hex, fun k hk => Nat.find_min hex hk⟩
    exact lt_of_le_of_lt (Nat.find_min' hex hmi) (lt_trans hij hj)

/-- C15 at a table whose first two records are overlapping water boxes of
levels 20 and 40 covering the origin: the level 20 of the earlier box is
returned. -/
theorem find_water_level_first_match_witness :
    WaterMatch overlappingRegions 0 0 0 ∧ WaterMatch overlappingRegions 0 0 1 ∧
    find_water_level sm64 (some overlappingRegions) 0 0 = 20 := by
  have hm0 : WaterMatch overlappingRegions 0 0 0 := by
    simp [WaterMatch, InRegionBox, regionKind, regionMinX, regionMaxX, regionMinZ, regionMaxZ,
      overlappingRegions, regionArray]
  have hm1 : WaterMatch overlappingRegions 0 0 1 := by
    simp [WaterMatch, InRegionBox, regionKind, regionMinX, regionMaxX, regionMinZ, regionMaxZ,
      overlappingRegions, regionArray]
  refine ⟨hm0, hm1, ?_⟩
  have h := ((find_water_level_first_match sm64 0 0).2 overlappingRegions).2.1 0
    ⟨by simp [regionCount, overlappingRegions, regionArray], hm0, fun j hj => by omega⟩
  rw [h]
  simp [regionLevel, overlappingRegions, regionArray]

/-- C16: `find_poison_gas_level` returns the level of the first record, in table
order among the first `count` records, with `kind >= 50`, `kind % 10 == 0` and
the point strictly inside its box; it returns `FLOOR_LOWER_LIMIT` when no
record matches or the table is absent; and a record it can answer with is
never one that `find_water_level` could match. -/
theorem find_poison_gas_level_first_match (c : Config) (x z : ℚ) :
    find_poison_gas_level c none x z = c.FLOOR_LOWER_LIMIT ∧
    ∀ p : Nat → Int,
      ((∀ i < regionCount p, ¬ GasMatch p x z i) →
        find_poison_gas_level c (some p) x z = c.FLOOR_LOWER_LIMIT) ∧
      (∀ i, FirstMatch (GasMatch p x z) (regionCount p) i →
        find_poison_gas_level c (some p) x z = (regionLevel p i : ℚ)) ∧
      (∀ i, GasMatch p x z i → ¬ WaterMatch p x z i) := by
  refine ⟨rfl, fun p => ?_⟩
  obtain ⟨h1, h2⟩ := find_poison_gas_level_loop_spec c p x z (regionCount p) 0
  refine ⟨?_, ?_, ?_⟩
  · intro hall
    exact h1 (fun i _ hi => hall i (by omega))
  · rintro i ⟨hlt, hm, hbefore⟩
    exact h2 i (Nat.zero_le i) (by omega) hm (fun j _ hj => hbefore j hj)
  · rintro i ⟨hge, -, -⟩ ⟨hlt, -⟩
    omega

/-- C16 at a table with two water boxes followed by two gas boxes of levels 70
and 90, all covering the origin: the level 70 of the first gas box (record 2)
is returned, and that record is not a water match. -/
theorem find_poison_gas_level_first_match_witness :
    FirstMatch (GasMatch overlappingRegions 0 0) (regionCount overlappingRegions) 2 ∧
    find_poison_gas_level sm64 (some overlappingRegions) 0 0 = 70 ∧
    ¬ WaterMatch overlappingRegions 0 0 2 := by
  have hm2 : GasMatch overlappingRegions 0 0 2 := by
    simp [GasMatch, InRegionBox, regionKind, regionMinX, regionMaxX, regionMinZ, regionMaxZ,
      overlappingRegions, regionArray]
  have hfirst : FirstMatch (GasMatch overlappingRegions 0 0) (regionCount overlappingRegions)
      2 := by
    refine ⟨by simp [regionCount, overlappingRegions, regionArray], hm2, ?_⟩
    intro j hj
    have hj2 : j = 0 ∨ j = 1 := by omega
    rcases hj2 with rfl | rfl <;>
      simp [GasMatch, regionKind, overlappingRegions, regionArray]
  obtain ⟨-, h2, h3⟩ := (find_poison_gas_level_first_match sm64 0 0).2 overlappingRegions
  refine ⟨hfirst, ?_, h3 2 hm2⟩
  rw [h2 2 hfirst]
  simp [regionLevel, overlappingRegions, regionArray]

/-- C17 as stated fails: the first vertex `(-300, 0)` of the ordinary ceiling
`flatCeil 200` lies 450 units from the midpoint `(150, 0)` of the opposite edge;
the vertex used in the containment test is `(-298.5, 0)`, 448.5 units from
that midpoint, not 451.5.  The tested triangle does not contain the original
one: a probe under the original vertex is rejected by the first half-plane
test. -/
theorem ceil_margin_moves_vertex_inward :
    (flatCeil 200).type ≠ sm64.SURFACE_HANGABLE ∧
    edgeMidpoint (flatCeil 200).vertex2 (flatCeil 200).vertex3 = (150, 0) ∧
    sqDist (((flatCeil 200).vertex1.x : ℚ), ((flatCeil 200).vertex1.z : ℚ)) (150, 0)
      = 450 * 450 ∧
    ceil_vertex sm64 (flatCeil 200) (flatCeil 200).vertex1 (flatCeil 200).vertex2
      (flatCeil 200).vertex3 = (-597 / 2, 0) ∧
    sqDist (ceil_vertex sm64 (flatCeil 200) (flatCeil 200).vertex1 (flatCeil 200).vertex2
      (flatCeil 200).vertex3) (150, 0) = (897 / 2) * (897 / 2) ∧
    ceil_newHeight sm64 false (flatCeil 200) (-300) 60 0 = none := by
  obtain ⟨e1, e2, e3⟩ := ceil_vertex_flatCeil 200
  refine ⟨by simp [flatCeil, sm64], ?_, ?_, e1, ?_, ?_⟩
  · simp only [edgeMidpoint, flatCeil]
    norm_num
  · simp only [sqDist, flatCeil]
    norm_num
  · rw [e1]
    simp only [sqDist]
    norm_num
  · unfold ceil_newHeight
    simp only [e1, e2]
    rw [if_pos (by norm_num)]

/-- C17, amended: for every non-hangable ceiling surface and each of its
vertices that is not horizontally at the midpoint of the opposite edge, the
vertex used in the containment test is the original vertex moved by exactly
1.5 units in the horizontal plane directly toward the opposite edge's
midpoint: with `D = L / 2` its distance to that midpoint, the displacement is
`1.5 / D` times the vector to the midpoint and the new distance to the
midpoint is `|D - 1.5|`.  Here `L` is the value `sqrtf` returns for the squared
length of `(diff_x, diff_z)`, taken to be exact and positive. -/
theorem ceil_margin_moves_vertex_toward_midpoint (c : Config) (surf : Surface)
    (v t1 t2 : Vec3s) (L : ℚ) (hty : surf.type ≠ c.SURFACE_HANGABLE)
    (hL : c.sqrtf (marginDiffSq v t1 t2) = L) (hsq : L * L = marginDiffSq v t1 t2)
    (hpos : 0 < L) :
    sqDist (ceil_vertex c surf v t1 t2) ((v.x : ℚ), (v.z : ℚ)) = (3 / 2) * (3 / 2) ∧
    (ceil_vertex c surf v t1 t2).1 - (v.x : ℚ)
      = (3 / 2) / (L / 2) * ((edgeMidpoint t1 t2).1 - (v.x : ℚ)) ∧
    (ceil_vertex c surf v t1 t2).2 - (v.z : ℚ)
      = (3 / 2) / (L / 2) * ((edgeMidpoint t1 t2).2 - (v.z : ℚ)) ∧
    sqDist ((v.x : ℚ), (v.z : ℚ)) (edgeMidpoint t1 t2) = (L / 2) * (L / 2) ∧
    sqDist (ceil_vertex c surf v t1 t2) (edgeMidpoint t1 t2)
      = (L / 2 - 3 / 2) * (L / 2 - 3 / 2) := by
  have hne : L ≠ 0 := ne_of_gt hpos
  have hv : ceil_vertex c surf v t1 t2
      = ((v.x : ℚ) + ((t1.x : ℚ) - (v.x : ℚ) + (t2.x : ℚ) - (v.x : ℚ)) * (3 / 2 / L),
         (v.z : ℚ) + ((t1.z : ℚ) - (v.z : ℚ) + (t2.z : ℚ) - (v.z : ℚ)) * (3 / 2 / L)) := by
    unfold ceil_vertex add_ceil_margin
    rw [if_pos hty]
    have : c.sqrtf (((t1.x : ℚ) - (v.x : ℚ) + (t2.x : ℚ) - (v.x : ℚ)) *
        ((t1.x : ℚ) - (v.x : ℚ) + (t2.x : ℚ) - (v.x : ℚ)) +
        ((t1.z : ℚ) - (v.z : ℚ) + (t2.z : ℚ) - (v.z : ℚ)) *
        ((t1.z : ℚ) - (v.z : ℚ) + (t2.z : ℚ) - (v.z : ℚ))) = L := hL
    simp only [this]
  unfold marginDiffSq at hsq
  rw [hv]
  simp only [sqDist, edgeMidpoint]
  obtain ⟨dx, hdx⟩ : ∃ dx : ℚ, dx = (t1.x : ℚ) - (v.x : ℚ) + (t2.x : ℚ) - (v.x : ℚ) := ⟨_, rfl⟩
  obtain ⟨dz, hdz⟩ : ∃ dz : ℚ, dz = (t1.z : ℚ) - (v.z : ℚ) + (t2.z : ℚ) - (v.z : ℚ) := ⟨_, rfl⟩
  rw [← hdx, ← hdz] at hsq ⊢
  have hmx : ((t1.x : ℚ) + (t2.x : ℚ)) / 2 = (v.x : ℚ) + dx / 2 := by rw [hdx]; ring
  have hmz : ((t1.z : ℚ) + (t2.z : ℚ)) / 2 = (v.z : ℚ) + dz / 2 := by rw [hdz]; ring
  rw [hmx, hmz]
  have hLL : (dx * dx + dz * dz) / (L * L) = 1 := by
    rw [← hsq]
    exact div_self (mul_ne_zero hne hne)
  refine ⟨?_, ?_, ?_, ?_, ?_⟩
  · have e : ((v.x : ℚ) + dx * (3 / 2 / L) - (v.x : ℚ)) * ((v.x : ℚ) + dx * (3 / 2 / L) - (v.x : ℚ))
        + ((v.z : ℚ) + dz * (3 / 2 / L) - (v.z : ℚ)) * ((v.z : ℚ) + dz * (3 / 2 / L) - (v.z : ℚ))
        = (3 / 2) * (3 / 2) * ((dx * dx + dz * dz) / (L * L)) := by
      field_simp
      ring
    rw [e, hLL, mul_one]
  · field_simp
    ring
  · field_simp
    ring
  · have e : ((v.x : ℚ) - ((v.x : ℚ) + dx / 2)) * ((v.x : ℚ) - ((v.x : ℚ) + dx / 2))
        + ((v.z : ℚ) - ((v.z : ℚ) + dz / 2)) * ((v.z : ℚ) - ((v.z : ℚ) + dz / 2))
        = (dx * dx + dz * dz) / 4 := by ring
    rw [e, ← hsq]
    ring
  · have e : ((v.x : ℚ) + dx * (3 / 2 / L) - ((v.x : ℚ) + dx / 2)) *
          ((v.x : ℚ) + dx * (3 / 2 / L) - ((v.x : ℚ) + dx / 2))
        + ((v.z : ℚ) + dz * (3 / 2 / L) - ((v.z : ℚ) + dz / 2)) *
          ((v.z : ℚ) + dz * (3 / 2 / L) - ((v.z : ℚ) + dz / 2))
        = (3 / 2 - L / 2) * (3 / 2 - L / 2) * ((dx * dx + dz * dz) / (L * L)) := by
      field_simp
      ring
    rw [e, hLL, mul_one]
    ring

/-- C17, amended, at the first vertex of `flatCeil 200`: `L = 900`, the vertex is
450 units from the midpoint of the opposite edge and is moved 1.5 units toward
it, to 448.5 units. -/
theorem ceil_margin_moves_vertex_toward_midpoint_witness :
    sqDist (ceil_vertex sm64 (flatCeil 200) (flatCeil 200).vertex1 (flatCeil 200).vertex2
      (flatCeil 200).vertex3)
      (((flatCeil 200).vertex1.x : ℚ), ((flatCeil 200).vertex1.z : ℚ)) = (3 / 2) * (3 / 2) ∧
    sqDist (ceil_vertex sm64 (flatCeil 200) (flatCeil 200).vertex1 (flatCeil 200).vertex2
      (flatCeil 200).vertex3) (edgeMidpoint (flatCeil 200).vertex2 (flatCeil 200).vertex3)
      = (900 / 2 - 3 / 2) * (900 / 2 - 3 / 2) := by
  have hd : marginDiffSq (flatCeil 200).vertex1 (flatCeil 200).vertex2 (flatCeil 200).vertex3
      = 810000 := by
    simp only [marginDiffSq, flatCeil]
    norm_num
  have hs : sm64.sqrtf (marginDiffSq (flatCeil 200).vertex1 (flatCeil 200).vertex2
      (flatCeil 200).vertex3) = 900 := by
    rw [hd]
    have := sm64_sqrtf_sq 900
    norm_num at this
    exact this
  obtain ⟨a, -, -, -, b⟩ := ceil_margin_moves_vertex_toward_midpoint sm64 (flatCeil 200)
    (flatCeil 200).vertex1 (flatCeil 200).vertex2 (flatCeil 200).vertex3 900
    (by simp [flatCeil, sm64]) hs (by rw [hd]; norm_num) (by norm_num)
  exact ⟨a, b⟩

/-- C18 as stated fails: for the probe `(15, 0, -20)` beside `edgeWall` (normal
`(1, 0, 0)`), radius 50 and margin radius 49, the block of edge 1-2 computes
the push `p = (72/5, -96/5)` of length 24.  Its component along the normal is
`72/5 > 0`, so `p . n < -0.9 |p|` does not hold, yet the corner test rejects
the interaction and no hit is recorded. -/
theorem wall_corner_test_rejects_push_along_normal :
    (edge_1_2 edgeWall 15 0 (-20)).push sm64 49 = (72 / 5, -(96 / 5)) ∧
    (72 / 5 : ℚ) * (72 / 5) + -(96 / 5) * -(96 / 5) = 24 * 24 ∧
    0 < (72 / 5 : ℚ) * edgeWall.normal.x + -(96 / 5) * edgeWall.normal.z ∧
    ¬ ((72 / 5 : ℚ) * edgeWall.normal.x + -(96 / 5) * edgeWall.normal.z < -(9 / 10) * 24) ∧
    wallEdgeCascade sm64 edgeWall 0 15 (-20) 49
      = EdgeResult.rejected (147 / 5) (-(196 / 5)) (4901 / 100) ∧
    wall_surface sm64 plainWorld edgeWall 50 0 15 (-20) 49
      = WallStep.mk (147 / 5) (-(196 / 5)) (4901 / 100) false ∧
    wallHits sm64 plainWorld 50 0 [edgeWall] 15 (-20) 49 = [] := by
  have hs : sm64.sqrtf ((15 : ℚ) * 15 + (-20) * (-20)) = 25 := by
    have := sm64_sqrtf_sq 25
    norm_num at this ⊢
    exact this
  have hp := (edgeWall_push_1_2 15 (-20) 49 25 hs).2
  norm_num at hp
  have hb := edgeWall_block_1_2 15 (-20) 49 25 hs
  norm_num at hb
  have hc : wallEdgeCascade sm64 edgeWall 0 15 (-20) 49
      = EdgeResult.rejected (147 / 5) (-(196 / 5)) (4901 / 100) :=
    wallEdgeCascade_of_first sm64 edgeWall 0 15 (-20) 49 _ hb (fun h => by cases h)
  have hw := wall_surface_of_inEdgeCase sm64 plainWorld edgeWall 50 0 15 (-20) 49
    (edgeWall_inEdgeCase 50 15 (-20) (by norm_num) (by norm_num) (by norm_num))
  rw [hc] at hw
  have hw2 : wall_surface sm64 plainWorld edgeWall 50 0 15 (-20) 49
      = WallStep.mk (147 / 5) (-(196 / 5)) (4901 / 100) false := hw
  have hn : edgeWall.normal.x = 1 ∧ edgeWall.normal.z = 0 := ⟨rfl, rfl⟩
  refine ⟨hp, by norm_num, ?_, ?_, hc, hw2, ?_⟩
  · rw [hn.1, hn.2]
    norm_num
  · rw [hn.1, hn.2]
    norm_num
  · simp [wallHits, hw2]

/-- C18, amended: in an edge block that interacts (edge parameter in `[0, 1]`,
edge distance `d` with `0 < d <= m` computed exactly), the push `p` has length
`m - d`, and the interaction is rejected as a corner miss exactly when
`p . (nx, nz) < 0.9 |p|`; it is recorded as a hit exactly when
`p . (nx, nz) >= 0.9 |p|`, that is when the push is nearly along the surface
normal.  A non-zero push perpendicular to the normal or opposite to it is
rejected. -/
theorem wall_corner_test_threshold (c : Config) (surf : Surface) (e : EdgeProbe)
    (x z m d : ℚ) (hp : 0 ≤ e.param ∧ e.param ≤ 1) (hd : e.distance c = d)
    (hsq : d * d = e.toEdgePoint.1 * e.toEdgePoint.1 + e.toEdgePoint.2 * e.toEdgePoint.2)
    (hpos : 0 < d) (hm : d ≤ m) :
    (e.push c m).1 * (e.push c m).1 + (e.push c m).2 * (e.push c m).2 = (m - d) * (m - d) ∧
    wall_edge c surf e.ex e.ey e.ez e.v2x e.v2y e.v2z x z m =
      (if (e.push c m).1 * surf.normal.x + (e.push c m).2 * surf.normal.z < 9 / 10 * (m - d) then
        EdgeResult.rejected (x + (e.push c m).1) (z + (e.push c m).2) (m + 1 / 100)
      else EdgeResult.hasCollision (x + (e.push c m).1) (z + (e.push c m).2) (m + 1 / 100)) ∧
    ((WallStep.ofEdge x z m
        (wall_edge c surf e.ex e.ey e.ez e.v2x e.v2y e.v2z x z m)).hasCollision = true ↔
      9 / 10 * (m - d) ≤ (e.push c m).1 * surf.normal.x + (e.push c m).2 * surf.normal.z) := by
  have hne : d ≠ 0 := ne_of_gt hpos
  have hw : wall_edge c surf e.ex e.ey e.ez e.v2x e.v2y e.v2z x z m =
      (if (e.push c m).1 * surf.normal.x + (e.push c m).2 * surf.normal.z < 9 / 10 * (m - d) then
        EdgeResult.rejected (x + (e.push c m).1) (z + (e.push c m).2) (m + 1 / 100)
      else EdgeResult.hasCollision (x + (e.push c m).1) (z + (e.push c m).2) (m + 1 / 100)) := by
    have h1 : ¬ (e.param < 0 ∨ e.param > 1) := by
      rintro (h | h)
      · exact absurd h (not_lt.mpr hp.1)
      · exact absurd h (not_lt.mpr hp.2)
    have h2 : ¬ (d - m > 0) := by
      intro h
      linarith
    have h3 : (-9 / 10 : ℚ) * (d - m) = 9 / 10 * (m - d) := by ring
    rw [wall_edge_eq, if_neg h1, hd, if_neg h2, h3]
  refine ⟨?_, hw, ?_⟩
  · have hpush : e.push c m
        = (e.toEdgePoint.1 * ((d - m) / d), e.toEdgePoint.2 * ((d - m) / d)) := by
      unfold EdgeProbe.push
      rw [hd]
    rw [hpush]
    have e1 : e.toEdgePoint.1 * ((d - m) / d) * (e.toEdgePoint.1 * ((d - m) / d))
        + e.toEdgePoint.2 * ((d - m) / d) * (e.toEdgePoint.2 * ((d - m) / d))
        = (e.toEdgePoint.1 * e.toEdgePoint.1 + e.toEdgePoint.2 * e.toEdgePoint.2)
          * (((d - m) / d) * ((d - m) / d)) := by ring
    simp only []
    rw [e1, ← hsq]
    field_simp
    ring
  · rw [hw]
    by_cases hlt : (e.push c m).1 * surf.normal.x + (e.push c m).2 * surf.normal.z
        < 9 / 10 * (m - d)
    · rw [if_pos hlt]
      constructor
      · intro h
        cases h
      · intro h
        exact absurd hlt (not_lt.mpr h)
    · rw [if_neg hlt]
      exact ⟨fun _ => not_lt.mp hlt, fun _ => rfl⟩

/-- C18, amended, at the probe `(15, 0, -20)` beside `edgeWall` with margin
radius 49 and edge distance 25: the push has length 24 and the block is
decided by comparing `p . (nx, nz)` with `0.9 * 24`. -/
theorem wall_corner_test_threshold_witness :
    ((edge_1_2 edgeWall 15 0 (-20)).push sm64 49).1 * ((edge_1_2 edgeWall 15 0 (-20)).push sm64 49).1
      + ((edge_1_2 edgeWall 15 0 (-20)).push sm64 49).2
        * ((edge_1_2 edgeWall 15 0 (-20)).push sm64 49).2 = (49 - 25) * (49 - 25) ∧
    wall_edge sm64 edgeWall (edge_1_2 edgeWall 15 0 (-20)).ex (edge_1_2 edgeWall 15 0 (-20)).ey
        (edge_1_2 edgeWall 15 0 (-20)).ez (edge_1_2 edgeWall 15 0 (-20)).v2x
        (edge_1_2 edgeWall 15 0 (-20)).v2y (edge_1_2 edgeWall 15 0 (-20)).v2z 15 (-20) 49 =
      (if ((edge_1_2 edgeWall 15 0 (-20)).push sm64 49).1 * edgeWall.normal.x
          + ((edge_1_2 edgeWall 15 0 (-20)).push sm64 49).2 * edgeWall.normal.z
          < 9 / 10 * (49 - 25) then
        EdgeResult.rejected (15 + ((edge_1_2 edgeWall 15 0 (-20)).push sm64 49).1)
          (-20 + ((edge_1_2 edgeWall 15 0 (-20)).push sm64 49).2) (49 + 1 / 100)
      else EdgeResult.hasCollision (15 + ((edge_1_2 edgeWall 15 0 (-20)).push sm64 49).1)
          (-20 + ((edge_1_2 edgeWall 15 0 (-20)).push sm64 49).2) (49 + 1 / 100)) ∧
    ((WallStep.ofEdge 15 (-20) 49
        (wall_edge sm64 edgeWall (edge_1_2 edgeWall 15 0 (-20)).ex
          (edge_1_2 edgeWall 15 0 (-20)).ey (edge_1_2 edgeWall 15 0 (-20)).ez
          (edge_1_2 edgeWall 15 0 (-20)).v2x (edge_1_2 edgeWall 15 0 (-20)).v2y
          (edge_1_2 edgeWall 15 0 (-20)).v2z 15 (-20) 49)).hasCollision = true ↔
      9 / 10 * (49 - 25) ≤ ((edge_1_2 edgeWall 15 0 (-20)).push sm64 49).1 * edgeWall.normal.x
          + ((edge_1_2 edgeWall 15 0 (-20)).push sm64 49).2 * edgeWall.normal.z) := by
  have hs : sm64.sqrtf ((15 : ℚ) * 15 + (-20) * (-20)) = 25 := by
    have := sm64_sqrtf_sq 25
    norm_num at this ⊢
    exact this
  obtain ⟨-, hparam, hto⟩ := edgeWall_edge_1_2 15 (-20)
  exact wall_corner_test_threshold sm64 edgeWall (edge_1_2 edgeWall 15 0 (-20)) 15 (-20) 49 25
    (by rw [hparam]; norm_num) (edgeWall_push_1_2 15 (-20) 49 25 hs).1
    (by rw [hto]; norm_num) (by norm_num) (by norm_num)

/-- C19 as stated fails: over a static ceiling at height 150 the in-bounds probe
`(0, 200, 0)` gets that ceiling back, 50 units below the probe: the scan
accepts a ceiling whenever `y <= height + 78`. -/
theorem find_ceil_returns_ceiling_below_probe :
    InBounds sm64 0 0 ∧
    find_ceil sm64 lowCeilOnly 0 200 0 = (150, some (flatCeil 150)) ∧
    ¬ ((200 : ℚ) < (find_ceil sm64 lowCeilOnly 0 200 0).1) := by
  have h := find_ceil_lowCeilOnly 200 (by norm_num)
  refine ⟨inBounds_sm64_origin, h, ?_⟩
  rw [h]
  norm_num

/-- C19, amended: for every in-bounds `find_ceil` call that returns a non-null
surface, the returned height is the plane height of that surface at the probe
and is at least `yPos - 78`. -/
theorem find_ceil_height_at_least_probe_minus_78 (c : Config) (g : Globals)
    (xPos yPos zPos : ℚ) (s : Surface) (hin : InBounds c xPos zPos)
    (hs : (find_ceil c g xPos yPos zPos).2 = some s) :
    yPos - 78 ≤ (find_ceil c g xPos yPos zPos).1 ∧
    (find_ceil c g xPos yPos zPos).1 = planeHeight s xPos zPos := by
  rw [find_ceil_of_inBounds c g xPos yPos zPos hin] at hs ⊢
  by_cases hlt : (find_ceil_from_list c g.gCheckingSurfaceCollisionsForCamera
        (dynamicCell c g xPos zPos).ceils xPos yPos zPos c.CELL_HEIGHT_LIMIT).2
      < (find_ceil_from_list c g.gCheckingSurfaceCollisionsForCamera
        (staticCell c g xPos zPos).ceils xPos yPos zPos c.CELL_HEIGHT_LIMIT).2
  · simp only [if_pos hlt] at hs ⊢
    obtain ⟨a, b⟩ := find_ceil_from_list_some_bound c _ _ xPos yPos zPos _ s hs
    exact ⟨by linarith, b⟩
  · simp only [if_neg hlt] at hs ⊢
    obtain ⟨a, b⟩ := find_ceil_from_list_some_bound c _ _ xPos yPos zPos _ s hs
    exact ⟨by linarith, b⟩

/-- C19, amended, over a static ceiling at height 150 with the probe
`(0, 100, 0)`: the returned height 150 is at least `100 - 78`. -/
theorem find_ceil_height_at_least_probe_minus_78_witness :
    (100 : ℚ) - 78 ≤ (find_ceil sm64 lowCeilOnly 0 100 0).1 ∧
    (find_ceil sm64 lowCeilOnly 0 100 0).1 = planeHeight (flatCeil 150) 0 0 :=
  find_ceil_height_at_least_probe_minus_78 sm64 lowCeilOnly 0 100 0 (flatCeil 150)
    inBounds_sm64_origin (by rw [find_ceil_lowCeilOnly 100 (by norm_num)])

/-- C20 (the code departs from the claim): for the upstream constants (16 cells
of 1024 units, `NUM_CELLS_INDEX = 15`) the in-bounds coordinate `-1/2` lies in
the interval `[-1024, 0)` of cell 7 = `floor((-1/2 + 8192) / 1024)`, but
`(s32)xPos` drops the fraction toward zero, so `find_floor` and `find_ceil`
compute the index 8 and read the cell `[8][8]` for the probe `(-1/2, 0)`. -/
theorem cell_index_truncates_toward_zero :
    InBounds sm64 (-1 / 2) 0 ∧
    (16 : Int) * sm64.CELL_SIZE = 2 * sm64.LEVEL_BOUNDARY_MAX ∧
    sm64.NUM_CELLS_INDEX = 16 - 1 ∧
    truncToInt (-1 / 2) = 0 ∧
    cellIndex sm64 (truncToInt (-1 / 2)) = 8 ∧
    ⌊((-1 / 2 : ℚ) + (sm64.LEVEL_BOUNDARY_MAX : ℚ)) / (sm64.CELL_SIZE : ℚ)⌋ = 7 ∧
    (-(sm64.LEVEL_BOUNDARY_MAX : ℚ) + 7 * (sm64.CELL_SIZE : ℚ) ≤ -1 / 2 ∧
      (-1 / 2 : ℚ) < -(sm64.LEVEL_BOUNDARY_MAX : ℚ) + (7 + 1) * (sm64.CELL_SIZE : ℚ)) ∧
    ∀ g : Globals,
      staticCell sm64 g (-1 / 2) 0 = g.gStaticSurfacePartition 8 8 ∧
      dynamicCell sm64 g (-1 / 2) 0 = g.gDynamicSurfacePartition 8 8 := by
  have ht := truncToInt_neg_half
  have ht0 : truncToInt 0 = 0 := by
    unfold truncToInt
    rw [if_pos (le_refl _)]
    exact Int.floor_zero
  have hi : toS16 (cellIndex sm64 0) = 8 := by decide
  refine ⟨?_, by decide, by decide, ht, by rw [ht]; decide, ?_, ?_, ?_⟩
  · unfold InBounds sm64
    norm_num
  · rw [Int.floor_eq_iff]
    norm_num [sm64]
  · norm_num [sm64]
  · intro g
    unfold staticCell dynamicCell
    rw [ht, ht0, hi]
    exact ⟨rfl, rfl⟩

/-- C23: surfaces excluded by the mode rule have no effect on a list scan: for
every floor, ceiling or wall list and every query, the scan of the list
without the excluded surfaces (camera mode: flagged no-camera-collision;
normal mode: camera-boundary type) returns the same surface and height, or
the same hit count, position, stored walls and `numWalls`, as the scan of the
whole list. -/
theorem mode_excluded_surfaces_have_no_effect (c : Config) (g : Globals) (l : List Surface)
    (x y z pheight : ℚ) (data : WallCollisionData) :
    find_floor_from_list c g.gCheckingSurfaceCollisionsForCamera
        (withoutExcluded c g.gCheckingSurfaceCollisionsForCamera l) x y z pheight
      = find_floor_from_list c g.gCheckingSurfaceCollisionsForCamera l x y z pheight ∧
    find_ceil_from_list c g.gCheckingSurfaceCollisionsForCamera
        (withoutExcluded c g.gCheckingSurfaceCollisionsForCamera l) x y z pheight
      = find_ceil_from_list c g.gCheckingSurfaceCollisionsForCamera l x y z pheight ∧
    find_wall_collisions_from_list c g
        (withoutExcluded c g.gCheckingSurfaceCollisionsForCamera l) data
      = find_wall_collisions_from_list c g l data := by
  refine ⟨?_, ?_, ?_⟩
  · unfold find_floor_from_list
    rw [find_floor_loop_withoutExcluded]
  · unfold find_ceil_from_list
    rw [find_ceil_loop_withoutExcluded]
  · unfold find_wall_collisions_from_list
    simp only [find_wall_collisions_loop_withoutExcluded]

/-- C24: for every in-bounds `find_floor` call that returns a non-null surface,
whichever of the dynamic pass, the static pass or the intangible re-query it
comes from, the returned height is at most `yPos + 78` and equals the plane
height `-(nx*x + nz*z + oo)/ny` of the returned surface at the probe. -/
theorem find_floor_height_at_most_probe_plus_78 (c : Config) (g : Globals)
    (xPos yPos zPos : ℚ) (s : Surface) (hin : InBounds c xPos zPos)
    (hs : (find_floor c g xPos yPos zPos).pfloor = some s) :
    (find_floor c g xPos yPos zPos).height ≤ yPos + 78 ∧
    (find_floor c g xPos yPos zPos).height = planeHeight s xPos zPos := by
  have hD := find_floor_from_list_some_bound c g.gCheckingSurfaceCollisionsForCamera
    (dynamicCell c g xPos zPos).floors xPos yPos zPos c.FLOOR_LOWER_LIMIT s
  have hS := find_floor_from_list_some_bound c g.gCheckingSurfaceCollisionsForCamera
    (staticCell c g xPos zPos).floors xPos yPos zPos c.FLOOR_LOWER_LIMIT
  have hR := fun H => find_floor_from_list_some_bound c g.gCheckingSurfaceCollisionsForCamera
    (staticCell c g xPos zPos).floors xPos (H - 200) zPos H s
  rw [find_floor_of_inBounds c g xPos yPos zPos hin] at hs ⊢
  generalize find_floor_from_list c g.gCheckingSurfaceCollisionsForCamera
    (dynamicCell c g xPos zPos).floors xPos yPos zPos c.FLOOR_LOWER_LIMIT = D at hs hD ⊢
  generalize hSdef : find_floor_from_list c g.gCheckingSurfaceCollisionsForCamera
    (staticCell c g xPos zPos).floors xPos yPos zPos c.FLOOR_LOWER_LIMIT = S at hs hS ⊢
  obtain ⟨S1, S2⟩ := S
  simp only [] at hs hS hR ⊢
  by_cases hflag : g.gFindFloorIncludeSurfaceIntangible = false
  · simp only [if_pos hflag] at hs ⊢
    cases S1 with
    | none =>
      simp only [] at hs ⊢
      by_cases hgt : D.2 > S2
      · simp only [if_pos hgt] at hs ⊢
        exact hD hs
      · simp only [if_neg hgt] at hs ⊢
        cases hs
    | some f =>
      simp only [] at hs ⊢
      have hf78 : S2 ≤ yPos + 78 := (hS f rfl).1
      by_cases hint : f.type = c.SURFACE_INTANGIBLE
      · simp only [if_pos hint] at hs ⊢
        split_ifs at hs ⊢ with hgt
        · exact hD hs
        · obtain ⟨a, b⟩ := hR S2 hs
          exact ⟨by linarith, b⟩
      · simp only [if_neg hint] at hs ⊢
        by_cases hgt : D.2 > S2
        · simp only [if_pos hgt] at hs ⊢
          exact hD hs
        · simp only [if_neg hgt] at hs ⊢
          exact hS s hs
  · simp only [if_neg hflag] at hs ⊢
    by_cases hgt : D.2 > S2
    · simp only [if_pos hgt] at hs ⊢
      exact hD hs
    · simp only [if_neg hgt] at hs ⊢
      exact hS s hs

/-- C24 at an intangible static floor at 100 over a normal static floor at -50,
probe `(0, 120, 0)`: the floor at -50 comes back through the re-query, with
height `-50 <= 120 + 78`. -/
theorem find_floor_height_at_most_probe_plus_78_witness :
    (find_floor sm64 (intangibleOverNormal false) 0 120 0).height ≤ 120 + 78 ∧
    (find_floor sm64 (intangibleOverNormal false) 0 120 0).height
      = planeHeight (flatFloor 0 (-50)) 0 0 :=
  find_floor_height_at_most_probe_plus_78 sm64 (intangibleOverNormal false) 0 120 0
    (flatFloor 0 (-50)) inBounds_sm64_origin (by rw [find_floor_intangibleOverNormal])

/-- C22: for every surface of a wall list whose iteration ends in an edge
interaction, the edge being `e` with the point `E` at the probe's height
(vertical span non-zero, edge parameter in `[0, 1]`) and `d` the distance
from the probe `P` to `E` as `sqrtf` returns it, `0 < d <= m` with `m` the
current margin radius: the iteration moves the probe to `E + (m / d) (P - E)`,
on the ray from `E` through `P`, and the scan of the list up to that surface
returns this position.  The squared length of the move is `(m - d)²` and the
squared distance of the new position to `E` is `m²`, both times the ratio of
the squared distance from `P` to `E` to `d²`; so the move is exactly `m - d` and
the new distance exactly `m` when `d` is that distance. -/
theorem wall_edge_push_reaches_margin (c : Config) (g : Globals) (data : WallCollisionData)
    (pre : List Surface) (surf : Surface) (e : EdgeProbe) (E : ℚ × ℚ)
    (hedge : InEdgeCase c g surf (clampedRadius data.radius) (data.y + data.offsetY)
      (wallLoopAfter c g data pre).x (wallLoopAfter c g data pre).z)
    (he : EdgeOfSurface surf (wallLoopAfter c g data pre).x (data.y + data.offsetY)
      (wallLoopAfter c g data pre).z e E)
    (hfire : wallEdgeCascade c surf (data.y + data.offsetY) (wallLoopAfter c g data pre).x
        (wallLoopAfter c g data pre).z (wallLoopAfter c g data pre).margin_radius
      = edgeBlock c surf e (wallLoopAfter c g data pre).x (wallLoopAfter c g data pre).z
        (wallLoopAfter c g data pre).margin_radius)
    (hey : e.ey ≠ 0) (hp : 0 ≤ e.param ∧ e.param ≤ 1) (hpos : 0 < e.distance c)
    (hm : e.distance c ≤ (wallLoopAfter c g data pre).margin_radius) :
    (wallStepAfter c g data pre surf).x - E.1
      = (wallLoopAfter c g data pre).margin_radius / e.distance c
        * ((wallLoopAfter c g data pre).x - E.1) ∧
    (wallStepAfter c g data pre surf).z - E.2
      = (wallLoopAfter c g data pre).margin_radius / e.distance c
        * ((wallLoopAfter c g data pre).z - E.2) ∧
    1 ≤ (wallLoopAfter c g data pre).margin_radius / e.distance c ∧
    sqDist ((wallStepAfter c g data pre surf).x, (wallStepAfter c g data pre surf).z)
        ((wallLoopAfter c g data pre).x, (wallLoopAfter c g data pre).z)
        * (e.distance c * e.distance c)
      = ((wallLoopAfter c g data pre).margin_radius - e.distance c)
        * ((wallLoopAfter c g data pre).margin_radius - e.distance c)
        * sqDist ((wallLoopAfter c g data pre).x, (wallLoopAfter c g data pre).z) E ∧
    sqDist ((wallStepAfter c g data pre surf).x, (wallStepAfter c g data pre surf).z) E
        * (e.distance c * e.distance c)
      = (wallLoopAfter c g data pre).margin_radius * (wallLoopAfter c g data pre).margin_radius
        * sqDist ((wallLoopAfter c g data pre).x, (wallLoopAfter c g data pre).z) E ∧
    (e.distance c * e.distance c
        = sqDist ((wallLoopAfter c g data pre).x, (wallLoopAfter c g data pre).z) E →
      sqDist ((wallStepAfter c g data pre surf).x, (wallStepAfter c g data pre surf).z)
          ((wallLoopAfter c g data pre).x, (wallLoopAfter c g data pre).z)
        = ((wallLoopAfter c g data pre).margin_radius - e.distance c)
          * ((wallLoopAfter c g data pre).margin_radius - e.distance c) ∧
      sqDist ((wallStepAfter c g data pre surf).x, (wallStepAfter c g data pre surf).z) E
        = (wallLoopAfter c g data pre).margin_radius
          * (wallLoopAfter c g data pre).margin_radius) ∧
    (wallStepAfter c g data pre surf).margin_radius
      = (wallLoopAfter c g data pre).margin_radius + 1 / 100 ∧
    (find_wall_collisions_from_list c g (pre ++ [surf]) data).2.x
      = (wallStepAfter c g data pre surf).x ∧
    (find_wall_collisions_from_list c g (pre ++ [surf]) data).2.z
      = (wallStepAfter c g data pre surf).z := by
  obtain ⟨hx, hz, hmr⟩ := wall_surface_edge_push c g surf (clampedRadius data.radius)
    (data.y + data.offsetY) (wallLoopAfter c g data pre).x (wallLoopAfter c g data pre).z
    (wallLoopAfter c g data pre).margin_radius e E hedge he hfire hey hp hm
  have hxs : (wallStepAfter c g data pre surf).x
      = (wallLoopAfter c g data pre).x + (E.1 - (wallLoopAfter c g data pre).x)
        * ((e.distance c - (wallLoopAfter c g data pre).margin_radius) / e.distance c) := hx
  have hzs : (wallStepAfter c g data pre surf).z
      = (wallLoopAfter c g data pre).z + (E.2 - (wallLoopAfter c g data pre).z)
        * ((e.distance c - (wallLoopAfter c g data pre).margin_radius) / e.distance c) := hz
  have hms : (wallStepAfter c g data pre surf).margin_radius
      = (wallLoopAfter c g data pre).margin_radius + 1 / 100 := hmr
  obtain ⟨lx, lz, -⟩ := find_wall_collisions_loop_run c g (clampedRadius data.radius)
    (data.y + data.offsetY) [surf] (wallLoopAfter c g data pre)
  simp only [wallFinal] at lx lz
  have happ : wallLoopAfter c g data (pre ++ [surf])
      = find_wall_collisions_loop c g (clampedRadius data.radius) (data.y + data.offsetY)
          [surf] (wallLoopAfter c g data pre) := by
    unfold wallLoopAfter
    exact find_wall_collisions_loop_append c g _ _ pre [surf] _
  have hfx : (find_wall_collisions_from_list c g (pre ++ [surf]) data).2.x
      = (wallStepAfter c g data pre surf).x := by
    show (wallLoopAfter c g data (pre ++ [surf])).x = _
    rw [happ]
    exact lx
  have hfz : (find_wall_collisions_from_list c g (pre ++ [surf]) data).2.z
      = (wallStepAfter c g data pre surf).z := by
    show (wallLoopAfter c g data (pre ++ [surf])).z = _
    rw [happ]
    exact lz
  generalize (wallStepAfter c g data pre surf).x = x1 at hxs hfx ⊢
  generalize (wallStepAfter c g data pre surf).z = z1 at hzs hfz ⊢
  generalize (wallLoopAfter c g data pre).x = x at hxs hzs ⊢
  generalize (wallLoopAfter c g data pre).z = z at hxs hzs ⊢
  generalize (wallLoopAfter c g data pre).margin_radius = m at hxs hzs hm hms ⊢
  generalize e.distance c = d at hxs hzs hm hpos ⊢
  have hne : d ≠ 0 := ne_of_gt hpos
  have h4 : sqDist (x1, z1) (x, z) * (d * d) = (m - d) * (m - d) * sqDist (x, z) E := by
    rw [hxs, hzs]
    unfold sqDist
    simp only []
    field_simp
    ring
  have h5 : sqDist (x1, z1) E * (d * d) = m * m * sqDist (x, z) E := by
    rw [hxs, hzs]
    unfold sqDist
    simp only []
    field_simp
    ring
  refine ⟨?_, ?_, ?_, h4, h5, ?_, hms, hfx, hfz⟩
  · rw [hxs]
    field_simp
    ring
  · rw [hzs]
    field_simp
    ring
  · rw [le_div_iff₀ hpos]
    linarith
  · intro hex
    have hdd : d * d ≠ 0 := mul_ne_zero hne hne
    rw [← hex] at h4 h5
    exact ⟨mul_right_cancel₀ hdd h4, mul_right_cancel₀ hdd h5⟩

/-- C22 at the probe `(21, 0, -28)` beside `edgeWall`, first in its list, with
radius 50 and margin radius 49: the point of edge 1-2 at height 0 is the
origin, `sqrtf` returns the distance 35, and the scan moves the probe by 14
to the distance 49 from it. -/
theorem wall_edge_push_reaches_margin_witness :
    (edge_1_2 edgeWall 21 0 (-28)).distance sm64 = 35 ∧
    (wallLoopAfter sm64 plainWorld (edgeQueryAt 21 (-28)) []).margin_radius = 50 - 1 ∧
    1 ≤ (wallLoopAfter sm64 plainWorld (edgeQueryAt 21 (-28)) []).margin_radius
      / (edge_1_2 edgeWall 21 0 (-28)).distance sm64 ∧
    sqDist ((wallStepAfter sm64 plainWorld (edgeQueryAt 21 (-28)) [] edgeWall).x,
        (wallStepAfter sm64 plainWorld (edgeQueryAt 21 (-28)) [] edgeWall).z)
        ((wallLoopAfter sm64 plainWorld (edgeQueryAt 21 (-28)) []).x,
          (wallLoopAfter sm64 plainWorld (edgeQueryAt 21 (-28)) []).z)
      = ((wallLoopAfter sm64 plainWorld (edgeQueryAt 21 (-28)) []).margin_radius
          - (edge_1_2 edgeWall 21 0 (-28)).distance sm64)
        * ((wallLoopAfter sm64 plainWorld (edgeQueryAt 21 (-28)) []).margin_radius
          - (edge_1_2 edgeWall 21 0 (-28)).distance sm64) ∧
    sqDist ((wallStepAfter sm64 plainWorld (edgeQueryAt 21 (-28)) [] edgeWall).x,
        (wallStepAfter sm64 plainWorld (edgeQueryAt 21 (-28)) [] edgeWall).z)
        ((0 : ℚ), (0 : ℚ))
      = (wallLoopAfter sm64 plainWorld (edgeQueryAt 21 (-28)) []).margin_radius
        * (wallLoopAfter sm64 plainWorld (edgeQueryAt 21 (-28)) []).margin_radius ∧
    (find_wall_collisions_from_list sm64 plainWorld ([] ++ [edgeWall])
        (edgeQueryAt 21 (-28))).2.x
      = (wallStepAfter sm64 plainWorld (edgeQueryAt 21 (-28)) [] edgeWall).x ∧
    (find_wall_collisions_from_list sm64 plainWorld ([] ++ [edgeWall])
        (edgeQueryAt 21 (-28))).2.z
      = (wallStepAfter sm64 plainWorld (edgeQueryAt 21 (-28)) [] edgeWall).z := by
  have hs : sm64.sqrtf ((21 : ℚ) * 21 + (-28) * (-28)) = 35 := by
    have := sm64_sqrtf_sq 35
    norm_num at this ⊢
    exact this
  have hr : clampedRadius (50 : ℚ) = 50 := by norm_num [clampedRadius]
  have h00 : (0 : ℚ) + 0 = 0 := by norm_num
  obtain ⟨hey, hparam, -⟩ := edgeWall_edge_1_2 21 (-28)
  have hd := (edgeWall_push_1_2 21 (-28) 49 35 hs).1
  have hb := edgeWall_block_1_2 21 (-28) 49 35 hs
  norm_num at hb
  have hc : wallEdgeCascade sm64 edgeWall 0 21 (-28) 49
      = edgeBlock sm64 edgeWall (edge_1_2 edgeWall 21 0 (-28)) 21 (-28) 49 :=
    (wallEdgeCascade_of_first sm64 edgeWall 0 21 (-28) 49 _ hb (fun h => by cases h)).trans
      hb.symm
  have h49 : (50 : ℚ) - 1 = 49 := by norm_num
  have hmr : (wallLoopAfter sm64 plainWorld (edgeQueryAt 21 (-28)) []).margin_radius = 50 - 1 :=
    rfl
  obtain ⟨-, -, a3, -, -, a6, -, a8, a9⟩ := wall_edge_push_reaches_margin sm64 plainWorld
    (edgeQueryAt 21 (-28)) [] edgeWall (edge_1_2 edgeWall 21 0 (-28)) ((0 : ℚ), (0 : ℚ))
    (by
      show InEdgeCase sm64 plainWorld edgeWall (clampedRadius 50) (0 + 0) 21 (-28)
      rw [hr, h00]
      exact edgeWall_inEdgeCase 50 21 (-28) (by norm_num) (by norm_num) (by norm_num))
    (by
      show EdgeOfSurface edgeWall 21 (0 + 0) (-28) (edge_1_2 edgeWall 21 0 (-28)) (0, 0)
      rw [h00]
      exact Or.inl ⟨rfl, by norm_num [edgePoint, edgeWall]⟩)
    (by
      show wallEdgeCascade sm64 edgeWall (0 + 0) 21 (-28) (50 - 1)
        = edgeBlock sm64 edgeWall (edge_1_2 edgeWall 21 0 (-28)) 21 (-28) (50 - 1)
      rw [h00, h49]
      exact hc)
    hey (by rw [hparam]; norm_num) (by rw [hd]; norm_num)
    (by
      show (edge_1_2 edgeWall 21 0 (-28)).distance sm64 ≤ 50 - 1
      rw [hd]
      norm_num)
  obtain ⟨b1, b2⟩ := a6 (by
    show (edge_1_2 edgeWall 21 0 (-28)).distance sm64 * (edge_1_2 edgeWall 21 0 (-28)).distance sm64
      = sqDist (21, -28) (0, 0)
    rw [hd]
    norm_num [sqDist])
  exact ⟨hd, hmr, a3, b1, b2, a8, a9⟩

/-- C21 as stated fails: in the scan of `[edgeWall, edgeWallUpper]` for the query
`(21, 0, -28)` with radius 50, `edgeWall` pushes the probe at its edge 1-2 to
`(147/5, -196/5)` and leaves the margin radius at 49.01, not at
`radius - 1 = 49`.  From that running position `edgeWallUpper`, which shares
the edge, pushes the probe by a further 0.01 and rejects the interaction,
whereas the same surface scanned from the same position by a query of its
own (margin radius 49) does not move the probe and records a hit. -/
theorem wall_margin_radius_carries_over :
    (edgeQueryAt 21 (-28)).radius - 1 = 49 ∧
    wall_surface sm64 plainWorld edgeWall 50 0 21 (-28) 49
      = WallStep.mk (147 / 5) (-(196 / 5)) (4901 / 100) false ∧
    (wallLoopAfter sm64 plainWorld (edgeQueryAt 21 (-28)) [edgeWall]).margin_radius
      = 4901 / 100 ∧
    wall_surface sm64 plainWorld edgeWallUpper 50 0 (147 / 5) (-(196 / 5)) (4901 / 100)
      = WallStep.mk (14703 / 500) (-(4901 / 125)) (2451 / 50) false ∧
    wall_surface sm64 plainWorld edgeWallUpper 50 0 (147 / 5) (-(196 / 5)) 49
      = WallStep.mk (147 / 5) (-(196 / 5)) (4901 / 100) true ∧
    (find_wall_collisions_from_list sm64 plainWorld [edgeWall, edgeWallUpper]
      (edgeQueryAt 21 (-28))).1 = 0 ∧
    (find_wall_collisions_from_list sm64 plainWorld [edgeWall, edgeWallUpper]
      (edgeQueryAt 21 (-28))).2.x = 14703 / 500 ∧
    (find_wall_collisions_from_list sm64 plainWorld [edgeWall, edgeWallUpper]
      (edgeQueryAt 21 (-28))).2.z = -(4901 / 125) ∧
    (find_wall_collisions_from_list sm64 plainWorld [edgeWallUpper]
      (edgeQueryAt (147 / 5) (-(196 / 5)))).1 = 1 ∧
    (find_wall_collisions_from_list sm64 plainWorld [edgeWallUpper]
      (edgeQueryAt (147 / 5) (-(196 / 5)))).2.x = 147 / 5 ∧
    (find_wall_collisions_from_list sm64 plainWorld [edgeWallUpper]
      (edgeQueryAt (147 / 5) (-(196 / 5)))).2.z = -(196 / 5) := by
  have hs1 : sm64.sqrtf ((21 : ℚ) * 21 + (-28) * (-28)) = 35 := by
    have := sm64_sqrtf_sq 35
    norm_num at this ⊢
    exact this
  have hs2 : sm64.sqrtf ((147 / 5 : ℚ) * (147 / 5) + (-(196 / 5)) * (-(196 / 5))) = 49 := by
    have := sm64_sqrtf_sq 49
    norm_num at this ⊢
    exact this
  -- the first surface
  have hb1 := edgeWall_block_1_2 21 (-28) 49 35 hs1
  norm_num at hb1
  have hc1 : wallEdgeCascade sm64 edgeWall 0 21 (-28) 49
      = EdgeResult.rejected (147 / 5) (-(196 / 5)) (4901 / 100) :=
    wallEdgeCascade_of_first sm64 edgeWall 0 21 (-28) 49 _ hb1 (fun h => by cases h)
  have hw1 := wall_surface_of_inEdgeCase sm64 plainWorld edgeWall 50 0 21 (-28) 49
    (edgeWall_inEdgeCase 50 21 (-28) (by norm_num) (by norm_num) (by norm_num))
  rw [hc1] at hw1
  have hw1b : wall_surface sm64 plainWorld edgeWall 50 0 21 (-28) 49
      = WallStep.mk (147 / 5) (-(196 / 5)) (4901 / 100) false := hw1
  -- the second surface with the margin radius left by the first
  have hin2 := edgeWallUpper_inEdgeCase 50 (147 / 5) (-(196 / 5)) (by norm_num) (by norm_num)
    (by norm_num)
  have hb2 := edgeWall_block_1_2 (147 / 5) (-(196 / 5)) (4901 / 100) 49 hs2
  norm_num at hb2
  have hc2 : wallEdgeCascade sm64 edgeWallUpper 0 (147 / 5) (-(196 / 5)) (4901 / 100)
      = EdgeResult.rejected (14703 / 500) (-(4901 / 125)) (2451 / 50) :=
    wallEdgeCascade_of_first sm64 edgeWallUpper 0 (147 / 5) (-(196 / 5)) (4901 / 100) _
      ((edgeWallUpper_block_1_2 (147 / 5) (-(196 / 5)) (4901 / 100)).trans hb2)
      (fun h => by cases h)
  have hw2 := wall_surface_of_inEdgeCase sm64 plainWorld edgeWallUpper 50 0 (147 / 5)
    (-(196 / 5)) (4901 / 100) hin2
  rw [hc2] at hw2
  have hw2b : wall_surface sm64 plainWorld edgeWallUpper 50 0 (147 / 5) (-(196 / 5))
      (4901 / 100) = WallStep.mk (14703 / 500) (-(4901 / 125)) (2451 / 50) false := hw2
  -- the second surface with margin radius 49
  have hb3 := edgeWall_block_1_2 (147 / 5) (-(196 / 5)) 49 49 hs2
  norm_num at hb3
  have hc3 : wallEdgeCascade sm64 edgeWallUpper 0 (147 / 5) (-(196 / 5)) 49
      = EdgeResult.hasCollision (147 / 5) (-(196 / 5)) (4901 / 100) :=
    wallEdgeCascade_of_first sm64 edgeWallUpper 0 (147 / 5) (-(196 / 5)) 49 _
      ((edgeWallUpper_block_1_2 (147 / 5) (-(196 / 5)) 49).trans hb3)
      (fun h => by cases h)
  have hw3 := wall_surface_of_inEdgeCase sm64 plainWorld edgeWallUpper 50 0 (147 / 5)
    (-(196 / 5)) 49 hin2
  rw [hc3] at hw3
  have hw3b : wall_surface sm64 plainWorld edgeWallUpper 50 0 (147 / 5) (-(196 / 5)) 49
      = WallStep.mk (147 / 5) (-(196 / 5)) (4901 / 100) true := hw3
  have hr : clampedRadius (50 : ℚ) = 50 := by norm_num [clampedRadius]
  obtain ⟨a1, a2, a3⟩ := find_wall_collisions_from_list_pair sm64 plainWorld edgeWall
    edgeWallUpper (edgeQueryAt 21 (-28)) (WallStep.mk (147 / 5) (-(196 / 5)) (4901 / 100) false)
    (WallStep.mk (14703 / 500) (-(4901 / 125)) (2451 / 50) false) (by
      simp only [edgeQueryAt, hr]
      norm_num
      exact hw1b) (by
      simp only [edgeQueryAt, hr]
      norm_num
      exact hw2b)
  obtain ⟨b1, b2, b3⟩ := find_wall_collisions_from_list_singleton sm64 plainWorld edgeWallUpper
    (edgeQueryAt (147 / 5) (-(196 / 5))) (WallStep.mk (147 / 5) (-(196 / 5)) (4901 / 100) true)
    (by
      simp only [edgeQueryAt, hr]
      norm_num
      exact hw3b)
  have hm : (wallLoopAfter sm64 plainWorld (edgeQueryAt 21 (-28)) [edgeWall]).margin_radius
      = 4901 / 100 := by
    have h := (find_wall_collisions_loop_run sm64 plainWorld
      (clampedRadius (edgeQueryAt 21 (-28)).radius)
      ((edgeQueryAt 21 (-28)).y + (edgeQueryAt 21 (-28)).offsetY) [edgeWall]
      (WallLoop.mk (edgeQueryAt 21 (-28)).x (edgeQueryAt 21 (-28)).z
        ((edgeQueryAt 21 (-28)).radius - 1) (edgeQueryAt 21 (-28)).numWalls
        (edgeQueryAt 21 (-28)).walls 0)).2.2
    have hstep : wall_surface sm64 plainWorld edgeWall
        (clampedRadius (edgeQueryAt 21 (-28)).radius)
        ((edgeQueryAt 21 (-28)).y + (edgeQueryAt 21 (-28)).offsetY) (edgeQueryAt 21 (-28)).x
        (edgeQueryAt 21 (-28)).z ((edgeQueryAt 21 (-28)).radius - 1)
        = WallStep.mk (147 / 5) (-(196 / 5)) (4901 / 100) false := by
      simp only [edgeQueryAt, hr]
      norm_num
      exact hw1b
    simp only [wallFinal, hstep] at h
    exact h
  refine ⟨by norm_num [edgeQueryAt], hw1b, hm, hw2b, hw3b, a1, a2, a3, b1, b2, b3⟩

/-- C21, amended: the 0.01 enlargement of the margin radius persists for the
rest of the call of `find_wall_collisions_from_list`.  A surface `s` that
follows the surfaces `pre` in the list is processed from the loop state that
`pre` left, whose margin radius is `radius - 1` plus 0.01 for every surface
of `pre` that pushed the probe at an edge (`radius` the unclamped query
radius); the first surface of a list starts with `radius - 1`. -/
theorem wall_margin_radius_accumulates (c : Config) (g : Globals) (data : WallCollisionData)
    (pre post : List Surface) (s : Surface) :
    (wallLoopAfter c g data []).margin_radius = data.radius - 1 ∧
    (wallLoopAfter c g data pre).margin_radius
      = data.radius - 1 + (edgePushes c g (clampedRadius data.radius) (data.y + data.offsetY)
          pre data.x data.z (data.radius - 1) : ℚ) / 100 ∧
    wallLoopAfter c g data (pre ++ s :: post)
      = find_wall_collisions_loop c g (clampedRadius data.radius) (data.y + data.offsetY)
          (s :: post) (wallLoopAfter c g data pre) ∧
    (wallLoopAfter c g data (pre ++ [s])).x
      = (wall_surface c g s (clampedRadius data.radius) (data.y + data.offsetY)
          (wallLoopAfter c g data pre).x (wallLoopAfter c g data pre).z
          (data.radius - 1 + (edgePushes c g (clampedRadius data.radius)
            (data.y + data.offsetY) pre data.x data.z (data.radius - 1) : ℚ) / 100)).x ∧
    (wallLoopAfter c g data (pre ++ [s])).z
      = (wall_surface c g s (clampedRadius data.radius) (data.y + data.offsetY)
          (wallLoopAfter c g data pre).x (wallLoopAfter c g data pre).z
          (data.radius - 1 + (edgePushes c g (clampedRadius data.radius)
            (data.y + data.offsetY) pre data.x data.z (data.radius - 1) : ℚ) / 100)).z ∧
    (wallLoopAfter c g data (pre ++ [s])).numCols
      = (wallLoopAfter c g data pre).numCols +
        (if (wall_surface c g s (clampedRadius data.radius) (data.y + data.offsetY)
          (wallLoopAfter c g data pre).x (wallLoopAfter c g data pre).z
          (data.radius - 1 + (edgePushes c g (clampedRadius data.radius)
            (data.y + data.offsetY) pre data.x data.z (data.radius - 1) : ℚ) / 100)).hasCollision
          = true then 1 else 0) ∧
    find_wall_collisions_from_list c g (pre ++ s :: post) data
      = ((wallLoopAfter c g data (pre ++ s :: post)).numCols,
          WallCollisionData.mk (wallLoopAfter c g data (pre ++ s :: post)).x data.y
            (wallLoopAfter c g data (pre ++ s :: post)).z data.offsetY data.radius
            (wallLoopAfter c g data (pre ++ s :: post)).numWalls
            (wallLoopAfter c g data (pre ++ s :: post)).walls) := by
  have hA : (wallLoopAfter c g data pre).margin_radius
      = data.radius - 1 + (edgePushes c g (clampedRadius data.radius) (data.y + data.offsetY)
          pre data.x data.z (data.radius - 1) : ℚ) / 100 := by
    unfold wallLoopAfter
    rw [(find_wall_collisions_loop_run c g _ _ pre _).2.2, wallFinal_margin]
  have hB : ∀ l2, wallLoopAfter c g data (pre ++ l2)
      = find_wall_collisions_loop c g (clampedRadius data.radius) (data.y + data.offsetY)
          l2 (wallLoopAfter c g data pre) := by
    intro l2
    unfold wallLoopAfter
    exact find_wall_collisions_loop_append c g _ _ pre l2 _
  obtain ⟨hx, hz, -⟩ := find_wall_collisions_loop_run c g (clampedRadius data.radius)
    (data.y + data.offsetY) [s] (wallLoopAfter c g data pre)
  have hn := find_wall_collisions_loop_numCols c g (clampedRadius data.radius)
    (data.y + data.offsetY) [s] (wallLoopAfter c g data pre)
  simp only [wallFinal] at hx hz
  simp only [wallHits] at hn
  rw [hA] at hx hz hn
  refine ⟨rfl, hA, hB (s :: post), ?_, ?_, ?_, rfl⟩
  · rw [hB [s]]
    exact hx
  · rw [hB [s]]
    exact hz
  · rw [hB [s], hn]
    split_ifs <;> simp

/-- C21, amended, at the list `[edgeWall]` followed by `edgeWallUpper` for the
query `(21, 0, -28)` with radius 50: `edgeWall` pushes at an edge, so one edge
push is counted and `edgeWallUpper` is reached with the margin radius
`50 - 1 + 1/100`. -/
theorem wall_margin_radius_accumulates_witness :
    edgePushes sm64 plainWorld 50 0 [edgeWall] 21 (-28) 49 = 1 ∧
    (wallLoopAfter sm64 plainWorld (edgeQueryAt 21 (-28)) [edgeWall]).margin_radius
      = (edgeQueryAt 21 (-28)).radius - 1 +
        (edgePushes sm64 plainWorld (clampedRadius (edgeQueryAt 21 (-28)).radius)
          ((edgeQueryAt 21 (-28)).y + (edgeQueryAt 21 (-28)).offsetY) [edgeWall]
          (edgeQueryAt 21 (-28)).x (edgeQueryAt 21 (-28)).z
          ((edgeQueryAt 21 (-28)).radius - 1) : ℚ) / 100 := by
  have hs1 : sm64.sqrtf ((21 : ℚ) * 21 + (-28) * (-28)) = 35 := by
    have := sm64_sqrtf_sq 35
    norm_num at this ⊢
    exact this
  have hb1 := edgeWall_block_1_2 21 (-28) 49 35 hs1
  norm_num at hb1
  have hc1 : wallEdgeCascade sm64 edgeWall 0 21 (-28) 49
      = EdgeResult.rejected (147 / 5) (-(196 / 5)) (4901 / 100) :=
    wallEdgeCascade_of_first sm64 edgeWall 0 21 (-28) 49 _ hb1 (fun h => by cases h)
  have hp : EdgePushed sm64 plainWorld edgeWall 50 0 21 (-28) 49 :=
    ⟨edgeWall_inEdgeCase 50 21 (-28) (by norm_num) (by norm_num) (by norm_num), by
      rw [hc1]
      rfl⟩
  refine ⟨?_, (wall_margin_radius_accumulates sm64 plainWorld (edgeQueryAt 21 (-28))
    [edgeWall] [] edgeWallUpper).2.1⟩
  simp only [edgePushes, if_pos hp]

end SurfaceCollision
